import Mathlib

/-!
# MCLinker, ARM ELF backend (`lib/Target/ARM/ARMLDBackend.cpp`)

A shallow embedding of the relocation scanner of `ARMGNULDBackend`
(`checkValidReloc`, `scanLocalReloc`, `scanGlobalReloc`, `scanRelocation`,
`defineSymbolforCopyReloc`, `addCopyReloc`), of its layout hooks
(`doPreLayout`, `defineGOTSymbol`, `getTargetSectionOrder`,
`doCreateProgramHdrs`), of `emitSectionData` and of `doRelax`, together with
the part of the linker state these functions read and write.

Conventions of the embedding.

* A `ResolveInfo*` is a natural number (the address of the object); the
  objects themselves live in `LinkState.resolveInfo`.
* `switch` fall-through is written out: a case that rewrites the type and
  falls into the next case calls the same body on the rewritten relocation.
* `error(..)` and `fatal(..)` append one record to `LinkState.diagnostics`;
  control continues with the statement that follows in the source.
* A function with an `Option` result returns `none` exactly when the source
  dereferences a null or dangling pointer or an `assert` of the source
  fails; `emitSectionData` names the way it fails (`EmitError`).
-/

namespace mcld

/-! ## Relocation codes -/

/-- Modelled from the spec: the ARM relocation codes of `llvm::ELF` that the
source file names (the header that numbers them is not part of the file).
`other` stands for any code the file does not name. -/
inductive RelocType where
  | R_ARM_PC24 | R_ARM_ABS32 | R_ARM_REL32 | R_ARM_LDR_PC_G0 | R_ARM_ABS16
  | R_ARM_ABS12 | R_ARM_THM_ABS5 | R_ARM_ABS8 | R_ARM_SBREL32 | R_ARM_THM_CALL
  | R_ARM_THM_PC8 | R_ARM_THM_XPC22
  | R_ARM_TLS_DTPMOD32 | R_ARM_TLS_DTPOFF32 | R_ARM_TLS_TPOFF32
  | R_ARM_COPY | R_ARM_GLOB_DAT | R_ARM_JUMP_SLOT | R_ARM_RELATIVE
  | R_ARM_GOTOFF32 | R_ARM_BASE_PREL | R_ARM_GOT_BREL | R_ARM_PLT32
  | R_ARM_CALL | R_ARM_JUMP24 | R_ARM_THM_JUMP24 | R_ARM_BASE_ABS
  | R_ARM_SBREL31 | R_ARM_V4BX | R_ARM_TARGET1 | R_ARM_TARGET2 | R_ARM_PREL31
  | R_ARM_MOVW_ABS_NC | R_ARM_MOVT_ABS | R_ARM_MOVW_PREL_NC | R_ARM_MOVT_PREL
  | R_ARM_THM_MOVW_ABS_NC | R_ARM_THM_MOVT_ABS | R_ARM_THM_MOVW_PREL_NC
  | R_ARM_THM_MOVT_PREL | R_ARM_THM_JUMP19 | R_ARM_THM_JUMP6
  | R_ARM_THM_ALU_PREL_11_0 | R_ARM_THM_PC12 | R_ARM_ABS32_NOI
  | R_ARM_REL32_NOI | R_ARM_ALU_PC_G0_NC | R_ARM_ALU_PC_G0
  | R_ARM_ALU_PC_G1_NC | R_ARM_ALU_PC_G1 | R_ARM_ALU_PC_G2 | R_ARM_LDR_PC_G1
  | R_ARM_LDR_PC_G2 | R_ARM_LDRS_PC_G0 | R_ARM_LDRS_PC_G1 | R_ARM_LDRS_PC_G2
  | R_ARM_LDC_PC_G0 | R_ARM_LDC_PC_G1 | R_ARM_LDC_PC_G2 | R_ARM_ALU_SB_G0_NC
  | R_ARM_ALU_SB_G0 | R_ARM_ALU_SB_G1_NC | R_ARM_ALU_SB_G1 | R_ARM_ALU_SB_G2
  | R_ARM_LDR_SB_G0 | R_ARM_LDR_SB_G1 | R_ARM_LDR_SB_G2 | R_ARM_LDRS_SB_G0
  | R_ARM_LDRS_SB_G1 | R_ARM_LDRS_SB_G2 | R_ARM_LDC_SB_G0 | R_ARM_LDC_SB_G1
  | R_ARM_LDC_SB_G2 | R_ARM_MOVW_BREL_NC | R_ARM_MOVT_BREL | R_ARM_MOVW_BREL
  | R_ARM_GOT_ABS | R_ARM_GOT_PREL | R_ARM_GOTOFF12 | R_ARM_THM_JUMP11
  | R_ARM_THM_JUMP8 | R_ARM_THM_MOVW_BREL_NC | R_ARM_THM_MOVT_BREL
  | R_ARM_THM_MOVW_BREL
  | other
  deriving DecidableEq, Repr

/-! ## Symbols -/

/-- Modelled from the spec: `ResolveInfo::Type` (object/function/tls/none). -/
inductive SymType where
  | NoType | Object | Function | ThreadLocal
  deriving DecidableEq, Repr

/-- Modelled from the spec: `ResolveInfo::Desc`, whether the symbol is
undefined, defined or common. -/
inductive Desc where
  | Undefined | Define | Common
  deriving DecidableEq, Repr

/-- Modelled from the spec: `ResolveInfo::Binding` (local/global/weak, and
the absolute binding used for the empty `__exidx_start`). -/
inductive Binding where
  | Global | Weak | Local | Absolute
  deriving DecidableEq, Repr

/-- Modelled from the spec: `ResolveInfo::Visibility`
(default/hidden/protected/internal). -/
inductive Visibility where
  | Default | Internal | Hidden | Protected
  deriving DecidableEq, Repr

/-- Modelled from the spec: the symbol info `ResolveInfo` (name, type,
binding, visibility, the `reserved` bit mask), with the attributes the
scanner queries. -/
structure ResolveInfo where
  name : String
  type : SymType
  desc : Desc
  binding : Binding
  isDyn : Bool
  isNull : Bool
  size : Nat
  other : Visibility
  reserved : Nat
  deriving DecidableEq, Repr

/-- Accessor `ResolveInfo::isLocal`. -/
def ResolveInfo.isLocal (r : ResolveInfo) : Bool := r.binding == Binding.Local

/-- Accessor `ResolveInfo::isWeak`. -/
def ResolveInfo.isWeak (r : ResolveInfo) : Bool := r.binding == Binding.Weak

/-- Accessor `ResolveInfo::isUndef`. -/
def ResolveInfo.isUndef (r : ResolveInfo) : Bool := r.desc == Desc.Undefined

/-- Accessor `ResolveInfo::isDefine`. -/
def ResolveInfo.isDefine (r : ResolveInfo) : Bool := r.desc == Desc.Define

/-- Modelled from the spec: `ReservedEntryType::ReserveRel`, one of the four
distinct flags of the `reserved` mask. -/
def ReserveRel : Nat := 0x1

/-- Modelled from the spec: `ReservedEntryType::ReserveGOT` (`0x2`). -/
def ReserveGOT : Nat := 0x2

/-- Modelled from the spec: `ReservedEntryType::GOTRel` (`0x4`). -/
def GOTRel : Nat := 0x4

/-- Modelled from the spec: `ReservedEntryType::ReservePLT`, one of the four
distinct flags of the `reserved` mask. -/
def ReservePLT : Nat := 0x8

/-- An `LDSymbol`, as far as the scanner looks at it: the address of its
`ResolveInfo`. -/
structure LDSymbol where
  resolveInfo : Nat
  deriving DecidableEq, Repr

/-! ## Relocations and sections -/

/-- A `Relocation`: its type, the address of its symbol info and its addend. -/
structure Relocation where
  type : RelocType
  symInfo : Nat
  addend : Int
  deriving DecidableEq, Repr

/-- Method `Relocation::setType`. -/
def Relocation.setType (r : Relocation) (t : RelocType) : Relocation :=
  { r with type := t }

/-- The section a relocation section is linked to (the section it patches). -/
structure LinkedSection where
  name : String
  flag : Nat
  deriving DecidableEq, Repr

/-- The relocation section handed to the scanner; `getLink` is the section
its relocations apply to (asserted non-null by `scanRelocation`). -/
structure LDSection where
  name : String
  flag : Nat
  getLink : LinkedSection
  deriving DecidableEq, Repr

/-- The ELF section flag `llvm::ELF::SHF_ALLOC`. -/
def SHF_ALLOC : Nat := 0x2

/-! ## Fragments and output sections -/

/-- Reference to a place in an output section: which section data, which
fragment of it, and the byte offset inside the fragment. -/
structure FragmentRef where
  threadLocal : Bool
  frag : Nat
  offset : Nat
  deriving DecidableEq, Repr

/-- The fragment kinds the backend creates and emits. -/
inductive Fragment where
  | Fillment (value valueSize size : Nat)
  | Region (bytes : List Nat)
  | Alignment (value valueSize size : Nat)
  | Null
  | Stub (size : Nat)
  deriving DecidableEq, Repr

/-- Method `Fragment::size`. -/
def Fragment.size : Fragment → Nat
  | Fragment.Fillment _ _ n => n
  | Fragment.Region bs => bs.length
  | Fragment.Alignment _ _ n => n
  | Fragment.Null => 0
  | Fragment.Stub n => n

/-- An output section with lazily created section data (`.bss`, `.tbss`). -/
structure OutputSection where
  size : Nat
  sectionData : Option (List Fragment)
  deriving DecidableEq, Repr

/-- Modelled from the spec: `ObjectBuilder::AppendFragment` with an alignment
constraint. The fragment is appended at the end of the section data, after
the padding that aligns it; the result is the padding plus the fragment's
size, and the new section data. -/
def AppendFragment (frag : Fragment) (sd : List Fragment) (align : Nat) :
    Nat × List Fragment :=
  let offset := (sd.map Fragment.size).sum
  if 1 < align then
    let pad := (align - offset % align) % align
    (pad + frag.size, sd ++ [Fragment.Alignment 0 1 pad, frag])
  else
    (frag.size, sd ++ [frag])

/-! ## GOT, PLT and the dynamic relocation tables -/

/-- Modelled from the spec: the GOT manager `ARMGOT`. `got` counts the slots
reserved by `reserveGOT`, `gotplt` the slots reserved on behalf of the PLT. -/
structure ARMGOT where
  got : Nat
  gotplt : Nat
  deriving DecidableEq, Repr

/-- Modelled from the spec: the number of GOT entries, the three reserved
header slots included. -/
def ARMGOT.entries (g : ARMGOT) : Nat := 3 + g.got + g.gotplt

/-- Modelled from the spec: `ARMGOT::reserveGOT`, which increments the
reservation count. -/
def ARMGOT.reserveGOT (g : ARMGOT) : ARMGOT := { g with got := g.got + 1 }

/-- Modelled from the spec: the PLT manager `ARMPLT`; `plt1` counts the PLT1
entries. -/
structure ARMPLT where
  plt1 : Nat
  deriving DecidableEq, Repr

/-- The arguments of one `IRBuilder::AddSymbol<Force, Resolve>` call. -/
structure SymbolDef where
  name : String
  type : SymType
  desc : Desc
  binding : Binding
  size : Nat
  value : Nat
  fragRef : FragmentRef
  visibility : Visibility
  deriving DecidableEq, Repr

/-- A materialised dynamic relocation entry. -/
structure DynReloc where
  type : RelocType
  targetRef : FragmentRef
  symInfo : SymbolDef
  deriving DecidableEq, Repr

/-- Modelled from the spec: `OutputRelocSection` (`.rel.dyn`, `.rel.plt`):
the count of reserved entries and the entries materialised so far. -/
structure OutputRelocSection where
  numOfRelocs : Nat
  consumed : List DynReloc
  deriving DecidableEq, Repr

/-- Modelled from the spec: `OutputRelocSection::reserveEntry`. -/
def OutputRelocSection.reserveEntry (s : OutputRelocSection) : OutputRelocSection :=
  { s with numOfRelocs := s.numOfRelocs + 1 }

/-! ## Diagnostics -/

/-- The two severities the scanner uses (`error`, `fatal`). -/
inductive Severity where
  | Error | Fatal
  deriving DecidableEq, Repr

/-- The diagnostic identifiers of the scanner. -/
inductive DiagID where
  | non_pic_relocation | base_relocation | dynamic_relocation
  | undefined_reference
  deriving DecidableEq, Repr

/-- One reported diagnostic with its streamed arguments. -/
structure Diagnostic where
  severity : Severity
  id : DiagID
  type : Option RelocType
  args : List String
  deriving DecidableEq, Repr

/-! ## Configuration and the services of the base class -/

/-- The value of `LinkerConfig::codeGenType`. -/
inductive CodeGenType where
  | Object | DynObj | Exec
  deriving DecidableEq, Repr

/-- The configuration inputs the backend consumes. -/
structure LinkerConfig where
  codeGenType : CodeGenType
  isCodeStatic : Bool
  isCodeIndep : Bool
  bitclass : Nat
  is32Bits : Bool
  hasNow : Bool
  deriving DecidableEq, Repr

/-- What the scanner takes from `GNULDBackend` and from `Relocation`: the
configuration and the predicates on symbols, whose definitions are outside
the file and are therefore arbitrary here. -/
structure GNULDBackend where
  config : LinkerConfig
  symbolNeedsPLT : ResolveInfo → Bool
  symbolNeedsDynRel : ResolveInfo → Bool → Bool → Bool
  symbolNeedsCopyReloc : Relocation → ResolveInfo → Bool
  symbolFinalValueIsKnown : ResolveInfo → Bool
  isSymbolPreemptible : ResolveInfo → Bool
  refreshedAddend : Relocation → Int

/-! ## The linker state the scanner works on -/

/-- The mutable state: the `ResolveInfo` objects by address, the members of
`ARMGNULDBackend` the scanner uses, `.bss`/`.tbss`, the symbols defined
through the builder, the sections handed to `checkAndSetHasTextRel`, and the
diagnostics reported so far. -/
structure LinkState where
  resolveInfo : Nat → ResolveInfo
  m_pGOT : ARMGOT
  m_pPLT : ARMPLT
  m_pRelDyn : OutputRelocSection
  m_pRelPLT : OutputRelocSection
  m_pGOTSymbol : Option LDSymbol
  bss : OutputSection
  tbss : OutputSection
  definedSymbols : List SymbolDef
  textRelChecked : List LinkedSection
  diagnostics : List Diagnostic

/-- Method `ResolveInfo::setReserved` on the object at address `p`. -/
def LinkState.setReserved (st : LinkState) (p : Nat) (v : Nat) : LinkState :=
  { st with resolveInfo :=
      Function.update st.resolveInfo p { st.resolveInfo p with reserved := v } }

/-- Report a diagnostic. -/
def LinkState.report (st : LinkState) (d : Diagnostic) : LinkState :=
  { st with diagnostics := st.diagnostics ++ [d] }

/-- Call `m_pGOT->reserveGOT()`. -/
def LinkState.reserveGOT (st : LinkState) : LinkState :=
  { st with m_pGOT := st.m_pGOT.reserveGOT }

/-- Modelled from the spec: `m_pPLT->reserveEntry()`, which reserves one PLT1
entry and, through the GOT manager, its paired GOT slot. -/
def LinkState.reservePLTEntry (st : LinkState) : LinkState :=
  { st with m_pPLT := { st.m_pPLT with plt1 := st.m_pPLT.plt1 + 1 },
            m_pGOT := { st.m_pGOT with gotplt := st.m_pGOT.gotplt + 1 } }

/-- Call `m_pRelDyn->reserveEntry()`. -/
def LinkState.reserveRelDyn (st : LinkState) : LinkState :=
  { st with m_pRelDyn := st.m_pRelDyn.reserveEntry }

/-- Call `m_pRelPLT->reserveEntry()`. -/
def LinkState.reserveRelPLT (st : LinkState) : LinkState :=
  { st with m_pRelPLT := st.m_pRelPLT.reserveEntry }

/-- Modelled from the spec: `checkAndSetHasTextRel(section)` of the base
class, which records a text relocation on the linked section where
applicable; here the section handed over is recorded. -/
def LinkState.checkAndSetHasTextRel (st : LinkState) (s : LinkedSection) : LinkState :=
  { st with textRelChecked := st.textRelChecked ++ [s] }

/-- The state before any relocation is scanned: the symbols are those of
`info` with their `reserved` masks cleared, nothing is reserved and nothing
has been reported. -/
def LinkState.initial (info : Nat → ResolveInfo) (gotSymbol : Option LDSymbol) :
    LinkState :=
  { resolveInfo := fun p => { info p with reserved := 0 },
    m_pGOT := { got := 0, gotplt := 0 },
    m_pPLT := { plt1 := 0 },
    m_pRelDyn := { numOfRelocs := 0, consumed := [] },
    m_pRelPLT := { numOfRelocs := 0, consumed := [] },
    m_pGOTSymbol := gotSymbol,
    bss := { size := 0, sectionData := none },
    tbss := { size := 0, sectionData := none },
    definedSymbols := [],
    textRelChecked := [],
    diagnostics := [] }

/-! ## Copy relocations -/

/-- Function `ARMGNULDBackend::defineSymbolforCopyReloc`: make room for the
copy in `.bss` (`.tbss` for a thread-local symbol) and define the copy
symbol there. Returns the defined symbol and the new state. -/
def defineSymbolforCopyReloc (base : GNULDBackend) (st : LinkState)
    (pSym : ResolveInfo) : SymbolDef × LinkState :=
  let tls := pSym.type == SymType.ThreadLocal
  let bss_sect_hdr := if tls then st.tbss else st.bss
  let bss_data := match bss_sect_hdr.sectionData with
    | some d => d
    | none => []
  let addralign := (base.config.bitclass / 8) % 2 ^ 32
  let frag := Fragment.Fillment 0x0 1 pSym.size
  let appended := AppendFragment frag bss_data addralign
  let sect : OutputSection :=
    { size := (bss_sect_hdr.size + appended.1) % 2 ^ 64,
      sectionData := some appended.2 }
  let binding := if pSym.binding == Binding.Weak then Binding.Global else pSym.binding
  let cpy_sym : SymbolDef :=
    { name := pSym.name, type := pSym.type, desc := Desc.Define,
      binding := binding, size := pSym.size, value := 0x0,
      fragRef := { threadLocal := tls, frag := appended.2.length - 1, offset := 0x0 },
      visibility := pSym.other }
  let st1 : LinkState := if tls then { st with tbss := sect } else { st with bss := sect }
  (cpy_sym, { st1 with definedSymbols := st1.definedSymbols ++ [cpy_sym] })

/-- Function `ARMGNULDBackend::addCopyReloc`: materialise one `.rel.dyn`
entry of type `R_ARM_COPY` for the copy symbol. -/
def addCopyReloc (st : LinkState) (pSym : SymbolDef) : LinkState :=
  let rel_entry : DynReloc :=
    { type := RelocType.R_ARM_COPY, targetRef := pSym.fragRef, symInfo := pSym }
  { st with m_pRelDyn :=
      { st.m_pRelDyn with consumed := st.m_pRelDyn.consumed ++ [rel_entry] } }

/-! ## The relocation scanner -/

/-- Function `ARMGNULDBackend::checkValidReloc`: under PIC, report a type the
dynamic linker does not support. -/
def checkValidReloc (base : GNULDBackend) (st : LinkState) (pReloc : Relocation) :
    LinkState :=
  if !base.config.isCodeIndep then st
  else
    match pReloc.type with
    | RelocType.R_ARM_RELATIVE | RelocType.R_ARM_COPY | RelocType.R_ARM_GLOB_DAT
    | RelocType.R_ARM_JUMP_SLOT | RelocType.R_ARM_ABS32 | RelocType.R_ARM_ABS32_NOI
    | RelocType.R_ARM_PC24 | RelocType.R_ARM_TLS_DTPMOD32
    | RelocType.R_ARM_TLS_DTPOFF32 | RelocType.R_ARM_TLS_TPOFF32 => st
    | _ =>
      st.report { severity := Severity.Error, id := DiagID.non_pic_relocation,
                  type := some pReloc.type,
                  args := [(st.resolveInfo pReloc.symInfo).name] }

/-- Body of the cases `R_ARM_ABS32`, `R_ARM_ABS32_NOI` of `scanLocalReloc`
(entered by `R_ARM_TARGET1` after the rewrite). -/
def scanLocalReloc.abs32 (base : GNULDBackend) (st : LinkState) (pReloc : Relocation)
    (pSection : LDSection) : LinkState :=
  let rsym := pReloc.symInfo
  if base.config.isCodeIndep then
    let st1 := st.reserveRelDyn
    let st2 := st1.setReserved rsym ((st1.resolveInfo rsym).reserved ||| ReserveRel)
    st2.checkAndSetHasTextRel pSection.getLink
  else st

/-- Body of the cases `R_ARM_GOT_BREL`, `R_ARM_GOT_PREL` of `scanLocalReloc`
(entered by `R_ARM_TARGET2` after the rewrite). -/
def scanLocalReloc.got (base : GNULDBackend) (st : LinkState) (pReloc : Relocation) :
    LinkState :=
  let rsym := pReloc.symInfo
  if (st.resolveInfo rsym).reserved &&& (ReserveGOT ||| GOTRel) ≠ 0 then st
  else
    let st1 := st.reserveGOT
    if base.config.isCodeIndep then
      let st2 := st1.reserveRelDyn
      st2.setReserved rsym ((st2.resolveInfo rsym).reserved ||| 0x4)
    else
      st1.setReserved rsym ((st1.resolveInfo rsym).reserved ||| 0x2)

/-- Function `ARMGNULDBackend::scanLocalReloc`. The result is the relocation
(its type may have been rewritten) and the new state. -/
def scanLocalReloc (base : GNULDBackend) (st : LinkState) (pReloc : Relocation)
    (pSection : LDSection) : Option (Relocation × LinkState) :=
  let rsym := pReloc.symInfo
  match pReloc.type with
  | RelocType.R_ARM_TARGET1 =>
    let r := pReloc.setType RelocType.R_ARM_ABS32
    some (r, scanLocalReloc.abs32 base st r pSection)
  | RelocType.R_ARM_ABS32 | RelocType.R_ARM_ABS32_NOI =>
    some (pReloc, scanLocalReloc.abs32 base st pReloc pSection)
  | RelocType.R_ARM_ABS16 | RelocType.R_ARM_ABS12 | RelocType.R_ARM_THM_ABS5
  | RelocType.R_ARM_ABS8 | RelocType.R_ARM_BASE_ABS | RelocType.R_ARM_MOVW_ABS_NC
  | RelocType.R_ARM_MOVT_ABS | RelocType.R_ARM_THM_MOVW_ABS_NC
  | RelocType.R_ARM_THM_MOVT_ABS =>
    if base.config.isCodeIndep then
      some (pReloc,
        st.report { severity := Severity.Error, id := DiagID.non_pic_relocation,
                    type := some pReloc.type,
                    args := [(st.resolveInfo pReloc.symInfo).name] })
    else some (pReloc, st)
  | RelocType.R_ARM_GOTOFF32 | RelocType.R_ARM_GOTOFF12 => some (pReloc, st)
  | RelocType.R_ARM_TARGET2 =>
    let r := pReloc.setType RelocType.R_ARM_GOT_PREL
    some (r, scanLocalReloc.got base st r)
  | RelocType.R_ARM_GOT_BREL | RelocType.R_ARM_GOT_PREL =>
    some (pReloc, scanLocalReloc.got base st pReloc)
  | RelocType.R_ARM_BASE_PREL =>
    match st.m_pGOTSymbol with
    | none => none
    | some gotSymbol =>
      if rsym ≠ gotSymbol.resolveInfo then
        some (pReloc,
          st.report { severity := Severity.Fatal, id := DiagID.base_relocation,
                      type := some pReloc.type,
                      args := [(st.resolveInfo rsym).name, "mclinker@googlegroups.com"] })
      else some (pReloc, st)
  | RelocType.R_ARM_COPY | RelocType.R_ARM_GLOB_DAT | RelocType.R_ARM_JUMP_SLOT
  | RelocType.R_ARM_RELATIVE =>
    some (pReloc,
      st.report { severity := Severity.Fatal, id := DiagID.dynamic_relocation,
                  type := some pReloc.type, args := [] })
  | _ => some (pReloc, st)

/-- The statements that reserve a PLT entry for `rsym`: `m_pPLT->reserveEntry()`,
`m_pRelPLT->reserveEntry()` and setting the PLT bit. -/
def scanGlobalReloc.reservePLT (st : LinkState) (rsym : Nat) : LinkState :=
  let st1 := st.reservePLTEntry
  let st2 := st1.reserveRelPLT
  st2.setReserved rsym ((st2.resolveInfo rsym).reserved ||| ReservePLT)

/-- The block `if (symbolNeedsDynRel(..)) { .. }` shared by the absolute and
the relative cases of `scanGlobalReloc`; `isAbsReloc` is the third argument
of `symbolNeedsDynRel`. -/
def scanGlobalReloc.dynRel (base : GNULDBackend) (st : LinkState) (pReloc : Relocation)
    (pSection : LDSection) (isAbsReloc : Bool) : LinkState :=
  let rsym := pReloc.symInfo
  if base.symbolNeedsDynRel (st.resolveInfo rsym)
      (decide ((st.resolveInfo rsym).reserved &&& ReservePLT ≠ 0)) isAbsReloc then
    let st1 := st.reserveRelDyn
    if base.symbolNeedsCopyReloc pReloc (st1.resolveInfo rsym) then
      let cpy := defineSymbolforCopyReloc base st1 (st1.resolveInfo rsym)
      addCopyReloc cpy.2 cpy.1
    else
      let st2 := checkValidReloc base st1 pReloc
      let st3 := st2.setReserved rsym ((st2.resolveInfo rsym).reserved ||| ReserveRel)
      st3.checkAndSetHasTextRel pSection.getLink
  else st

/-- Body of the absolute cases of `scanGlobalReloc` (entered by
`R_ARM_TARGET1` after the rewrite). -/
def scanGlobalReloc.abs (base : GNULDBackend) (st : LinkState) (pReloc : Relocation)
    (pSection : LDSection) : LinkState :=
  let rsym := pReloc.symInfo
  let st1 :=
    if base.symbolNeedsPLT (st.resolveInfo rsym) then
      if ¬ ((st.resolveInfo rsym).reserved &&& ReservePLT ≠ 0) then
        scanGlobalReloc.reservePLT st rsym
      else st
    else st
  scanGlobalReloc.dynRel base st1 pReloc pSection true

/-- Body of the branch cases of `scanGlobalReloc`. -/
def scanGlobalReloc.branch (base : GNULDBackend) (st : LinkState) (pReloc : Relocation) :
    LinkState :=
  let rsym := pReloc.symInfo
  if (st.resolveInfo rsym).reserved &&& ReservePLT ≠ 0 then st
  else if base.symbolFinalValueIsKnown (st.resolveInfo rsym) then st
  else if (st.resolveInfo rsym).isDefine && !(st.resolveInfo rsym).isDyn &&
      !base.isSymbolPreemptible (st.resolveInfo rsym) then st
  else scanGlobalReloc.reservePLT st rsym

/-- Body of the GOT cases of `scanGlobalReloc` (entered by `R_ARM_TARGET2`
after the rewrite). -/
def scanGlobalReloc.got (base : GNULDBackend) (st : LinkState) (pReloc : Relocation) :
    LinkState :=
  let rsym := pReloc.symInfo
  if (st.resolveInfo rsym).reserved &&& (ReserveGOT ||| GOTRel) ≠ 0 then st
  else
    let st1 := st.reserveGOT
    if !base.symbolFinalValueIsKnown (st1.resolveInfo rsym) then
      let st2 := st1.reserveRelDyn
      st2.setReserved rsym ((st2.resolveInfo rsym).reserved ||| GOTRel)
    else
      st1.setReserved rsym ((st1.resolveInfo rsym).reserved ||| ReserveGOT)

/-- Function `ARMGNULDBackend::scanGlobalReloc`. The result is the relocation
(its type may have been rewritten) and the new state. -/
def scanGlobalReloc (base : GNULDBackend) (st : LinkState) (pReloc : Relocation)
    (pSection : LDSection) : Option (Relocation × LinkState) :=
  let rsym := pReloc.symInfo
  match pReloc.type with
  | RelocType.R_ARM_TARGET1 =>
    let r := pReloc.setType RelocType.R_ARM_ABS32
    some (r, scanGlobalReloc.abs base st r pSection)
  | RelocType.R_ARM_ABS32 | RelocType.R_ARM_ABS16 | RelocType.R_ARM_ABS12
  | RelocType.R_ARM_THM_ABS5 | RelocType.R_ARM_ABS8 | RelocType.R_ARM_BASE_ABS
  | RelocType.R_ARM_MOVW_ABS_NC | RelocType.R_ARM_MOVT_ABS
  | RelocType.R_ARM_THM_MOVW_ABS_NC | RelocType.R_ARM_THM_MOVT_ABS
  | RelocType.R_ARM_ABS32_NOI =>
    some (pReloc, scanGlobalReloc.abs base st pReloc pSection)
  | RelocType.R_ARM_GOTOFF32 | RelocType.R_ARM_GOTOFF12 => some (pReloc, st)
  | RelocType.R_ARM_BASE_PREL | RelocType.R_ARM_THM_MOVW_BREL_NC
  | RelocType.R_ARM_THM_MOVW_BREL | RelocType.R_ARM_THM_MOVT_BREL =>
    match st.m_pGOTSymbol with
    | none => none
    | some gotSymbol =>
      let st1 :=
        if rsym ≠ gotSymbol.resolveInfo then
          st.report { severity := Severity.Fatal, id := DiagID.base_relocation,
                      type := some pReloc.type,
                      args := [(st.resolveInfo rsym).name, "mclinker@googlegroups.com"] }
        else st
      some (pReloc, scanGlobalReloc.dynRel base st1 pReloc pSection false)
  | RelocType.R_ARM_REL32 | RelocType.R_ARM_LDR_PC_G0 | RelocType.R_ARM_SBREL32
  | RelocType.R_ARM_THM_PC8 | RelocType.R_ARM_MOVW_PREL_NC | RelocType.R_ARM_MOVT_PREL
  | RelocType.R_ARM_THM_MOVW_PREL_NC | RelocType.R_ARM_THM_MOVT_PREL
  | RelocType.R_ARM_THM_ALU_PREL_11_0 | RelocType.R_ARM_THM_PC12
  | RelocType.R_ARM_REL32_NOI | RelocType.R_ARM_ALU_PC_G0_NC | RelocType.R_ARM_ALU_PC_G0
  | RelocType.R_ARM_ALU_PC_G1_NC | RelocType.R_ARM_ALU_PC_G1 | RelocType.R_ARM_ALU_PC_G2
  | RelocType.R_ARM_LDR_PC_G1 | RelocType.R_ARM_LDR_PC_G2 | RelocType.R_ARM_LDRS_PC_G0
  | RelocType.R_ARM_LDRS_PC_G1 | RelocType.R_ARM_LDRS_PC_G2 | RelocType.R_ARM_LDC_PC_G0
  | RelocType.R_ARM_LDC_PC_G1 | RelocType.R_ARM_LDC_PC_G2 | RelocType.R_ARM_ALU_SB_G0_NC
  | RelocType.R_ARM_ALU_SB_G0 | RelocType.R_ARM_ALU_SB_G1_NC | RelocType.R_ARM_ALU_SB_G1
  | RelocType.R_ARM_ALU_SB_G2 | RelocType.R_ARM_LDR_SB_G0 | RelocType.R_ARM_LDR_SB_G1
  | RelocType.R_ARM_LDR_SB_G2 | RelocType.R_ARM_LDRS_SB_G0 | RelocType.R_ARM_LDRS_SB_G1
  | RelocType.R_ARM_LDRS_SB_G2 | RelocType.R_ARM_LDC_SB_G0 | RelocType.R_ARM_LDC_SB_G1
  | RelocType.R_ARM_LDC_SB_G2 | RelocType.R_ARM_MOVW_BREL_NC | RelocType.R_ARM_MOVT_BREL
  | RelocType.R_ARM_MOVW_BREL =>
    some (pReloc, scanGlobalReloc.dynRel base st pReloc pSection false)
  | RelocType.R_ARM_THM_CALL | RelocType.R_ARM_PLT32 | RelocType.R_ARM_CALL
  | RelocType.R_ARM_JUMP24 | RelocType.R_ARM_THM_JUMP24 | RelocType.R_ARM_SBREL31
  | RelocType.R_ARM_PREL31 | RelocType.R_ARM_THM_JUMP19 | RelocType.R_ARM_THM_JUMP6
  | RelocType.R_ARM_THM_JUMP11 | RelocType.R_ARM_THM_JUMP8 =>
    some (pReloc, scanGlobalReloc.branch base st pReloc)
  | RelocType.R_ARM_TARGET2 =>
    let r := pReloc.setType RelocType.R_ARM_GOT_PREL
    some (r, scanGlobalReloc.got base st r)
  | RelocType.R_ARM_GOT_BREL | RelocType.R_ARM_GOT_ABS | RelocType.R_ARM_GOT_PREL =>
    some (pReloc, scanGlobalReloc.got base st pReloc)
  | RelocType.R_ARM_COPY | RelocType.R_ARM_GLOB_DAT | RelocType.R_ARM_JUMP_SLOT
  | RelocType.R_ARM_RELATIVE =>
    some (pReloc,
      st.report { severity := Severity.Fatal, id := DiagID.dynamic_relocation,
                  type := some pReloc.type, args := [] })
  | _ => some (pReloc, st)

/-- Modelled from the spec: `Relocation::updateAddend`, which refreshes the
addend of the relocation. -/
def updateAddend (base : GNULDBackend) (pReloc : Relocation) : Relocation :=
  { pReloc with addend := base.refreshedAddend pReloc }

/-- The test after the dispatch in `scanRelocation`: the target symbol is
undefined, not dynamic, not weak and not the null symbol. -/
def isUndefinedReference (rsym : ResolveInfo) : Bool :=
  rsym.isUndef && !rsym.isDyn && !rsym.isWeak && !rsym.isNull

/-- Function `ARMGNULDBackend::scanRelocation`. -/
def scanRelocation (base : GNULDBackend) (st : LinkState) (pReloc : Relocation)
    (pSection : LDSection) : Option (Relocation × LinkState) :=
  let rsym := pReloc.symInfo
  let r0 := updateAddend base pReloc
  if pSection.getLink.flag &&& SHF_ALLOC = 0 then some (r0, st)
  else
    let dispatched :=
      if (st.resolveInfo rsym).isLocal then scanLocalReloc base st r0 pSection
      else scanGlobalReloc base st r0 pSection
    match dispatched with
    | none => none
    | some (r1, st1) =>
      if isUndefinedReference (st1.resolveInfo rsym) then
        some (r1,
          st1.report { severity := Severity.Fatal, id := DiagID.undefined_reference,
                       type := none, args := [(st1.resolveInfo rsym).name] })
      else some (r1, st1)

/-- Scan a sequence of relocations, each with its relocation section, one
`scanRelocation` call after the other. -/
def scanAll (base : GNULDBackend) (st : LinkState) :
    List (Relocation × LDSection) → Option LinkState
  | [] => some st
  | (pReloc, pSection) :: rest =>
    match scanRelocation base st pReloc pSection with
    | none => none
    | some (_, st1) => scanAll base st1 rest

/-! ## Invariants of the scanner -/

/-- The `reserved` mask `m` records a GOT entry: `m & (ReserveGOT | GOTRel)`
is not zero. -/
def hasGOTEntry (m : Nat) : Prop := m &&& (ReserveGOT ||| GOTRel) ≠ 0

/-- The `reserved` mask `m` records a PLT entry: `m & ReservePLT` is not zero. -/
def hasPLTEntry (m : Nat) : Prop := m &&& ReservePLT ≠ 0

/-- The symbols (addresses of `ResolveInfo` objects) whose mask records a GOT
entry. -/
def gotSymbols (st : LinkState) : Set Nat :=
  {p | hasGOTEntry (st.resolveInfo p).reserved}

/-- The symbols whose mask records a PLT entry. -/
def pltSymbols (st : LinkState) : Set Nat :=
  {p | hasPLTEntry (st.resolveInfo p).reserved}

/-- No mask has both GOT bits, `ReserveGOT` and `GOTRel`. -/
def GOTExclusive (st : LinkState) : Prop :=
  ∀ p, ¬ ((st.resolveInfo p).reserved &&& ReserveGOT ≠ 0 ∧
          (st.resolveInfo p).reserved &&& GOTRel ≠ 0)

/-- The counting invariant the scanner keeps between calls: the symbols with
the PLT bit are as many as the PLT1 entries, the `.rel.plt` entries and the
GOT slots paired with the PLT, and the symbols with a GOT bit are as many as
the slots reserved by `reserveGOT`. -/
structure CountInv (st : LinkState) : Prop where
  pltFinite : (pltSymbols st).Finite
  pltCard : (pltSymbols st).ncard = st.m_pPLT.plt1
  relPLT : st.m_pRelPLT.numOfRelocs = st.m_pPLT.plt1
  gotPLT : st.m_pGOT.gotplt = st.m_pPLT.plt1
  gotFinite : (gotSymbols st).Finite
  gotCard : (gotSymbols st).ncard = st.m_pGOT.got

/-- The state `st1` differs from `st` in the part the invariant reads only by
the flag `flag` set in the mask of `p`. -/
def SetsFlag (st st1 : LinkState) (p flag : Nat) : Prop :=
  st1.resolveInfo = Function.update st.resolveInfo p
    { st.resolveInfo p with reserved := (st.resolveInfo p).reserved ||| flag }

/-- One step of the scanner, seen from the invariant: nothing it reads
changes, or `ReserveRel` is set, or a PLT entry is reserved for a symbol
that had none, or a GOT entry is reserved for a symbol that had none. In each
case `m_pGOTSymbol` stays and diagnostics are only appended. -/
inductive CoreStep (st st1 : LinkState) : Prop where
  | same (hr : st1.resolveInfo = st.resolveInfo) (hg : st1.m_pGOT = st.m_pGOT)
      (hp : st1.m_pPLT = st.m_pPLT)
      (hq : st1.m_pRelPLT.numOfRelocs = st.m_pRelPLT.numOfRelocs)
      (hs : st1.m_pGOTSymbol = st.m_pGOTSymbol)
      (hd : ∃ ds, st1.diagnostics = st.diagnostics ++ ds)
  | rel (p : Nat) (hr : SetsFlag st st1 p ReserveRel) (hg : st1.m_pGOT = st.m_pGOT)
      (hp : st1.m_pPLT = st.m_pPLT)
      (hq : st1.m_pRelPLT.numOfRelocs = st.m_pRelPLT.numOfRelocs)
      (hs : st1.m_pGOTSymbol = st.m_pGOTSymbol)
      (hd : ∃ ds, st1.diagnostics = st.diagnostics ++ ds)
  | plt (p : Nat) (hno : ¬ hasPLTEntry (st.resolveInfo p).reserved)
      (hr : SetsFlag st st1 p ReservePLT)
      (hg : st1.m_pGOT = { st.m_pGOT with gotplt := st.m_pGOT.gotplt + 1 })
      (hp : st1.m_pPLT = { plt1 := st.m_pPLT.plt1 + 1 })
      (hq : st1.m_pRelPLT.numOfRelocs = st.m_pRelPLT.numOfRelocs + 1)
      (hs : st1.m_pGOTSymbol = st.m_pGOTSymbol)
      (hd : ∃ ds, st1.diagnostics = st.diagnostics ++ ds)
  | got (p flag : Nat) (hflag : flag = ReserveGOT ∨ flag = GOTRel)
      (hno : ¬ hasGOTEntry (st.resolveInfo p).reserved)
      (hr : SetsFlag st st1 p flag)
      (hg : st1.m_pGOT = { st.m_pGOT with got := st.m_pGOT.got + 1 })
      (hp : st1.m_pPLT = st.m_pPLT)
      (hq : st1.m_pRelPLT.numOfRelocs = st.m_pRelPLT.numOfRelocs)
      (hs : st1.m_pGOTSymbol = st.m_pGOTSymbol)
      (hd : ∃ ds, st1.diagnostics = st.diagnostics ++ ds)

/-- Finitely many steps of the scanner. -/
def Steps : LinkState → LinkState → Prop := Relation.ReflTransGen CoreStep

/-- The empty state of the claims: every mask is zero and nothing has been
reserved in the GOT, the PLT, `.rel.dyn` or `.rel.plt`. -/
def LinkState.isEmpty (st : LinkState) : Prop :=
  (∀ p, (st.resolveInfo p).reserved = 0) ∧ st.m_pGOT.got = 0 ∧ st.m_pGOT.gotplt = 0 ∧
  st.m_pPLT.plt1 = 0 ∧ st.m_pRelDyn.numOfRelocs = 0 ∧ st.m_pRelPLT.numOfRelocs = 0

/-- The diagnostics reported between the state `st` and the later state `st1`. -/
def raisedBetween (st st1 : LinkState) : List Diagnostic :=
  st1.diagnostics.drop st.diagnostics.length

/-- The type a relocation has after the scanner's rewrite: `R_ARM_TARGET1`
becomes `R_ARM_ABS32`, `R_ARM_TARGET2` becomes `R_ARM_GOT_PREL`. -/
def normalizedType : RelocType → RelocType
  | RelocType.R_ARM_TARGET1 => RelocType.R_ARM_ABS32
  | RelocType.R_ARM_TARGET2 => RelocType.R_ARM_GOT_PREL
  | t => t

/-- The relocation types the spec permits to become dynamic relocations
under PIC (section 4.7 of the design). -/
def picAllowedTypes : List RelocType :=
  [RelocType.R_ARM_RELATIVE, RelocType.R_ARM_COPY, RelocType.R_ARM_GLOB_DAT,
   RelocType.R_ARM_JUMP_SLOT, RelocType.R_ARM_ABS32, RelocType.R_ARM_ABS32_NOI,
   RelocType.R_ARM_PC24, RelocType.R_ARM_TLS_DTPMOD32, RelocType.R_ARM_TLS_DTPOFF32,
   RelocType.R_ARM_TLS_TPOFF32]

/-- The relocation types whose case in `scanGlobalReloc` compares the symbol
with `_GLOBAL_OFFSET_TABLE_`. -/
def gotCheckedTypes : List RelocType :=
  [RelocType.R_ARM_BASE_PREL, RelocType.R_ARM_THM_MOVW_BREL_NC,
   RelocType.R_ARM_THM_MOVW_BREL, RelocType.R_ARM_THM_MOVT_BREL]

/-- The base/BREL family as the spec lists it. -/
def baseBrelFamily : List RelocType :=
  [RelocType.R_ARM_BASE_PREL, RelocType.R_ARM_MOVW_BREL_NC, RelocType.R_ARM_MOVW_BREL,
   RelocType.R_ARM_MOVT_BREL, RelocType.R_ARM_THM_MOVW_BREL_NC,
   RelocType.R_ARM_THM_MOVW_BREL, RelocType.R_ARM_THM_MOVT_BREL]

/-! ## A small link used to instantiate the theorems -/

/-- Symbols of the sample link: `_GLOBAL_OFFSET_TABLE_` at address 0, the
function `foo` of a shared library at 1, the local object `loc` at 2, and
the undefined global `missing` everywhere else. -/
def sampleInfo : Nat → ResolveInfo
  | 0 => { name := "_GLOBAL_OFFSET_TABLE_", type := SymType.Object, desc := Desc.Define,
           binding := Binding.Local, isDyn := false, isNull := false, size := 0,
           other := Visibility.Hidden, reserved := 0 }
  | 1 => { name := "foo", type := SymType.Function, desc := Desc.Define,
           binding := Binding.Global, isDyn := true, isNull := false, size := 8,
           other := Visibility.Default, reserved := 0 }
  | 2 => { name := "loc", type := SymType.Object, desc := Desc.Define,
           binding := Binding.Local, isDyn := false, isNull := false, size := 4,
           other := Visibility.Default, reserved := 0 }
  | _ => { name := "missing", type := SymType.NoType, desc := Desc.Undefined,
           binding := Binding.Global, isDyn := false, isNull := false, size := 0,
           other := Visibility.Default, reserved := 0 }

/-- Configuration of the sample link: a PIC shared object for a 32-bit target. -/
def sampleConfig : LinkerConfig :=
  { codeGenType := CodeGenType.DynObj, isCodeStatic := false, isCodeIndep := true,
    bitclass := 32, is32Bits := true, hasNow := false }

/-- Base-class services of the sample link. -/
def sampleBase : GNULDBackend :=
  { config := sampleConfig,
    symbolNeedsPLT := fun r => r.isDyn && r.type == SymType.Function,
    symbolNeedsDynRel := fun r hasPLT _ => r.isDyn && !hasPLT,
    symbolNeedsCopyReloc := fun _ _ => false,
    symbolFinalValueIsKnown := fun r => r.isLocal,
    isSymbolPreemptible := fun r => !r.isLocal,
    refreshedAddend := fun r => r.addend }

/-- The same services for a link that is not position independent. -/
def sampleBaseNonPIC : GNULDBackend :=
  { sampleBase with config := { sampleConfig with codeGenType := CodeGenType.Exec,
                                                  isCodeIndep := false } }

/-- The state of the sample link before scanning, `_GLOBAL_OFFSET_TABLE_`
having been referred to by the input. -/
def sampleState : LinkState := LinkState.initial sampleInfo (some { resolveInfo := 0 })

/-- The state of a link whose input does not name `_GLOBAL_OFFSET_TABLE_`:
`m_pGOTSymbol` is null. -/
def sampleStateNoGOTSymbol : LinkState := LinkState.initial sampleInfo none

/-- The relocation section `.rel.text` of the sample link; `.text` is
allocated and executable. -/
def sampleRelText : LDSection :=
  { name := ".rel.text", flag := 0, getLink := { name := ".text", flag := 0x6 } }

/-- The relocation section `.rel.debug_info`; `.debug_info` is not allocated. -/
def sampleRelDebug : LDSection :=
  { name := ".rel.debug_info", flag := 0, getLink := { name := ".debug_info", flag := 0 } }

/-! ## Layout: section sizes, section order and program headers -/

/-- An output `LDSection` as far as the layout hooks read and write it: the
address of the object (the backend compares sections by address), its name
and its size. -/
structure SectionHeader where
  addr : Nat
  name : String
  size : Nat
  deriving DecidableEq, Repr

/-- The standard output sections of `ELFFileFormat` that the layout hooks
look at: `.got`, `.plt`, `.rel.dyn` and `.rel.plt`. -/
structure ELFFileFormat where
  GOT : SectionHeader
  PLT : SectionHeader
  RelDyn : SectionHeader
  RelPlt : SectionHeader
  deriving DecidableEq, Repr

/-- Modelled from the spec: a program segment of the ELF segment table, with
its type, its flags and the sections added to it. -/
structure ELFSegment where
  type : Nat
  flag : Nat
  sections : List SectionHeader
  deriving DecidableEq, Repr

/-- Modelled from the spec: the segment that `elfSegmentTable().produce`
creates, before any section is added to it. -/
def ELFSegment.produce (type flag : Nat) : ELFSegment :=
  { type := type, flag := flag, sections := [] }

/-- Modelled from the spec: `ELFSegment::addSection`. -/
def ELFSegment.addSection (seg : ELFSegment) (s : SectionHeader) : ELFSegment :=
  { seg with sections := seg.sections ++ [s] }

/-- The program header type `llvm::ELF::PT_ARM_EXIDX`. -/
def PT_ARM_EXIDX : Nat := 0x70000001

/-- The segment flag `llvm::ELF::PF_R`. -/
def PF_R : Nat := 0x4

/-- The arguments of one `AddSymbol<Force, ..>` call of `defineGOTSymbol`;
`resolve` tells `IRBuilder::Resolve` from `IRBuilder::Unresolve`, and the
fragment reference is to byte `offset` of the GOT fragment `gotFragment`. -/
structure GOTSymbolDef where
  resolve : Bool
  name : String
  type : SymType
  desc : Desc
  binding : Binding
  size : Nat
  value : Nat
  gotFragment : Nat
  offset : Nat
  visibility : Visibility
  deriving DecidableEq, Repr

/-- The builder handed to `doPreLayout`, as far as `defineGOTSymbol` uses it:
the symbol that `AddSymbol<Force, Resolve>` returns. -/
structure IRBuilder where
  AddSymbol : GOTSymbolDef → LDSymbol

/-- The output side of the backend: the standard sections, the ARM sections
created by `initTargetSections` (null before), whether the `.dynamic` data
object exists, the symbols added by `defineGOTSymbol`, and the segment table. -/
structure OutputState where
  format : ELFFileFormat
  m_pEXIDX : Option SectionHeader
  m_pEXTAB : Option SectionHeader
  m_pAttributes : Option SectionHeader
  m_pDynamic : Bool
  addedSymbols : List GOTSymbolDef
  elfSegmentTable : List ELFSegment

/-- Modelled from the spec: `ARMGOT::hasGOT1`, true iff a slot beyond the
three header slots was reserved. -/
def ARMGOT.hasGOT1 (g : ARMGOT) : Bool := decide (0 < g.got + g.gotplt)

/-- Modelled from the spec: `ARMGOT::finalizeSectionSize`, which sets the
size of `.got` to `(3 + reservedCount) * 4`. -/
def ARMGOT.finalizeSectionSize (g : ARMGOT) (s : SectionHeader) : SectionHeader :=
  { s with size := (3 + (g.got + g.gotplt)) * 4 }

/-- Modelled from the spec: `ARMPLT::hasPLT1`, true iff a PLT1 entry was
reserved. -/
def ARMPLT.hasPLT1 (p : ARMPLT) : Bool := decide (0 < p.plt1)

/-- Modelled from the spec: `ARMPLT::finalizeSectionSize`, which sets the
size of `.plt` to `20 + 12 * |PLT1|`. -/
def ARMPLT.finalizeSectionSize (p : ARMPLT) (s : SectionHeader) : SectionHeader :=
  { s with size := 20 + 12 * p.plt1 }

/-- Modelled from the spec: `OutputRelocSection::empty`, true iff no entry
was reserved. -/
def OutputRelocSection.empty (s : OutputRelocSection) : Bool := s.numOfRelocs == 0

/-- Modelled from the spec: `getRelEntrySize()`, the size of a REL entry,
8 bytes. -/
def getRelEntrySize : Nat := 8

/-- Function `ARMGNULDBackend::defineGOTSymbol`: define
`_GLOBAL_OFFSET_TABLE_` at the first GOT fragment; when `m_pGOTSymbol` is
null it becomes the symbol the builder returns. -/
def defineGOTSymbol (pBuilder : IRBuilder) (st : LinkState) (out : OutputState) :
    LinkState × OutputState :=
  match st.m_pGOTSymbol with
  | some _ =>
    let sym : GOTSymbolDef :=
      { resolve := false, name := "_GLOBAL_OFFSET_TABLE_", type := SymType.Object,
        desc := Desc.Define, binding := Binding.Local, size := 0x0, value := 0x0,
        gotFragment := 0, offset := 0x0, visibility := Visibility.Hidden }
    (st, { out with addedSymbols := out.addedSymbols ++ [sym] })
  | none =>
    let sym : GOTSymbolDef :=
      { resolve := true, name := "_GLOBAL_OFFSET_TABLE_", type := SymType.Object,
        desc := Desc.Define, binding := Binding.Local, size := 0x0, value := 0x0,
        gotFragment := 0, offset := 0x0, visibility := Visibility.Hidden }
    ({ st with m_pGOTSymbol := some (pBuilder.AddSymbol sym) },
     { out with addedSymbols := out.addedSymbols ++ [sym] })

/-- The two blocks of `doPreLayout` that size `.rel.dyn` and `.rel.plt`: a
table that is not empty gets `numOfRelocs() * getRelEntrySize()` as the size
of its section, after the assertion that the link is not static; `none` is
the failed assertion. The count is the number of entry objects held in
memory, so the product stays in the range of `size_t`. -/
def doPreLayout.setRelSize (base : GNULDBackend) (table : OutputRelocSection)
    (sect : SectionHeader) : Option SectionHeader :=
  if !table.empty then
    if base.config.isCodeStatic then none
    else some { sect with size := table.numOfRelocs * getRelEntrySize }
  else some sect

/-- First statement of `doPreLayout`: create the `.dynamic` data object when
the link is not static and the object does not exist yet. -/
def doPreLayout.initDynamic (base : GNULDBackend) (out : OutputState) : OutputState :=
  if !base.config.isCodeStatic && !out.m_pDynamic then { out with m_pDynamic := true }
  else out

/-- The block `set .got size` of `doPreLayout`: for a shared object, or when
the GOT has a slot beyond its header, or when `m_pGOTSymbol` is set, the
size of `.got` is finalized and `_GLOBAL_OFFSET_TABLE_` is defined. -/
def doPreLayout.setGOTSize (base : GNULDBackend) (pBuilder : IRBuilder) (st : LinkState)
    (out : OutputState) : LinkState × OutputState :=
  if base.config.codeGenType = CodeGenType.DynObj ∨ st.m_pGOT.hasGOT1 = true ∨
      st.m_pGOTSymbol ≠ none then
    defineGOTSymbol pBuilder st
      { out with format :=
          { out.format with GOT := st.m_pGOT.finalizeSectionSize out.format.GOT } }
  else (st, out)

/-- The block `set .plt size` of `doPreLayout`: the size of `.plt` is
finalized only if a PLT1 entry exists. -/
def doPreLayout.setPLTSize (st : LinkState) (out : OutputState) : OutputState :=
  if st.m_pPLT.hasPLT1 then
    { out with format :=
        { out.format with PLT := st.m_pPLT.finalizeSectionSize out.format.PLT } }
  else out

/-- The blocks `set .rel.dyn size` and `set .rel.plt size` of `doPreLayout`,
one after the other. -/
def doPreLayout.setRelSizes (base : GNULDBackend) (st : LinkState) (out : OutputState) :
    Option OutputState :=
  match doPreLayout.setRelSize base st.m_pRelDyn out.format.RelDyn with
  | none => none
  | some relDyn =>
    match doPreLayout.setRelSize base st.m_pRelPLT out.format.RelPlt with
    | none => none
    | some relPlt =>
      some { out with format := { out.format with RelDyn := relDyn, RelPlt := relPlt } }

/-- Function `ARMGNULDBackend::doPreLayout`. -/
def doPreLayout (base : GNULDBackend) (pBuilder : IRBuilder) (st : LinkState)
    (out : OutputState) : Option (LinkState × OutputState) :=
  let out1 := doPreLayout.initDynamic base out
  if base.config.codeGenType ≠ CodeGenType.Object then
    let sized := doPreLayout.setGOTSize base pBuilder st out1
    match doPreLayout.setRelSizes base sized.1 (doPreLayout.setPLTSize sized.1 sized.2) with
    | none => none
    | some out2 => some (sized.1, out2)
  else some (st, out1)

/-- Modelled from the spec: the section orders `getTargetSectionOrder`
returns (`SHO_*` of the base class). -/
inductive SectionOrder where
  | SHO_UNDEFINED | SHO_DATA | SHO_RELRO_LAST | SHO_PLT | SHO_EXCEPTION
  deriving DecidableEq, Repr

/-- The pointer `p` (null or a section) points at the section `s`. -/
def pointsAt (p : Option SectionHeader) (s : SectionHeader) : Bool :=
  match p with
  | some q => q.addr == s.addr
  | none => false

/-- Function `ARMGNULDBackend::getTargetSectionOrder`. -/
def getTargetSectionOrder (base : GNULDBackend) (out : OutputState)
    (pSectHdr : SectionHeader) : SectionOrder :=
  if pSectHdr.addr = out.format.GOT.addr then
    if base.config.hasNow then SectionOrder.SHO_RELRO_LAST
    else SectionOrder.SHO_DATA
  else if pSectHdr.addr = out.format.PLT.addr then SectionOrder.SHO_PLT
  else if pointsAt out.m_pEXIDX pSectHdr || pointsAt out.m_pEXTAB pSectHdr then
    SectionOrder.SHO_EXCEPTION
  else SectionOrder.SHO_UNDEFINED

/-- Function `ARMGNULDBackend::doCreateProgramHdrs`. -/
def doCreateProgramHdrs (out : OutputState) : OutputState :=
  match out.m_pEXIDX with
  | some exidx =>
    if 0x0 ≠ exidx.size then
      { out with elfSegmentTable :=
          out.elfSegmentTable ++ [(ELFSegment.produce PT_ARM_EXIDX PF_R).addSection exidx] }
    else out
  | none => out

/-- Distinct section objects have distinct addresses: `.got`, `.plt` and the
ARM exception sections are four objects. -/
def OutputState.distinctSections (out : OutputState) : Prop :=
  out.format.GOT.addr ≠ out.format.PLT.addr ∧
  (∀ s, out.m_pEXIDX = some s → s.addr ≠ out.format.GOT.addr ∧ s.addr ≠ out.format.PLT.addr) ∧
  (∀ s, out.m_pEXTAB = some s → s.addr ≠ out.format.GOT.addr ∧ s.addr ≠ out.format.PLT.addr)

/-- The builder of the sample link: the defined `_GLOBAL_OFFSET_TABLE_` has
its symbol info at address 0. -/
def sampleBuilder : IRBuilder := { AddSymbol := fun _ => { resolveInfo := 0 } }

/-- The output side of the sample link after `initTargetSections`: every
section is still empty and the segment table has no entry. -/
def sampleOutput : OutputState :=
  { format := { GOT := { addr := 100, name := ".got", size := 0 },
                PLT := { addr := 101, name := ".plt", size := 0 },
                RelDyn := { addr := 102, name := ".rel.dyn", size := 0 },
                RelPlt := { addr := 103, name := ".rel.plt", size := 0 } },
    m_pEXIDX := some { addr := 104, name := ".ARM.exidx", size := 0 },
    m_pEXTAB := some { addr := 105, name := ".ARM.extab", size := 0 },
    m_pAttributes := some { addr := 106, name := ".ARM.attributes", size := 0 },
    m_pDynamic := false,
    addedSymbols := [],
    elfSegmentTable := [] }

/-- The same output with 16 bytes of unwind index in `.ARM.exidx`. -/
def sampleOutputWithExidx : OutputState :=
  { sampleOutput with m_pEXIDX := some { addr := 104, name := ".ARM.exidx", size := 16 } }

/-! ## The absolute and PC-relative cases of `scanGlobalReloc`; further fixtures -/

/-- The relocation types of the absolute cases of `scanGlobalReloc`. -/
def globalAbsTypes : List RelocType :=
  [RelocType.R_ARM_TARGET1, RelocType.R_ARM_ABS32, RelocType.R_ARM_ABS16,
   RelocType.R_ARM_ABS12, RelocType.R_ARM_THM_ABS5, RelocType.R_ARM_ABS8,
   RelocType.R_ARM_BASE_ABS, RelocType.R_ARM_MOVW_ABS_NC, RelocType.R_ARM_MOVT_ABS,
   RelocType.R_ARM_THM_MOVW_ABS_NC, RelocType.R_ARM_THM_MOVT_ABS,
   RelocType.R_ARM_ABS32_NOI]

/-- The relocation types of the PC-relative cases of `scanGlobalReloc` (the
case labels from `R_ARM_REL32` to `R_ARM_MOVW_BREL`). -/
def globalRelTypes : List RelocType :=
  [RelocType.R_ARM_REL32, RelocType.R_ARM_LDR_PC_G0, RelocType.R_ARM_SBREL32,
   RelocType.R_ARM_THM_PC8, RelocType.R_ARM_MOVW_PREL_NC, RelocType.R_ARM_MOVT_PREL,
   RelocType.R_ARM_THM_MOVW_PREL_NC, RelocType.R_ARM_THM_MOVT_PREL,
   RelocType.R_ARM_THM_ALU_PREL_11_0, RelocType.R_ARM_THM_PC12,
   RelocType.R_ARM_REL32_NOI, RelocType.R_ARM_ALU_PC_G0_NC, RelocType.R_ARM_ALU_PC_G0,
   RelocType.R_ARM_ALU_PC_G1_NC, RelocType.R_ARM_ALU_PC_G1, RelocType.R_ARM_ALU_PC_G2,
   RelocType.R_ARM_LDR_PC_G1, RelocType.R_ARM_LDR_PC_G2, RelocType.R_ARM_LDRS_PC_G0,
   RelocType.R_ARM_LDRS_PC_G1, RelocType.R_ARM_LDRS_PC_G2, RelocType.R_ARM_LDC_PC_G0,
   RelocType.R_ARM_LDC_PC_G1, RelocType.R_ARM_LDC_PC_G2, RelocType.R_ARM_ALU_SB_G0_NC,
   RelocType.R_ARM_ALU_SB_G0, RelocType.R_ARM_ALU_SB_G1_NC, RelocType.R_ARM_ALU_SB_G1,
   RelocType.R_ARM_ALU_SB_G2, RelocType.R_ARM_LDR_SB_G0, RelocType.R_ARM_LDR_SB_G1,
   RelocType.R_ARM_LDR_SB_G2, RelocType.R_ARM_LDRS_SB_G0, RelocType.R_ARM_LDRS_SB_G1,
   RelocType.R_ARM_LDRS_SB_G2, RelocType.R_ARM_LDC_SB_G0, RelocType.R_ARM_LDC_SB_G1,
   RelocType.R_ARM_LDC_SB_G2, RelocType.R_ARM_MOVW_BREL_NC, RelocType.R_ARM_MOVT_BREL,
   RelocType.R_ARM_MOVW_BREL]

/-- The state in which `scanGlobalReloc` enters the block
`if (symbolNeedsDynRel(..))` for the relocation `pReloc`: for an absolute
type the state after the PLT step (a PLT entry has been reserved if
`symbolNeedsPLT` holds and `ReservePLT` was clear), for a PC-relative type
the state `st` itself. -/
def dynRelEntryState (base : GNULDBackend) (st : LinkState) (pReloc : Relocation) :
    LinkState :=
  if pReloc.type ∈ globalAbsTypes ∧ base.symbolNeedsPLT (st.resolveInfo pReloc.symInfo) = true ∧
      ¬ ((st.resolveInfo pReloc.symInfo).reserved &&& ReservePLT ≠ 0) then
    scanGlobalReloc.reservePLT st pReloc.symInfo
  else st

/-- Base-class services of a PIC link in which every absolute relocation
against a global symbol needs a dynamic relocation. -/
def sampleBaseAbsDyn : GNULDBackend :=
  { sampleBase with symbolNeedsDynRel := fun _ _ isAbsReloc => isAbsReloc }

/-- A weak data symbol `g` of a shared library, 8 bytes. -/
def sampleWeakData : ResolveInfo :=
  { name := "g", type := SymType.Object, desc := Desc.Define, binding := Binding.Weak,
    isDyn := true, isNull := false, size := 8, other := Visibility.Protected,
    reserved := 0 }

/-! ## Section emission -/

/-- The ways in which `emitSectionData` ends without returning a size: a
failed `assert`, section data that is null, a `memset`/`memcpy` past the end
of the region, the division `size / getValueSize()` by zero, the two
`llvm::report_fatal_error` calls, and the `fatal` diagnostic for a section
the backend does not know. -/
inductive EmitError where
  | assertion | nullSectionData | outOfRegion | divisionByZero
  | unsupportedAlignValueSize | unsupportedFragmentType | unrecognizedOutputSection
  deriving DecidableEq, Repr

/-- The C library's `memset(region + out_offset, value, n)` on the output
region, a list of bytes: `n` bytes from `out_offset` on become `value`
converted to `unsigned char`. A write that runs past the end of the region is
undefined behaviour and a failure here. -/
def memset (region : List Nat) (out_offset value n : Nat) : Except EmitError (List Nat) :=
  if out_offset + n ≤ region.length then
    Except.ok (region.take out_offset ++ List.replicate n (value % 256) ++
      region.drop (out_offset + n))
  else Except.error EmitError.outOfRegion

/-- The C library's `memcpy(region + out_offset, start, n)`: the first `n`
bytes of `start` are copied to `out_offset`. Reading or writing past the end
is a failure here. -/
def memcpy (region : List Nat) (out_offset : Nat) (start : List Nat) (n : Nat) :
    Except EmitError (List Nat) :=
  if n ≤ start.length ∧ out_offset + n ≤ region.length then
    Except.ok (region.take out_offset ++ start.take n ++ region.drop (out_offset + n))
  else Except.error EmitError.outOfRegion

/-- Body of the loop of `emitSectionData` without the final
`out_offset += size`: the `switch` on the kind of the fragment. A
`NullFragment` has size zero, so its `assert(0x0 == size)` holds. -/
def emitSectionData.fragment (region : List Nat) (out_offset : Nat) (frag : Fragment) :
    Except EmitError (List Nat) :=
  let size := frag.size
  match frag with
  | Fragment.Fillment value valueSize fillSize =>
    if 0 = valueSize then Except.ok region
    else memset region out_offset value fillSize
  | Fragment.Region bytes => memcpy region out_offset bytes size
  | Fragment.Alignment value valueSize _ =>
    if valueSize = 0 then Except.error EmitError.divisionByZero
    else
      let count := size / valueSize
      match valueSize with
      | 1 => memset region out_offset value count
      | _ => Except.error EmitError.unsupportedAlignValueSize
  | Fragment.Null => Except.ok region
  | Fragment.Stub _ => Except.error EmitError.unsupportedFragmentType

/-- The loop of `emitSectionData` over the fragments of the section data,
`out_offset` advancing by the size of each fragment. -/
def emitSectionData.fragments (region : List Nat) (out_offset : Nat) :
    List Fragment → Except EmitError (List Nat)
  | [] => Except.ok region
  | frag :: rest =>
    match emitSectionData.fragment region out_offset frag with
    | Except.error e => Except.error e
    | Except.ok region1 => emitSectionData.fragments region1 (out_offset + frag.size) rest

/-- Modelled from the spec: `emit(region)` of the PLT and of the GOT manager,
which write the concrete bytes into the region and return a size. -/
structure SectionEmitters where
  pltEmit : List Nat → Nat × List Nat
  gotEmit : List Nat → Nat × List Nat

/-- Function `ARMGNULDBackend::emitSectionData`. `sect_data` is
`pSection.getSectionData()` and `pRegion` the bytes of the output region; the
result is the returned size and the region after the call. -/
def emitSectionData (out : OutputState) (emitters : SectionEmitters)
    (pSection : SectionHeader) (sect_data : Option (List Fragment)) (pRegion : List Nat) :
    Except EmitError (Nat × List Nat) :=
  if pRegion.length = 0 then Except.error EmitError.assertion
  else if pointsAt out.m_pAttributes pSection || pointsAt out.m_pEXIDX pSection ||
      pointsAt out.m_pEXTAB pSection then
    match sect_data with
    | none => Except.error EmitError.nullSectionData
    | some frags =>
      match emitSectionData.fragments pRegion 0 frags with
      | Except.error e => Except.error e
      | Except.ok region => Except.ok (pRegion.length, region)
  else if pSection.addr = out.format.PLT.addr then Except.ok (emitters.pltEmit pRegion)
  else if pSection.addr = out.format.GOT.addr then Except.ok (emitters.gotEmit pRegion)
  else Except.error EmitError.unrecognizedOutputSection

/-- The bytes section 4.6 of the design asks for in the output for one
fragment: the low byte of the fill value repeated, the bytes of the region,
the alignment fill byte repeated, nothing for a null fragment. -/
def Fragment.verbatim : Fragment → List Nat
  | Fragment.Fillment value _ size => List.replicate size (value % 256)
  | Fragment.Region bytes => bytes
  | Fragment.Alignment value _ size => List.replicate size (value % 256)
  | Fragment.Null => []
  | Fragment.Stub _ => []

/-- The fragments of the verbatim-emission claim: a fill with a value size of
at least 1, a region, an alignment with value size 1, a null fragment. -/
def Fragment.emittable : Fragment → Bool
  | Fragment.Fillment _ valueSize _ => decide (1 ≤ valueSize)
  | Fragment.Region _ => true
  | Fragment.Alignment _ valueSize _ => decide (valueSize = 1)
  | Fragment.Null => true
  | Fragment.Stub _ => false

/-- The PLT and GOT managers of the sample link write nothing. -/
def sampleEmitters : SectionEmitters :=
  { pltEmit := fun region => (region.length, region),
    gotEmit := fun region => (region.length, region) }

/-- The `.ARM.exidx` section of the sample output. -/
def sampleExidx : SectionHeader := { addr := 104, name := ".ARM.exidx", size := 0 }

/-- Section data of the sample `.ARM.exidx`: two bytes of fill `0xAB`, a
region of three bytes, one byte of alignment padding and a null fragment. -/
def sampleFragments : List Fragment :=
  [Fragment.Fillment 0x1AB 1 2, Fragment.Region [1, 2, 3], Fragment.Alignment 0 1 1,
   Fragment.Null]

/-! ## Branch relaxation -/

/-- Modelled from the spec: a fragment of the `.text` chain as far as
`doRelax` reads and writes it, with its recorded offset (`getOffset`,
`setOffset`) and its size. -/
structure TextFragment where
  offset : Nat
  size : Nat
  deriving DecidableEq, Repr

/-- Modelled from the spec: a branch island as `doRelax` reads it, with the
values of `offset()` and `size()` when the pass examines it, and `end()`, the
position in the `.text` chain of its exit fragment (`none` is the `end()` of
the section data of `.text`). -/
structure BranchIsland where
  offset : Nat
  size : Nat
  exit : Option Nat
  deriving DecidableEq, Repr

/-- Modelled from the spec: a stub, as far as `doRelax` looks at it: its
symbol info (null or a symbol). -/
structure Stub where
  symInfo : Option ResolveInfo
  deriving DecidableEq, Repr

/-- Accessor `ResolveInfo::isGlobal`. -/
def ResolveInfo.isGlobal (r : ResolveInfo) : Bool := r.binding == Binding.Global

/-- Modelled from the spec: `ResolveInfo::nameSize`, the length of the name
(`strlen`). -/
def ResolveInfo.nameSize (r : ResolveInfo) : Nat := r.name.length

/-- The `nameSize()` of the symbol info of a stub (0 for a stub without
symbol info). -/
def Stub.nameSize (s : Stub) : Nat :=
  match s.symInfo with
  | some symInfo => symInfo.nameSize
  | none => 0

/-- Modelled from the spec: the stub factory. `create(reloc, symValue, ..)`
either returns null (`none`), and then the fragment chain and the islands are
as they were, or returns a fresh stub, which it has inserted into a branch
island of `.text`: the result then carries the chain and the islands after
the insertion. -/
structure StubFactory where
  create : Relocation → Nat → List TextFragment → List BranchIsland →
    Option (Stub × List TextFragment × List BranchIsland)

/-- The fragment reference of an output symbol as `doRelax` reads it:
`fragRef()->getOutputOffset()` and the address of the section the fragment
belongs to. -/
structure SymbolPlace where
  outputOffset : Nat
  sectionAddr : Nat
  deriving DecidableEq, Repr

/-- A relocation section of an input as the walk of `doRelax` sees it:
whether its kind is `LDFileFormat::Ignore`, and its relocation data (`none`
when `hasRelocData()` is false). -/
structure RelocSection where
  isIgnore : Bool
  relocData : Option (List Relocation)
  deriving DecidableEq, Repr

/-- What `doRelax` reads and does not write: the symbols, the fragment
reference of the output symbol of each symbol (`none` when `hasFragRef()` is
false), the relocation sections of each input of the module, whether the
output has a `.plt` and its address, the stub factory (null or present) and
whether the branch island factory is present. -/
structure RelaxModule where
  resolveInfo : Nat → ResolveInfo
  fragRef : Nat → Option SymbolPlace
  inputs : List (List RelocSection)
  hasPLT : Bool
  pltAddr : Nat
  getStubFactory : Option StubFactory
  hasBRIslandFactory : Bool

/-- What `doRelax` reads and writes: the fragment chain of `.text`, the
branch islands of the island factory, the stubs created so far, and the sizes
of `.text`, `.symtab` and `.strtab` with `sh_info` of `.symtab`. Modelled
from the spec: sizes and offsets are `uint64_t` and `sh_info` a `size_t` of
64 bits, so every sum `doRelax` forms is taken modulo `2 ^ 64`. -/
structure RelaxState where
  text : List TextFragment
  islands : List BranchIsland
  stubs : List Stub
  textSize : Nat
  symtabSize : Nat
  symtabInfo : Nat
  strtabSize : Nat

/-- The three nested loops of `doRelax` visit these relocations, in this
order: every relocation of every relocation section, of every input, that is
not of kind `Ignore` and has relocation data. -/
def RelaxModule.relocations (m : RelaxModule) : List Relocation :=
  (m.inputs.map fun input =>
    (input.map fun rs =>
      if rs.isIgnore then []
      else match rs.relocData with
        | none => []
        | some relocs => relocs).flatten).flatten

/-- The candidate symbol value `doRelax` hands to the stub factory: the
address of the section plus the output offset of the fragment reference, if
the output symbol has one (64-bit unsigned arithmetic), and the address of
`.plt` for a global symbol with `ReservePLT`; `none` is the failed
`assert(file_format->hasPLT())`. -/
def doRelax.symValue (m : RelaxModule) (relocation : Relocation) : Option Nat :=
  let sym_value :=
    match m.fragRef relocation.symInfo with
    | some ref => (ref.sectionAddr + ref.outputOffset) % 2 ^ 64
    | none => 0x0
  if (m.resolveInfo relocation.symInfo).isGlobal &&
      decide ((m.resolveInfo relocation.symInfo).reserved &&& ReservePLT ≠ 0x0) then
    if m.hasPLT then some m.pltAddr else none
  else some sym_value

/-- The `sizeof` of an ELF symbol record: `Elf32_Sym` on a 32-bit target,
`Elf64_Sym` otherwise. -/
def symbolRecordSize (base : GNULDBackend) : Nat :=
  if base.config.is32Bits then 16 else 24

/-- Body of the case of the branch types in the innermost loop of `doRelax`:
ask the stub factory for a stub and, if it returns one, account for its
symbol in `.symtab` and `.strtab` (unsigned 64-bit sums). The second component of `acc` is the local
flag `isRelaxed`; `none` is a failed `assert`. -/
def doRelax.requestStub (base : GNULDBackend) (m : RelaxModule) (factory : StubFactory)
    (acc : RelaxState × Bool) (relocation : Relocation) : Option (RelaxState × Bool) :=
  match doRelax.symValue m relocation with
  | none => none
  | some sym_value =>
    match factory.create relocation sym_value acc.1.text acc.1.islands with
    | none => some acc
    | some (stub, text, islands) =>
      match stub.symInfo with
      | none => none
      | some symInfo =>
        if !symInfo.isLocal then none
        else
          some ({ acc.1 with
                    text := text,
                    islands := islands,
                    stubs := acc.1.stubs ++ [stub],
                    symtabSize := (acc.1.symtabSize + symbolRecordSize base) % 2 ^ 64,
                    symtabInfo := (acc.1.symtabInfo + 1) % 2 ^ 64,
                    strtabSize := (acc.1.strtabSize + symInfo.nameSize + 1) % 2 ^ 64 },
                true)

/-- Body of the innermost loop of `doRelax` for one relocation: the `switch`
on its type. -/
def doRelax.relocation (base : GNULDBackend) (m : RelaxModule) (factory : StubFactory)
    (acc : RelaxState × Bool) (relocation : Relocation) : Option (RelaxState × Bool) :=
  match relocation.type with
  | RelocType.R_ARM_CALL | RelocType.R_ARM_JUMP24 | RelocType.R_ARM_PLT32
  | RelocType.R_ARM_THM_CALL | RelocType.R_ARM_THM_XPC22 | RelocType.R_ARM_THM_JUMP24
  | RelocType.R_ARM_THM_JUMP19 | RelocType.R_ARM_V4BX =>
    doRelax.requestStub base m factory acc relocation
  | _ => some acc

/-- The loops of `doRelax` over the relocations. -/
def doRelax.requestStubs (base : GNULDBackend) (m : RelaxModule) (factory : StubFactory)
    (acc : RelaxState × Bool) : List Relocation → Option (RelaxState × Bool)
  | [] => some acc
  | relocation :: rest =>
    match doRelax.relocation base m factory acc relocation with
    | none => none
    | some acc1 => doRelax.requestStubs base m factory acc1 rest

/-- The loop of `doRelax` over the branch islands that looks for the first
fragment with an invalid offset: it stops at the first island whose `end()`
is the end of `.text` and at the first island whose `offset() + size()`, an
unsigned 64-bit sum, is greater than the offset of its exit fragment. The result is the position of
that exit fragment (`none` for the null `invalid`, which leaves `pFinished`
true); the outer `none` is an exit that is not a fragment of the chain. -/
def doRelax.findInvalid (text : List TextFragment) :
    List BranchIsland → Option (Option Nat)
  | [] => some none
  | island :: rest =>
    match island.exit with
    | none => some none
    | some i =>
      match text[i]? with
      | none => none
      | some exit =>
        if (island.offset + island.size) % 2 ^ 64 > exit.offset then some (some i)
        else doRelax.findInvalid text rest

/-- The loop `while (NULL != invalid)` of `doRelax` from the fragment after
`prev` on: each fragment gets as its offset the unsigned 64-bit sum
`prev.offset + prev.size` of the fragment before it. -/
def doRelax.resetChain (prev : TextFragment) : List TextFragment → List TextFragment
  | [] => []
  | invalid :: rest =>
    let invalid1 : TextFragment :=
      { invalid with offset := (prev.offset + prev.size) % 2 ^ 64 }
    invalid1 :: doRelax.resetChain invalid1 rest

/-- The loop `while (NULL != invalid)` of `doRelax`, started at the fragment
at position `i` of the chain; `none` when that fragment has no previous node. -/
def doRelax.resetOffsets (text : List TextFragment) (i : Nat) : Option (List TextFragment) :=
  match (text.take i).getLast? with
  | none => none
  | some prev => some (text.take i ++ doRelax.resetChain prev (text.drop i))

/-- What a `doRelax` pass gives back: the returned flag, `pFinished`, and the
state after the pass. -/
structure RelaxResult where
  isRelaxed : Bool
  pFinished : Bool
  state : RelaxState

/-- The loop `while (NULL != invalid)` of `doRelax` for the `invalid` found:
nothing to do for the null pointer. -/
def doRelax.reconcile (text : List TextFragment) : Option Nat → Option (List TextFragment)
  | none => some text
  | some i => doRelax.resetOffsets text i

/-- The last statement of `doRelax`: when the pass is relaxed, the size of
`.text` is reset from the `back()` of its section data, to the unsigned
64-bit sum of its offset and size; `none` when there is no last fragment. -/
def doRelax.resetTextSize (st : RelaxState) (isRelaxed : Bool) : Option RelaxState :=
  if isRelaxed then
    match st.text.getLast? with
    | none => none
    | some back => some { st with textSize := (back.offset + back.size) % 2 ^ 64 }
  else some st

/-- Function `ARMGNULDBackend::doRelax`; `none` is a failed `assert` or a
dereferenced pointer that is not a fragment. -/
def doRelax (base : GNULDBackend) (m : RelaxModule) (st : RelaxState) : Option RelaxResult :=
  match m.getStubFactory with
  | none => none
  | some factory =>
    if !m.hasBRIslandFactory then none
    else
      match doRelax.requestStubs base m factory (st, false) m.relocations with
      | none => none
      | some (st1, isRelaxed) =>
        match doRelax.findInvalid st1.text st1.islands with
        | none => none
        | some invalid =>
          match doRelax.reconcile st1.text invalid with
          | none => none
          | some text =>
            match doRelax.resetTextSize { st1 with text := text } isRelaxed with
            | none => none
            | some st2 =>
              some { isRelaxed := isRelaxed, pFinished := invalid.isNone, state := st2 }

/-- The fragment `g` starts where the fragment `prev` before it ends: its
offset is `prev.offset + prev.size`, as an unsigned 64-bit sum. -/
def offsetFollows (prev g : TextFragment) : Prop :=
  g.offset = (prev.offset + prev.size) % 2 ^ 64

/-- The relocation types for which section 4.5 of the design asks the stub
factory: `CALL`, `JUMP24`, `PLT32`, `THM_CALL`, `THM_XPC22`, `THM_JUMP24`,
`THM_JUMP19` and `V4BX`. -/
def stubRequestTypes : List RelocType :=
  [RelocType.R_ARM_CALL, RelocType.R_ARM_JUMP24, RelocType.R_ARM_PLT32,
   RelocType.R_ARM_THM_CALL, RelocType.R_ARM_THM_XPC22, RelocType.R_ARM_THM_JUMP24,
   RelocType.R_ARM_THM_JUMP19, RelocType.R_ARM_V4BX]

/-- The stubs of a pass in the words of the design (section 4.5, step 1): walk
the relocations; for each one of a type of `stubRequestTypes` ask the stub
factory with the candidate symbol value, on the chain and the islands as the
stubs returned so far have left them; the result is the list of the stubs
the factory has returned, in order. Nothing here looks at `.symtab` or
`.strtab`. -/
def stubsReturned (m : RelaxModule) (factory : StubFactory) :
    List TextFragment → List BranchIsland → List Relocation → List Stub
  | _, _, [] => []
  | text, islands, relocation :: rest =>
    if relocation.type ∈ stubRequestTypes then
      match doRelax.symValue m relocation with
      | none => []
      | some sym_value =>
        match factory.create relocation sym_value text islands with
        | none => stubsReturned m factory text islands rest
        | some (stub, text1, islands1) =>
          stub :: stubsReturned m factory text1 islands1 rest
    else stubsReturned m factory text islands rest

/-- The island `island` overruns the fragment `exit`: its `offset + size`, as
the unsigned 64-bit sum the code forms, is greater than the recorded offset
of the fragment. -/
def BranchIsland.overruns (island : BranchIsland) (exit : TextFragment) : Prop :=
  (island.offset + island.size) % 2 ^ 64 > exit.offset

/-- In the words of the design (section 4.5, step 3): the fragment at
position `i` of the chain is the exit fragment of the first island of the
list that overruns its exit fragment. Every island
before that island has an exit that is a fragment of the chain (not the end
of `.text`) and does not overrun it. -/
def firstOverrun (text : List TextFragment) (islands : List BranchIsland) (i : Nat) : Prop :=
  ∃ before island after exit, islands = before ++ island :: after ∧
    (∀ isl ∈ before, ∃ j e, isl.exit = some j ∧ text[j]? = some e ∧ ¬ isl.overruns e) ∧
    island.exit = some i ∧ text[i]? = some exit ∧ island.overruns exit

/-- The symbol of the stub of the sample relaxation. -/
def sampleStubSym : ResolveInfo :=
  { name := "__foo_T2A_veneer", type := SymType.Function, desc := Desc.Define,
    binding := Binding.Local, isDyn := false, isNull := false, size := 12,
    other := Visibility.Default, reserved := 0 }

/-- The stub factory of the sample relaxation (scenario S4): for an
`R_ARM_THM_CALL`, while the chain has its two fragments and the island is
empty, it inserts a stub of 12 bytes at the island, in front of the exit
fragment; in every other case it returns null. -/
def sampleFactory : StubFactory :=
  { create := fun relocation _ text islands =>
      match relocation.type, text, islands with
      | RelocType.R_ARM_THM_CALL, [entry, exit], [island] =>
        some ({ symInfo := some sampleStubSym },
              [entry, { offset := island.offset + island.size, size := 12 }, exit],
              [{ island with size := island.size + 12, exit := some 2 }])
      | _, _, _ => none }

/-- The module of the sample relaxation: one input whose `.rel.text` holds an
`R_ARM_THM_CALL` against `foo`. -/
def sampleRelaxModule : RelaxModule :=
  { resolveInfo := sampleInfo,
    fragRef := fun _ => none,
    inputs := [[{ isIgnore := false,
                  relocData := some [{ type := RelocType.R_ARM_THM_CALL, symInfo := 1,
                                       addend := 0 }] }]],
    hasPLT := true,
    pltAddr := 0x8000,
    getStubFactory := some sampleFactory,
    hasBRIslandFactory := true }

/-- The state of the sample relaxation before the first pass: `.text` is a
caller of 8 bytes followed by 4 bytes, with an empty island between them. -/
def sampleRelaxState : RelaxState :=
  { text := [{ offset := 0, size := 8 }, { offset := 8, size := 4 }],
    islands := [{ offset := 8, size := 0, exit := some 1 }],
    stubs := [],
    textSize := 12,
    symtabSize := 32,
    symtabInfo := 2,
    strtabSize := 10 }

/-- The state of the sample relaxation after the first pass. -/
def sampleRelaxedState : RelaxState :=
  { text := [{ offset := 0, size := 8 }, { offset := 8, size := 12 },
             { offset := 20, size := 4 }],
    islands := [{ offset := 8, size := 12, exit := some 2 }],
    stubs := [{ symInfo := some sampleStubSym }],
    textSize := 24,
    symtabSize := 48,
    symtabInfo := 3,
    strtabSize := 27 }

/-- A module without relocations. -/
def sampleQuietModule : RelaxModule := { sampleRelaxModule with inputs := [] }

/-- A state whose island list has an island that ends `.text` in front of an
island of 12 bytes that overruns its exit fragment, the second fragment. -/
def sampleOverrunAfterEnd : RelaxState :=
  { sampleRelaxState with
    islands := [{ offset := 12, size := 0, exit := none },
                { offset := 8, size := 12, exit := some 1 }] }

/-- A state with two overrunning islands: the first island (12 bytes at
offset 0) overruns the second fragment, recorded at offset 8; the second
island (8 bytes at offset 8) overruns the third fragment, recorded at
offset 12. -/
def sampleTwoOverruns : RelaxState :=
  { text := [{ offset := 0, size := 12 }, { offset := 8, size := 4 },
             { offset := 12, size := 4 }],
    islands := [{ offset := 0, size := 12, exit := some 1 },
                { offset := 8, size := 8, exit := some 2 }],
    stubs := [],
    textSize := 16,
    symtabSize := 32,
    symtabInfo := 2,
    strtabSize := 10 }

/-- The state `sampleTwoOverruns` after a pass without relocations: the
offsets are rewritten from the second fragment on. -/
def sampleTwoOverrunsReconciled : RelaxState :=
  { sampleTwoOverruns with
    text := [{ offset := 0, size := 12 }, { offset := 12, size := 4 },
             { offset := 16, size := 4 }] }

/-- A state at the end of the 64-bit range: the island of 8 bytes at offset
`2 ^ 64 - 4` ends, as an unsigned 64-bit sum, at 4. -/
def sampleWrappingIsland : RelaxState :=
  { sampleRelaxState with
    text := [{ offset := 0, size := 8 }, { offset := 100, size := 4 }],
    islands := [{ offset := 2 ^ 64 - 4, size := 8, exit := some 1 }] }

/-! ## Arithmetic of the `reserved` mask -/

theorem land_lor_right (x y z : Nat) : (x ||| y) &&& z = (x &&& z) ||| (y &&& z) := by
  rw [Nat.and_comm, Nat.and_or_distrib_left, Nat.and_comm z x, Nat.and_comm z y]

theorem lor_eq_zero {a b : Nat} (h : a ||| b = 0) : a = 0 ∧ b = 0 := by
  have key : ∀ i, (a.testBit i || b.testBit i) = false := by
    intro i
    rw [← Nat.testBit_or, h]
    simp
  constructor <;> apply Nat.eq_of_testBit_eq <;> intro i <;> have := key i <;>
    simp only [Bool.or_eq_false_iff] at this <;> simp [this.1, this.2]

theorem lor_ne_zero_right (a : Nat) {b : Nat} (h : b ≠ 0) : a ||| b ≠ 0 :=
  fun h0 => h (lor_eq_zero h0).2


theorem lor_land_disjoint (m : Nat) {a b : Nat} (h : a &&& b = 0) :
    (m ||| a) &&& b = m &&& b := by
  rw [land_lor_right, h, Nat.or_zero]

theorem lor_land_self_ne_zero (m : Nat) {a b : Nat} (h : a &&& b ≠ 0) :
    (m ||| a) &&& b ≠ 0 := by
  rw [land_lor_right]; exact lor_ne_zero_right _ h

/-- Setting `ReservePLT` or `ReserveRel` does not touch the two GOT bits. -/
theorem mask_or_PLT_GOTbits (m : Nat) :
    (m ||| ReservePLT) &&& (ReserveGOT ||| GOTRel) = m &&& (ReserveGOT ||| GOTRel) :=
  lor_land_disjoint m (by decide)

theorem mask_or_Rel_GOTbits (m : Nat) :
    (m ||| ReserveRel) &&& (ReserveGOT ||| GOTRel) = m &&& (ReserveGOT ||| GOTRel) :=
  lor_land_disjoint m (by decide)

theorem mask_or_PLT_GOT (m : Nat) : (m ||| ReservePLT) &&& ReserveGOT = m &&& ReserveGOT :=
  lor_land_disjoint m (by decide)

theorem mask_or_PLT_GOTRel (m : Nat) : (m ||| ReservePLT) &&& GOTRel = m &&& GOTRel :=
  lor_land_disjoint m (by decide)

theorem mask_or_Rel_GOT (m : Nat) : (m ||| ReserveRel) &&& ReserveGOT = m &&& ReserveGOT :=
  lor_land_disjoint m (by decide)

theorem mask_or_Rel_GOTRel (m : Nat) : (m ||| ReserveRel) &&& GOTRel = m &&& GOTRel :=
  lor_land_disjoint m (by decide)

theorem mask_or_Rel_PLT (m : Nat) : (m ||| ReserveRel) &&& ReservePLT = m &&& ReservePLT :=
  lor_land_disjoint m (by decide)

theorem mask_or_GOT_PLT (m : Nat) : (m ||| ReserveGOT) &&& ReservePLT = m &&& ReservePLT :=
  lor_land_disjoint m (by decide)

theorem mask_or_GOTRel_PLT (m : Nat) : (m ||| GOTRel) &&& ReservePLT = m &&& ReservePLT :=
  lor_land_disjoint m (by decide)

theorem mask_or_PLT_PLT (m : Nat) : (m ||| ReservePLT) &&& ReservePLT ≠ 0 :=
  lor_land_self_ne_zero m (by decide)

theorem mask_or_GOT_GOTbits (m : Nat) :
    (m ||| ReserveGOT) &&& (ReserveGOT ||| GOTRel) ≠ 0 :=
  lor_land_self_ne_zero m (by decide)

theorem mask_or_GOTRel_GOTbits (m : Nat) :
    (m ||| GOTRel) &&& (ReserveGOT ||| GOTRel) ≠ 0 :=
  lor_land_self_ne_zero m (by decide)

/-- The guard `reserved & (ReserveGOT | GOTRel)` is zero exactly when both
GOT bits are clear. -/
theorem mask_GOTbits_eq_zero (m : Nat) :
    m &&& (ReserveGOT ||| GOTRel) = 0 ↔ m &&& ReserveGOT = 0 ∧ m &&& GOTRel = 0 := by
  rw [Nat.and_or_distrib_left]
  constructor
  · exact lor_eq_zero
  · rintro ⟨h1, h2⟩; rw [h1, h2]; rfl

theorem mask_or_GOT_GOTRel (m : Nat) : (m ||| ReserveGOT) &&& GOTRel = m &&& GOTRel :=
  lor_land_disjoint m (by decide)

theorem mask_or_GOTRel_GOT (m : Nat) : (m ||| GOTRel) &&& ReserveGOT = m &&& ReserveGOT :=
  lor_land_disjoint m (by decide)

/-! ## The invariants are kept by every step -/

theorem setOf_update_same {P : Nat → Prop} (f : Nat → ResolveInfo) (p : Nat)
    (r : ResolveInfo) (h : P r.reserved ↔ P (f p).reserved) :
    {q | P (Function.update f p r q).reserved} = {q | P (f q).reserved} := by
  ext q
  by_cases hq : q = p
  · subst hq; simp [h]
  · simp [Function.update_noteq hq]

theorem setOf_update_new {P : Nat → Prop} (f : Nat → ResolveInfo) (p : Nat)
    (r : ResolveInfo) (hnew : P r.reserved) :
    {q | P (Function.update f p r q).reserved} = insert p {q | P (f q).reserved} := by
  ext q
  by_cases hq : q = p
  · subst hq; simp [hnew]
  · simp [Function.update_noteq hq, hq]

theorem CoreStep.keeps_gotSymbol {st st1 : LinkState} (hs : CoreStep st st1) :
    st1.m_pGOTSymbol = st.m_pGOTSymbol := by
  cases hs <;> assumption

theorem GOTExclusive.exclusive_step {st st1 : LinkState} (h : GOTExclusive st)
    (hs : CoreStep st st1) : GOTExclusive st1 := by
  intro q
  cases hs with
  | same hr => rw [hr]; exact h q
  | rel p hr =>
    rw [hr]
    by_cases hq : q = p
    · subst hq
      simp only [Function.update_same, mask_or_Rel_GOT, mask_or_Rel_GOTRel]
      exact h q
    · rw [Function.update_noteq hq]; exact h q
  | plt p hno hr =>
    rw [hr]
    by_cases hq : q = p
    · subst hq
      simp only [Function.update_same, mask_or_PLT_GOT, mask_or_PLT_GOTRel]
      exact h q
    · rw [Function.update_noteq hq]; exact h q
  | got p flag hflag hno hr =>
    have hz : (st.resolveInfo p).reserved &&& (ReserveGOT ||| GOTRel) = 0 := by
      simpa [hasGOTEntry] using hno
    have hz2 := (mask_GOTbits_eq_zero _).1 hz
    rw [hr]
    by_cases hq : q = p
    · subst hq
      rcases hflag with rfl | rfl
      · simp only [Function.update_same, mask_or_GOT_GOTRel]
        exact fun hh => hh.2 hz2.2
      · simp only [Function.update_same, mask_or_GOTRel_GOT]
        exact fun hh => hh.1 hz2.1
    · rw [Function.update_noteq hq]; exact h q

theorem CountInv.count_step {st st1 : LinkState} (h : CountInv st) (hs : CoreStep st st1) :
    CountInv st1 := by
  cases hs with
  | same hr hg hp hq =>
    exact ⟨by unfold pltSymbols; rw [hr]; exact h.pltFinite,
      by unfold pltSymbols; rw [hr, hp]; exact h.pltCard,
      by rw [hq, hp]; exact h.relPLT,
      by rw [hg, hp]; exact h.gotPLT,
      by unfold gotSymbols; rw [hr]; exact h.gotFinite,
      by unfold gotSymbols; rw [hr, hg]; exact h.gotCard⟩
  | rel p hr hg hp hq =>
    have e1 : pltSymbols st1 = pltSymbols st := by
      unfold pltSymbols; rw [hr]
      exact setOf_update_same _ _ _ (by simp [hasPLTEntry, mask_or_Rel_PLT])
    have e2 : gotSymbols st1 = gotSymbols st := by
      unfold gotSymbols; rw [hr]
      exact setOf_update_same _ _ _ (by simp [hasGOTEntry, mask_or_Rel_GOTbits])
    refine ⟨e1 ▸ h.pltFinite, ?_, ?_, ?_, e2 ▸ h.gotFinite, ?_⟩
    · rw [e1, hp]; exact h.pltCard
    · rw [hq, hp]; exact h.relPLT
    · rw [hg, hp]; exact h.gotPLT
    · rw [e2, hg]; exact h.gotCard
  | plt p hno hr hg hp hq =>
    have e1 : pltSymbols st1 = insert p (pltSymbols st) := by
      unfold pltSymbols; rw [hr]
      exact setOf_update_new _ _ _ (mask_or_PLT_PLT _)
    have e2 : gotSymbols st1 = gotSymbols st := by
      unfold gotSymbols; rw [hr]
      exact setOf_update_same _ _ _ (by simp [hasGOTEntry, mask_or_PLT_GOTbits])
    have hp1 : st1.m_pPLT.plt1 = st.m_pPLT.plt1 + 1 := by rw [hp]
    have hg1 : st1.m_pGOT.gotplt = st.m_pGOT.gotplt + 1 := by rw [hg]
    have hg2 : st1.m_pGOT.got = st.m_pGOT.got := by rw [hg]
    refine ⟨e1 ▸ h.pltFinite.insert p, ?_, ?_, ?_, e2 ▸ h.gotFinite, ?_⟩
    · rw [e1, Set.ncard_insert_of_not_mem (show p ∉ pltSymbols st from hno) h.pltFinite,
        h.pltCard, hp1]
    · rw [hq, hp1, h.relPLT]
    · rw [hg1, hp1, h.gotPLT]
    · rw [e2, hg2]; exact h.gotCard
  | got p flag hflag hno hr hg hp hq =>
    have e1 : pltSymbols st1 = pltSymbols st := by
      unfold pltSymbols; rw [hr]
      refine setOf_update_same _ _ _ ?_
      rcases hflag with rfl | rfl
      · simp [hasPLTEntry, mask_or_GOT_PLT]
      · simp [hasPLTEntry, mask_or_GOTRel_PLT]
    have e2 : gotSymbols st1 = insert p (gotSymbols st) := by
      unfold gotSymbols; rw [hr]
      refine setOf_update_new _ _ _ ?_
      rcases hflag with rfl | rfl
      · exact mask_or_GOT_GOTbits _
      · exact mask_or_GOTRel_GOTbits _
    have hg1 : st1.m_pGOT.gotplt = st.m_pGOT.gotplt := by rw [hg]
    have hg2 : st1.m_pGOT.got = st.m_pGOT.got + 1 := by rw [hg]
    refine ⟨e1 ▸ h.pltFinite, ?_, ?_, ?_, e2 ▸ h.gotFinite.insert p, ?_⟩
    · rw [e1, hp]; exact h.pltCard
    · rw [hq, hp]; exact h.relPLT
    · rw [hg1, hp]; exact h.gotPLT
    · rw [e2, Set.ncard_insert_of_not_mem (show p ∉ gotSymbols st from hno) h.gotFinite,
        h.gotCard, hg2]

theorem CoreStep.appends_diagnostics {st st1 : LinkState} (hs : CoreStep st st1) :
    ∃ ds, st1.diagnostics = st.diagnostics ++ ds := by
  cases hs <;> assumption

theorem Steps.append_diagnostics {st st1 : LinkState} (hs : Steps st st1) :
    ∃ ds, st1.diagnostics = st.diagnostics ++ ds := by
  induction hs with
  | refl => exact ⟨[], (List.append_nil _).symm⟩
  | tail _ h ih =>
    obtain ⟨ds1, h1⟩ := ih
    obtain ⟨ds2, h2⟩ := h.appends_diagnostics
    exact ⟨ds1 ++ ds2, by rw [h2, h1, List.append_assoc]⟩

theorem Steps.keep_gotSymbol {st st1 : LinkState} (hs : Steps st st1) :
    st1.m_pGOTSymbol = st.m_pGOTSymbol := by
  induction hs with
  | refl => rfl
  | tail _ h ih => rw [h.keeps_gotSymbol, ih]

theorem GOTExclusive.exclusive_steps {st st1 : LinkState} (h : GOTExclusive st) (hs : Steps st st1) :
    GOTExclusive st1 := by
  induction hs with
  | refl => exact h
  | tail _ h1 ih => exact ih.exclusive_step h1

theorem CountInv.count_steps {st st1 : LinkState} (h : CountInv st) (hs : Steps st st1) :
    CountInv st1 := by
  induction hs with
  | refl => exact h
  | tail _ h1 ih => exact ih.count_step h1

theorem Steps.one {st st1 : LinkState} (h : CoreStep st st1) : Steps st st1 :=
  Relation.ReflTransGen.single h

theorem Steps.trans {a b c : LinkState} (h1 : Steps a b) (h2 : Steps b c) : Steps a c :=
  Relation.ReflTransGen.trans h1 h2

theorem Steps.here (st : LinkState) : Steps st st := Relation.ReflTransGen.refl

/-! ## Every body of the scanner takes steps of the four kinds -/

theorem Steps.report (st : LinkState) (d : Diagnostic) : Steps st (st.report d) :=
  Steps.one (CoreStep.same rfl rfl rfl rfl rfl ⟨[d], rfl⟩)

theorem defineSymbolforCopyReloc_frame (base : GNULDBackend) (st : LinkState)
    (pSym : ResolveInfo) :
    (defineSymbolforCopyReloc base st pSym).2.resolveInfo = st.resolveInfo ∧
    (defineSymbolforCopyReloc base st pSym).2.m_pGOT = st.m_pGOT ∧
    (defineSymbolforCopyReloc base st pSym).2.m_pPLT = st.m_pPLT ∧
    (defineSymbolforCopyReloc base st pSym).2.m_pRelDyn = st.m_pRelDyn ∧
    (defineSymbolforCopyReloc base st pSym).2.m_pRelPLT = st.m_pRelPLT ∧
    (defineSymbolforCopyReloc base st pSym).2.m_pGOTSymbol = st.m_pGOTSymbol ∧
    (defineSymbolforCopyReloc base st pSym).2.diagnostics = st.diagnostics := by
  unfold defineSymbolforCopyReloc
  by_cases h : pSym.type = SymType.ThreadLocal <;> simp [h]

theorem checkValidReloc_frame (base : GNULDBackend) (st : LinkState) (pReloc : Relocation) :
    (checkValidReloc base st pReloc).resolveInfo = st.resolveInfo ∧
    (checkValidReloc base st pReloc).m_pGOT = st.m_pGOT ∧
    (checkValidReloc base st pReloc).m_pPLT = st.m_pPLT ∧
    (checkValidReloc base st pReloc).m_pRelDyn = st.m_pRelDyn ∧
    (checkValidReloc base st pReloc).m_pRelPLT = st.m_pRelPLT ∧
    (checkValidReloc base st pReloc).m_pGOTSymbol = st.m_pGOTSymbol ∧
    (checkValidReloc base st pReloc).bss = st.bss ∧
    (checkValidReloc base st pReloc).tbss = st.tbss := by
  unfold checkValidReloc
  split
  · simp
  · split <;> simp [LinkState.report]

theorem checkValidReloc_diagnostics (base : GNULDBackend) (st : LinkState)
    (pReloc : Relocation) :
    ∃ ds, (checkValidReloc base st pReloc).diagnostics = st.diagnostics ++ ds := by
  unfold checkValidReloc
  split
  · exact ⟨[], (List.append_nil _).symm⟩
  · split <;> first | exact ⟨[], (List.append_nil _).symm⟩ | exact ⟨[_], rfl⟩

theorem Steps.localAbs32 (base : GNULDBackend) (st : LinkState) (pReloc : Relocation)
    (pSection : LDSection) : Steps st (scanLocalReloc.abs32 base st pReloc pSection) := by
  unfold scanLocalReloc.abs32
  dsimp only
  split
  · exact Steps.one (CoreStep.rel pReloc.symInfo rfl rfl rfl rfl rfl ⟨[], (List.append_nil _).symm⟩)
  · exact Steps.here st

theorem Steps.localGot (base : GNULDBackend) (st : LinkState) (pReloc : Relocation) :
    Steps st (scanLocalReloc.got base st pReloc) := by
  unfold scanLocalReloc.got
  dsimp only
  split
  · exact Steps.here st
  · rename_i hno
    split
    · exact Steps.one
        (CoreStep.got pReloc.symInfo GOTRel (Or.inr rfl) hno rfl rfl rfl rfl rfl ⟨[], (List.append_nil _).symm⟩)
    · exact Steps.one
        (CoreStep.got pReloc.symInfo ReserveGOT (Or.inl rfl) hno rfl rfl rfl rfl rfl ⟨[], (List.append_nil _).symm⟩)

theorem Steps.reservePLT (st : LinkState) (rsym : Nat)
    (hno : ¬ (st.resolveInfo rsym).reserved &&& ReservePLT ≠ 0) :
    Steps st (scanGlobalReloc.reservePLT st rsym) :=
  Steps.one (CoreStep.plt rsym hno rfl rfl rfl rfl rfl ⟨[], (List.append_nil _).symm⟩)

theorem Steps.dynRel (base : GNULDBackend) (st : LinkState) (pReloc : Relocation)
    (pSection : LDSection) (isAbsReloc : Bool) :
    Steps st (scanGlobalReloc.dynRel base st pReloc pSection isAbsReloc) := by
  unfold scanGlobalReloc.dynRel
  dsimp only
  split
  · split
    · have hf := defineSymbolforCopyReloc_frame base st.reserveRelDyn
        (st.reserveRelDyn.resolveInfo pReloc.symInfo)
      exact Steps.one (CoreStep.same hf.1 hf.2.1 hf.2.2.1
        (by rw [addCopyReloc, hf.2.2.2.2.1]; rfl) (by rw [addCopyReloc, hf.2.2.2.2.2.1]; rfl)
        ⟨[], by rw [addCopyReloc, hf.2.2.2.2.2.2]; exact (List.append_nil _).symm⟩)
    · have hf := checkValidReloc_frame base st.reserveRelDyn pReloc
      have h1 : Steps st (checkValidReloc base st.reserveRelDyn pReloc) :=
        Steps.one (CoreStep.same hf.1 hf.2.1 hf.2.2.1 (by rw [hf.2.2.2.2.1]; rfl)
          (by rw [hf.2.2.2.2.2.1]; rfl) (checkValidReloc_diagnostics base _ pReloc))
      exact h1.trans (Steps.one (CoreStep.rel pReloc.symInfo rfl rfl rfl rfl rfl ⟨[], (List.append_nil _).symm⟩))
  · exact Steps.here st

theorem Steps.globalAbs (base : GNULDBackend) (st : LinkState) (pReloc : Relocation)
    (pSection : LDSection) : Steps st (scanGlobalReloc.abs base st pReloc pSection) := by
  unfold scanGlobalReloc.abs
  dsimp only
  refine Steps.trans ?_ (Steps.dynRel base _ pReloc pSection true)
  split
  · split
    · rename_i hno; exact Steps.reservePLT st _ hno
    · exact Steps.here st
  · exact Steps.here st

theorem Steps.globalBranch (base : GNULDBackend) (st : LinkState) (pReloc : Relocation) :
    Steps st (scanGlobalReloc.branch base st pReloc) := by
  unfold scanGlobalReloc.branch
  dsimp only
  split
  · exact Steps.here st
  · rename_i hno
    split
    · exact Steps.here st
    · split
      · exact Steps.here st
      · exact Steps.reservePLT st _ hno

theorem Steps.globalGot (base : GNULDBackend) (st : LinkState) (pReloc : Relocation) :
    Steps st (scanGlobalReloc.got base st pReloc) := by
  unfold scanGlobalReloc.got
  dsimp only
  split
  · exact Steps.here st
  · rename_i hno
    split
    · exact Steps.one
        (CoreStep.got pReloc.symInfo GOTRel (Or.inr rfl) hno rfl rfl rfl rfl rfl ⟨[], (List.append_nil _).symm⟩)
    · exact Steps.one
        (CoreStep.got pReloc.symInfo ReserveGOT (Or.inl rfl) hno rfl rfl rfl rfl rfl ⟨[], (List.append_nil _).symm⟩)

/-- What `scanLocalReloc` can do to the state. -/
theorem scanLocalReloc_cases {base : GNULDBackend} {st st1 : LinkState}
    {pReloc r1 : Relocation} {pSection : LDSection}
    (hs : scanLocalReloc base st pReloc pSection = some (r1, st1)) :
    st1 = st ∨ (∃ d, st1 = st.report d) ∨
    (∃ r, st1 = scanLocalReloc.abs32 base st r pSection) ∨
    (∃ r, st1 = scanLocalReloc.got base st r) := by
  obtain ⟨t, s, a⟩ := pReloc
  cases t <;> simp only [scanLocalReloc, Relocation.setType] at hs
  all_goals try split at hs
  all_goals try split at hs
  all_goals first
    | (cases hs; done)
    | (simp only [Option.some.injEq, Prod.mk.injEq] at hs
       obtain ⟨-, rfl⟩ := hs
       first
        | exact Or.inl rfl
        | exact Or.inr (Or.inl ⟨_, rfl⟩)
        | exact Or.inr (Or.inr (Or.inl ⟨_, rfl⟩))
        | exact Or.inr (Or.inr (Or.inr ⟨_, rfl⟩)))

theorem Steps.of_scanLocalReloc {base : GNULDBackend} {st st1 : LinkState}
    {pReloc r1 : Relocation} {pSection : LDSection}
    (hs : scanLocalReloc base st pReloc pSection = some (r1, st1)) : Steps st st1 := by
  rcases scanLocalReloc_cases hs with rfl | ⟨d, rfl⟩ | ⟨r, rfl⟩ | ⟨r, rfl⟩
  · exact Steps.here _
  · exact Steps.report _ d
  · exact Steps.localAbs32 _ _ _ _
  · exact Steps.localGot _ _ _

/-- What `scanGlobalReloc` can do to the state. -/
theorem scanGlobalReloc_cases {base : GNULDBackend} {st st1 : LinkState}
    {pReloc r1 : Relocation} {pSection : LDSection}
    (hs : scanGlobalReloc base st pReloc pSection = some (r1, st1)) :
    st1 = st ∨ (∃ d, st1 = st.report d) ∨
    (∃ r, st1 = scanGlobalReloc.abs base st r pSection) ∨
    (∃ st0 r b, (st0 = st ∨ ∃ d, st0 = st.report d) ∧
      st1 = scanGlobalReloc.dynRel base st0 r pSection b) ∨
    (∃ r, st1 = scanGlobalReloc.branch base st r) ∨
    (∃ r, st1 = scanGlobalReloc.got base st r) := by
  obtain ⟨t, s, a⟩ := pReloc
  cases t <;> simp only [scanGlobalReloc, Relocation.setType] at hs
  all_goals try split at hs
  all_goals try split at hs
  all_goals first
    | (cases hs; done)
    | (simp only [Option.some.injEq, Prod.mk.injEq] at hs
       obtain ⟨-, rfl⟩ := hs
       first
        | exact Or.inl rfl
        | exact Or.inr (Or.inl ⟨_, rfl⟩)
        | exact Or.inr (Or.inr (Or.inl ⟨_, rfl⟩))
        | exact Or.inr (Or.inr (Or.inr (Or.inl ⟨_, _, _, Or.inl rfl, rfl⟩)))
        | exact Or.inr (Or.inr (Or.inr (Or.inl ⟨_, _, _, Or.inr ⟨_, rfl⟩, rfl⟩)))
        | exact Or.inr (Or.inr (Or.inr (Or.inr (Or.inl ⟨_, rfl⟩))))
        | exact Or.inr (Or.inr (Or.inr (Or.inr (Or.inr ⟨_, rfl⟩)))))

theorem Steps.of_scanGlobalReloc {base : GNULDBackend} {st st1 : LinkState}
    {pReloc r1 : Relocation} {pSection : LDSection}
    (hs : scanGlobalReloc base st pReloc pSection = some (r1, st1)) : Steps st st1 := by
  rcases scanGlobalReloc_cases hs with
    rfl | ⟨d, rfl⟩ | ⟨r, rfl⟩ | ⟨st0, r, b, h0, rfl⟩ | ⟨r, rfl⟩ | ⟨r, rfl⟩
  · exact Steps.here _
  · exact Steps.report _ d
  · exact Steps.globalAbs _ _ _ _
  · rcases h0 with rfl | ⟨d, rfl⟩
    · exact Steps.dynRel _ _ _ _ _
    · exact (Steps.report _ d).trans (Steps.dynRel _ _ _ _ _)
  · exact Steps.globalBranch _ _ _
  · exact Steps.globalGot _ _ _

/-- A call of `scanRelocation` that returns is the early return, or the
dispatch followed by the undefined-reference test. -/
theorem scanRelocation_cases {base : GNULDBackend} {st st2 : LinkState}
    {pReloc r2 : Relocation} {pSection : LDSection}
    (hs : scanRelocation base st pReloc pSection = some (r2, st2)) :
    (pSection.getLink.flag &&& SHF_ALLOC = 0 ∧ r2 = updateAddend base pReloc ∧ st2 = st) ∨
    (pSection.getLink.flag &&& SHF_ALLOC ≠ 0 ∧ ∃ st1,
      ((st.resolveInfo pReloc.symInfo).isLocal = true ∧
          scanLocalReloc base st (updateAddend base pReloc) pSection = some (r2, st1) ∨
       (st.resolveInfo pReloc.symInfo).isLocal = false ∧
          scanGlobalReloc base st (updateAddend base pReloc) pSection = some (r2, st1)) ∧
      (isUndefinedReference (st1.resolveInfo pReloc.symInfo) = true ∧
          st2 = st1.report { severity := Severity.Fatal, id := DiagID.undefined_reference,
                             type := none,
                             args := [(st1.resolveInfo pReloc.symInfo).name] } ∨
       isUndefinedReference (st1.resolveInfo pReloc.symInfo) = false ∧ st2 = st1)) := by
  unfold scanRelocation at hs
  dsimp only at hs
  by_cases ha : pSection.getLink.flag &&& SHF_ALLOC = 0
  · rw [if_pos ha] at hs
    simp only [Option.some.injEq, Prod.mk.injEq] at hs
    exact Or.inl ⟨ha, hs.1.symm, hs.2.symm⟩
  · rw [if_neg ha] at hs
    refine Or.inr ⟨ha, ?_⟩
    by_cases hl : (st.resolveInfo pReloc.symInfo).isLocal = true
    · rw [if_pos hl] at hs
      cases hd : scanLocalReloc base st (updateAddend base pReloc) pSection with
      | none => rw [hd] at hs; cases hs
      | some res =>
        obtain ⟨r1, st1⟩ := res
        rw [hd] at hs
        dsimp only at hs
        by_cases hu : isUndefinedReference (st1.resolveInfo pReloc.symInfo) = true
        · rw [if_pos hu] at hs
          simp only [Option.some.injEq, Prod.mk.injEq] at hs
          obtain ⟨rfl, rfl⟩ := hs
          exact ⟨st1, Or.inl ⟨hl, rfl⟩, Or.inl ⟨hu, rfl⟩⟩
        · rw [if_neg hu] at hs
          simp only [Option.some.injEq, Prod.mk.injEq] at hs
          obtain ⟨rfl, rfl⟩ := hs
          exact ⟨st1, Or.inl ⟨hl, rfl⟩, Or.inr ⟨by simpa using hu, rfl⟩⟩
    · rw [if_neg hl] at hs
      cases hd : scanGlobalReloc base st (updateAddend base pReloc) pSection with
      | none => rw [hd] at hs; cases hs
      | some res =>
        obtain ⟨r1, st1⟩ := res
        rw [hd] at hs
        dsimp only at hs
        by_cases hu : isUndefinedReference (st1.resolveInfo pReloc.symInfo) = true
        · rw [if_pos hu] at hs
          simp only [Option.some.injEq, Prod.mk.injEq] at hs
          obtain ⟨rfl, rfl⟩ := hs
          exact ⟨st1, Or.inr ⟨by simpa using hl, rfl⟩, Or.inl ⟨hu, rfl⟩⟩
        · rw [if_neg hu] at hs
          simp only [Option.some.injEq, Prod.mk.injEq] at hs
          obtain ⟨rfl, rfl⟩ := hs
          exact ⟨st1, Or.inr ⟨by simpa using hl, rfl⟩, Or.inr ⟨by simpa using hu, rfl⟩⟩

theorem Steps.of_scanRelocation {base : GNULDBackend} {st st2 : LinkState}
    {pReloc r2 : Relocation} {pSection : LDSection}
    (hs : scanRelocation base st pReloc pSection = some (r2, st2)) : Steps st st2 := by
  rcases scanRelocation_cases hs with ⟨-, -, rfl⟩ | ⟨-, st1, hd, hu⟩
  · exact Steps.here _
  · have h1 : Steps st st1 := by
      rcases hd with ⟨-, hd⟩ | ⟨-, hd⟩
      · exact Steps.of_scanLocalReloc hd
      · exact Steps.of_scanGlobalReloc hd
    rcases hu with ⟨-, rfl⟩ | ⟨-, rfl⟩
    · exact h1.trans (Steps.report _ _)
    · exact h1

theorem Steps.of_scanAll (base : GNULDBackend) (calls : List (Relocation × LDSection)) :
    ∀ {st st1 : LinkState}, scanAll base st calls = some st1 → Steps st st1 := by
  induction calls with
  | nil =>
    intro st st1 hs
    simp only [scanAll, Option.some.injEq] at hs
    exact hs ▸ Steps.here st
  | cons c rest ih =>
    intro st st1 hs
    obtain ⟨pReloc, pSection⟩ := c
    simp only [scanAll] at hs
    cases hd : scanRelocation base st pReloc pSection with
    | none => rw [hd] at hs; cases hs
    | some res =>
      obtain ⟨r, st0⟩ := res
      rw [hd] at hs
      exact (Steps.of_scanRelocation hd).trans (ih hs)

/-- With `m_pGOTSymbol` set, `scanLocalReloc` returns. -/
theorem scanLocalReloc_isSome (base : GNULDBackend) (st : LinkState) (pReloc : Relocation)
    (pSection : LDSection) (hg : st.m_pGOTSymbol ≠ none) :
    ∃ res, scanLocalReloc base st pReloc pSection = some res := by
  obtain ⟨g, hg1⟩ : ∃ g, st.m_pGOTSymbol = some g := by
    cases h : st.m_pGOTSymbol with
    | none => exact absurd h hg
    | some g => exact ⟨g, rfl⟩
  obtain ⟨t, s, a⟩ := pReloc
  cases t <;> simp only [scanLocalReloc, hg1] <;> (try split) <;> exact ⟨_, rfl⟩

/-- With `m_pGOTSymbol` set, `scanGlobalReloc` returns. -/
theorem scanGlobalReloc_isSome (base : GNULDBackend) (st : LinkState) (pReloc : Relocation)
    (pSection : LDSection) (hg : st.m_pGOTSymbol ≠ none) :
    ∃ res, scanGlobalReloc base st pReloc pSection = some res := by
  obtain ⟨g, hg1⟩ : ∃ g, st.m_pGOTSymbol = some g := by
    cases h : st.m_pGOTSymbol with
    | none => exact absurd h hg
    | some g => exact ⟨g, rfl⟩
  obtain ⟨t, s, a⟩ := pReloc
  cases t <;> simp only [scanGlobalReloc, hg1] <;> exact ⟨_, rfl⟩

/-- With `m_pGOTSymbol` set, `scanRelocation` returns. -/
theorem scanRelocation_isSome (base : GNULDBackend) (st : LinkState) (pReloc : Relocation)
    (pSection : LDSection) (hg : st.m_pGOTSymbol ≠ none) :
    ∃ res, scanRelocation base st pReloc pSection = some res := by
  unfold scanRelocation
  dsimp only
  by_cases ha : pSection.getLink.flag &&& SHF_ALLOC = 0
  · rw [if_pos ha]; exact ⟨_, rfl⟩
  · rw [if_neg ha]
    by_cases hl : (st.resolveInfo pReloc.symInfo).isLocal = true
    · obtain ⟨res, hres⟩ := scanLocalReloc_isSome base st (updateAddend base pReloc) pSection hg
      rw [if_pos hl, hres]; dsimp only; split <;> exact ⟨_, rfl⟩
    · obtain ⟨res, hres⟩ := scanGlobalReloc_isSome base st (updateAddend base pReloc) pSection hg
      rw [if_neg hl, hres]; dsimp only; split <;> exact ⟨_, rfl⟩

/-- With `m_pGOTSymbol` set, every sequence of `scanRelocation` calls runs to
its end. -/
theorem scanAll_isSome (base : GNULDBackend) (calls : List (Relocation × LDSection)) :
    ∀ (st : LinkState), st.m_pGOTSymbol ≠ none → ∃ st1, scanAll base st calls = some st1 := by
  induction calls with
  | nil => intro st _; exact ⟨st, rfl⟩
  | cons c rest ih =>
    intro st hg
    obtain ⟨pReloc, pSection⟩ := c
    obtain ⟨res, hres⟩ := scanRelocation_isSome base st pReloc pSection hg
    obtain ⟨r, st0⟩ := res
    have hg0 : st0.m_pGOTSymbol ≠ none := by
      rw [(Steps.of_scanRelocation hres).keep_gotSymbol]; exact hg
    obtain ⟨st1, h1⟩ := ih st0 hg0
    exact ⟨st1, by simp only [scanAll, hres, h1]⟩

/-- A state with every mask zero satisfies the exclusivity invariant. -/
theorem GOTExclusive.of_zero {st : LinkState} (h0 : ∀ p, (st.resolveInfo p).reserved = 0) :
    GOTExclusive st := by
  intro p; simp [h0 p]

/-- A state with every mask zero and the PLT and GOT counters zero satisfies
the counting invariant. -/
theorem CountInv.of_empty {st : LinkState} (h0 : ∀ p, (st.resolveInfo p).reserved = 0)
    (hplt : st.m_pPLT.plt1 = 0) (hrel : st.m_pRelPLT.numOfRelocs = 0)
    (hgot : st.m_pGOT.got = 0) (hgp : st.m_pGOT.gotplt = 0) : CountInv st := by
  have e1 : pltSymbols st = ∅ := by
    ext p; simp [pltSymbols, hasPLTEntry, h0 p]
  have e2 : gotSymbols st = ∅ := by
    ext p; simp [gotSymbols, hasGOTEntry, h0 p]
  refine ⟨e1 ▸ Set.finite_empty, ?_, ?_, ?_, e2 ▸ Set.finite_empty, ?_⟩
  · rw [e1, hplt]; exact Set.ncard_empty _
  · rw [hrel, hplt]
  · rw [hgp, hplt]
  · rw [e2, hgot]; exact Set.ncard_empty _

/-! ## Claims about the state after a sequence of scans -/

theorem LinkState.initial_isEmpty (info : Nat → ResolveInfo) (g : Option LDSymbol) :
    (LinkState.initial info g).isEmpty :=
  ⟨fun _ => rfl, rfl, rfl, rfl, rfl, rfl⟩

/-- C1. Starting from a state in which every `reserved` mask is 0, after any
sequence of `scanRelocation` calls (any types, symbols, configuration and
answers of the external predicates) no symbol has both `ReserveGOT` and
`GOTRel` in its mask; and the sequence runs to its end whenever
`m_pGOTSymbol` is set. -/
theorem got_flags_exclusive (base : GNULDBackend) (st : LinkState)
    (calls : List (Relocation × LDSection))
    (h0 : ∀ p, (st.resolveInfo p).reserved = 0) :
    (st.m_pGOTSymbol ≠ none → ∃ st1, scanAll base st calls = some st1) ∧
    ∀ st1, scanAll base st calls = some st1 →
      ∀ p, ¬ ((st1.resolveInfo p).reserved &&& ReserveGOT ≠ 0 ∧
              (st1.resolveInfo p).reserved &&& GOTRel ≠ 0) :=
  ⟨scanAll_isSome base calls st,
   fun _ hs => (GOTExclusive.of_zero h0).exclusive_steps (Steps.of_scanAll base calls hs)⟩

/-- Instance of C1: two GOT relocations against `loc` and one against `foo`
in the sample link; `loc` ends with `GOTRel` alone. -/
theorem got_flags_exclusive_witness :
    (∀ p, (sampleState.resolveInfo p).reserved = 0) ∧
    (∃ st1, scanAll sampleBase sampleState
        [({ type := RelocType.R_ARM_GOT_BREL, symInfo := 2, addend := 0 }, sampleRelText),
         ({ type := RelocType.R_ARM_TARGET2, symInfo := 2, addend := 0 }, sampleRelText),
         ({ type := RelocType.R_ARM_GOT_PREL, symInfo := 1, addend := 0 }, sampleRelText)]
        = some st1 ∧ (st1.resolveInfo 2).reserved = GOTRel) ∧
    ((sampleState.m_pGOTSymbol ≠ none → ∃ st1, scanAll sampleBase sampleState
        [({ type := RelocType.R_ARM_GOT_BREL, symInfo := 2, addend := 0 }, sampleRelText),
         ({ type := RelocType.R_ARM_TARGET2, symInfo := 2, addend := 0 }, sampleRelText),
         ({ type := RelocType.R_ARM_GOT_PREL, symInfo := 1, addend := 0 }, sampleRelText)]
        = some st1) ∧
     ∀ st1, scanAll sampleBase sampleState
        [({ type := RelocType.R_ARM_GOT_BREL, symInfo := 2, addend := 0 }, sampleRelText),
         ({ type := RelocType.R_ARM_TARGET2, symInfo := 2, addend := 0 }, sampleRelText),
         ({ type := RelocType.R_ARM_GOT_PREL, symInfo := 1, addend := 0 }, sampleRelText)]
        = some st1 →
      ∀ p, ¬ ((st1.resolveInfo p).reserved &&& ReserveGOT ≠ 0 ∧
              (st1.resolveInfo p).reserved &&& GOTRel ≠ 0)) :=
  ⟨fun _ => rfl, ⟨_, rfl, rfl⟩,
   got_flags_exclusive sampleBase sampleState _ (fun _ => rfl)⟩

/-- C2. Starting from the empty state, after any sequence of `scanRelocation`
calls the reserved PLT1 entries are as many as the reserved `.rel.plt`
entries, and both are as many as the symbols whose mask has `ReservePLT`;
and the sequence runs to its end whenever `m_pGOTSymbol` is set. -/
theorem plt_triple_coupling (base : GNULDBackend) (st : LinkState)
    (calls : List (Relocation × LDSection)) (h0 : st.isEmpty) :
    (st.m_pGOTSymbol ≠ none → ∃ st1, scanAll base st calls = some st1) ∧
    ∀ st1, scanAll base st calls = some st1 →
      st1.m_pPLT.plt1 = st1.m_pRelPLT.numOfRelocs ∧
      (pltSymbols st1).Finite ∧ (pltSymbols st1).ncard = st1.m_pPLT.plt1 := by
  refine ⟨scanAll_isSome base calls st, fun st1 hs => ?_⟩
  have h := (CountInv.of_empty h0.1 h0.2.2.2.1 h0.2.2.2.2.2 h0.2.1 h0.2.2.1).count_steps
    (Steps.of_scanAll base calls hs)
  exact ⟨h.relPLT.symm, h.pltFinite, h.pltCard⟩

/-- Instance of C2: two calls and one absolute reference to `foo` in the
sample link reserve one PLT1 entry and one `.rel.plt` entry. -/
theorem plt_triple_coupling_witness :
    sampleState.isEmpty ∧
    (∃ st1, scanAll sampleBase sampleState
        [({ type := RelocType.R_ARM_CALL, symInfo := 1, addend := 0 }, sampleRelText),
         ({ type := RelocType.R_ARM_ABS32, symInfo := 1, addend := 0 }, sampleRelText),
         ({ type := RelocType.R_ARM_THM_CALL, symInfo := 1, addend := 0 }, sampleRelText)]
        = some st1 ∧ st1.m_pPLT.plt1 = 1 ∧ st1.m_pRelPLT.numOfRelocs = 1) ∧
    ((sampleState.m_pGOTSymbol ≠ none → ∃ st1, scanAll sampleBase sampleState
        [({ type := RelocType.R_ARM_CALL, symInfo := 1, addend := 0 }, sampleRelText),
         ({ type := RelocType.R_ARM_ABS32, symInfo := 1, addend := 0 }, sampleRelText),
         ({ type := RelocType.R_ARM_THM_CALL, symInfo := 1, addend := 0 }, sampleRelText)]
        = some st1) ∧
     ∀ st1, scanAll sampleBase sampleState
        [({ type := RelocType.R_ARM_CALL, symInfo := 1, addend := 0 }, sampleRelText),
         ({ type := RelocType.R_ARM_ABS32, symInfo := 1, addend := 0 }, sampleRelText),
         ({ type := RelocType.R_ARM_THM_CALL, symInfo := 1, addend := 0 }, sampleRelText)]
        = some st1 →
      st1.m_pPLT.plt1 = st1.m_pRelPLT.numOfRelocs ∧
      (pltSymbols st1).Finite ∧ (pltSymbols st1).ncard = st1.m_pPLT.plt1) :=
  ⟨LinkState.initial_isEmpty _ _, ⟨_, rfl, rfl, rfl⟩,
   plt_triple_coupling sampleBase sampleState _ (LinkState.initial_isEmpty _ _)⟩

/-- C3 as stated fails: one call to `foo` in the sample link reserves a PLT
entry and with it a GOT slot, so the GOT has one entry beyond its header
while no symbol has `ReserveGOT` or `GOTRel`. -/
theorem got_slot_count_counterexample :
    sampleState.isEmpty ∧
    ∃ st1, scanAll sampleBase sampleState
        [({ type := RelocType.R_ARM_CALL, symInfo := 1, addend := 0 }, sampleRelText)]
        = some st1 ∧
      st1.m_pGOT.entries - 3 = 1 ∧ (gotSymbols st1).ncard = 0 := by
  refine ⟨LinkState.initial_isEmpty _ _, _, rfl, rfl, ?_⟩
  have h0 := LinkState.initial_isEmpty sampleInfo (some { resolveInfo := 0 })
  have h := (CountInv.of_empty h0.1 h0.2.2.2.1 h0.2.2.2.2.2 h0.2.1 h0.2.2.1).count_steps
    (Steps.of_scanAll sampleBase
      [({ type := RelocType.R_ARM_CALL, symInfo := 1, addend := 0 }, sampleRelText)]
      (show scanAll sampleBase sampleState
        [({ type := RelocType.R_ARM_CALL, symInfo := 1, addend := 0 }, sampleRelText)]
        = some _ from rfl))
  exact h.gotCard

/-- C3, amended. Starting from the empty state, after any sequence of
`scanRelocation` calls the GOT entries beyond the three header slots are as
many as the symbols with `ReserveGOT` or `GOTRel` plus the symbols with
`ReservePLT` (a PLT entry reserves its paired GOT slot); the slots reserved
by `reserveGOT` alone are as many as the symbols with `ReserveGOT` or
`GOTRel`. -/
theorem got_slot_count_with_plt (base : GNULDBackend) (st : LinkState)
    (calls : List (Relocation × LDSection)) (h0 : st.isEmpty) :
    (st.m_pGOTSymbol ≠ none → ∃ st1, scanAll base st calls = some st1) ∧
    ∀ st1, scanAll base st calls = some st1 →
      (gotSymbols st1).Finite ∧ (pltSymbols st1).Finite ∧
      st1.m_pGOT.entries - 3 = (gotSymbols st1).ncard + (pltSymbols st1).ncard ∧
      st1.m_pGOT.got = (gotSymbols st1).ncard := by
  refine ⟨scanAll_isSome base calls st, fun st1 hs => ?_⟩
  have h := (CountInv.of_empty h0.1 h0.2.2.2.1 h0.2.2.2.2.2 h0.2.1 h0.2.2.1).count_steps
    (Steps.of_scanAll base calls hs)
  refine ⟨h.gotFinite, h.pltFinite, ?_, h.gotCard.symm⟩
  rw [h.gotCard, h.pltCard, ← h.gotPLT]
  unfold ARMGOT.entries
  omega

/-- Instance of the amended C3: a GOT reference to `loc` and a call to `foo`
give two GOT entries beyond the header. -/
theorem got_slot_count_with_plt_witness :
    sampleState.isEmpty ∧
    (∃ st1, scanAll sampleBase sampleState
        [({ type := RelocType.R_ARM_GOT_BREL, symInfo := 2, addend := 0 }, sampleRelText),
         ({ type := RelocType.R_ARM_CALL, symInfo := 1, addend := 0 }, sampleRelText)]
        = some st1 ∧ st1.m_pGOT.entries - 3 = 2) ∧
    ((sampleState.m_pGOTSymbol ≠ none → ∃ st1, scanAll sampleBase sampleState
        [({ type := RelocType.R_ARM_GOT_BREL, symInfo := 2, addend := 0 }, sampleRelText),
         ({ type := RelocType.R_ARM_CALL, symInfo := 1, addend := 0 }, sampleRelText)]
        = some st1) ∧
     ∀ st1, scanAll sampleBase sampleState
        [({ type := RelocType.R_ARM_GOT_BREL, symInfo := 2, addend := 0 }, sampleRelText),
         ({ type := RelocType.R_ARM_CALL, symInfo := 1, addend := 0 }, sampleRelText)]
        = some st1 →
      (gotSymbols st1).Finite ∧ (pltSymbols st1).Finite ∧
      st1.m_pGOT.entries - 3 = (gotSymbols st1).ncard + (pltSymbols st1).ncard ∧
      st1.m_pGOT.got = (gotSymbols st1).ncard) :=
  ⟨LinkState.initial_isEmpty _ _, ⟨_, rfl, rfl⟩,
   got_slot_count_with_plt sampleBase sampleState _ (LinkState.initial_isEmpty _ _)⟩

/-! ## Claims about one call -/

/-- The relocation returned by `scanLocalReloc` is the given one with its
type normalised. -/
theorem scanLocalReloc_type {base : GNULDBackend} {st st1 : LinkState}
    {pReloc r1 : Relocation} {pSection : LDSection}
    (hs : scanLocalReloc base st pReloc pSection = some (r1, st1)) :
    r1 = pReloc.setType (normalizedType pReloc.type) := by
  obtain ⟨t, s, a⟩ := pReloc
  cases t <;> simp only [scanLocalReloc, Relocation.setType] at hs
  all_goals try split at hs
  all_goals try split at hs
  all_goals first
    | (cases hs; done)
    | (simp only [Option.some.injEq, Prod.mk.injEq] at hs
       obtain ⟨rfl, -⟩ := hs
       rfl)

/-- The relocation returned by `scanGlobalReloc` is the given one with its
type normalised. -/
theorem scanGlobalReloc_type {base : GNULDBackend} {st st1 : LinkState}
    {pReloc r1 : Relocation} {pSection : LDSection}
    (hs : scanGlobalReloc base st pReloc pSection = some (r1, st1)) :
    r1 = pReloc.setType (normalizedType pReloc.type) := by
  obtain ⟨t, s, a⟩ := pReloc
  cases t <;> simp only [scanGlobalReloc, Relocation.setType] at hs
  all_goals try split at hs
  all_goals first
    | (cases hs; done)
    | (simp only [Option.some.injEq, Prod.mk.injEq] at hs
       obtain ⟨rfl, -⟩ := hs
       rfl)

theorem normalizedType_ne_target (t : RelocType) :
    normalizedType t ≠ RelocType.R_ARM_TARGET1 ∧ normalizedType t ≠ RelocType.R_ARM_TARGET2 := by
  cases t <;> exact ⟨by decide, by decide⟩

/-- C4 as stated fails: an `R_ARM_TARGET1` relocation of `.rel.debug_info`,
whose linked section is not allocated, is still `R_ARM_TARGET1` after
`scanRelocation` has returned. -/
theorem target1_kept_in_non_alloc_section :
    sampleRelDebug.getLink.flag &&& SHF_ALLOC = 0 ∧
    ∃ r st1, scanRelocation sampleBase sampleState
        { type := RelocType.R_ARM_TARGET1, symInfo := 2, addend := 0 } sampleRelDebug
        = some (r, st1) ∧ r.type = RelocType.R_ARM_TARGET1 :=
  ⟨rfl, _, _, rfl, rfl⟩

/-- C4, amended. For every relocation of a section whose linked section has
`SHF_ALLOC`, whatever the binding of its symbol: after `scanRelocation` has
returned, its type is neither `R_ARM_TARGET1` nor `R_ARM_TARGET2`; a
`R_ARM_TARGET1` has become `R_ARM_ABS32`, a `R_ARM_TARGET2` has become
`R_ARM_GOT_PREL`, and every other type is kept. -/
theorem target_types_normalized (base : GNULDBackend) (st st2 : LinkState)
    (pReloc r2 : Relocation) (pSection : LDSection)
    (ha : pSection.getLink.flag &&& SHF_ALLOC ≠ 0)
    (hs : scanRelocation base st pReloc pSection = some (r2, st2)) :
    r2.type ≠ RelocType.R_ARM_TARGET1 ∧ r2.type ≠ RelocType.R_ARM_TARGET2 ∧
    (pReloc.type = RelocType.R_ARM_TARGET1 → r2.type = RelocType.R_ARM_ABS32) ∧
    (pReloc.type = RelocType.R_ARM_TARGET2 → r2.type = RelocType.R_ARM_GOT_PREL) ∧
    (pReloc.type ≠ RelocType.R_ARM_TARGET1 → pReloc.type ≠ RelocType.R_ARM_TARGET2 →
      r2.type = pReloc.type) := by
  have key : r2.type = normalizedType pReloc.type := by
    rcases scanRelocation_cases hs with ⟨h0, -, -⟩ | ⟨-, st1, hd, -⟩
    · exact absurd h0 ha
    · rcases hd with ⟨-, hd⟩ | ⟨-, hd⟩
      · rw [scanLocalReloc_type hd]; rfl
      · rw [scanGlobalReloc_type hd]; rfl
  rw [key]
  refine ⟨(normalizedType_ne_target _).1, (normalizedType_ne_target _).2, ?_, ?_, ?_⟩
  · intro h; rw [h]; rfl
  · intro h; rw [h]; rfl
  · intro h1 h2
    cases hT : pReloc.type <;> first | rfl | exact absurd hT h1 | exact absurd hT h2

/-- Instance of the amended C4: `R_ARM_TARGET2` against the local `loc` in
`.rel.text` comes back as `R_ARM_GOT_PREL`. -/
theorem target_types_normalized_witness :
    sampleRelText.getLink.flag &&& SHF_ALLOC ≠ 0 ∧
    ∃ r2 st2, scanRelocation sampleBase sampleState
        { type := RelocType.R_ARM_TARGET2, symInfo := 2, addend := 0 } sampleRelText
        = some (r2, st2) ∧ r2.type = RelocType.R_ARM_GOT_PREL :=
  ⟨by decide, _, _, rfl,
   (target_types_normalized sampleBase sampleState _
      { type := RelocType.R_ARM_TARGET2, symInfo := 2, addend := 0 } _ sampleRelText
      (by decide) rfl).2.2.2.1 rfl⟩

/-- C5. For a relocation whose section's linked section does not have
`SHF_ALLOC`, `scanRelocation` returns, with the state as it was (every
counter, every mask, `.bss`, the diagnostics) and the relocation's type as
it was; only the addend has been refreshed. -/
theorem non_alloc_skipped (base : GNULDBackend) (st : LinkState) (pReloc : Relocation)
    (pSection : LDSection) (ha : pSection.getLink.flag &&& SHF_ALLOC = 0) :
    scanRelocation base st pReloc pSection
      = some ({ pReloc with addend := base.refreshedAddend pReloc }, st) := by
  unfold scanRelocation
  dsimp only
  rw [if_pos ha]
  rfl

/-- Instance of C5: an undefined, non-weak symbol referred to from
`.rel.debug_info` raises nothing. -/
theorem non_alloc_skipped_witness :
    sampleRelDebug.getLink.flag &&& SHF_ALLOC = 0 ∧
    scanRelocation sampleBase sampleState
        { type := RelocType.R_ARM_ABS32, symInfo := 3, addend := 0 } sampleRelDebug
      = some ({ ({ type := RelocType.R_ARM_ABS32, symInfo := 3, addend := 0 } : Relocation) with
                addend := sampleBase.refreshedAddend
                  { type := RelocType.R_ARM_ABS32, symInfo := 3, addend := 0 } },
              sampleState) :=
  ⟨rfl, non_alloc_skipped sampleBase sampleState _ sampleRelDebug rfl⟩

/-- C6. For a relocation of a section whose linked section has `SHF_ALLOC`,
when the dispatch to `scanLocalReloc` / `scanGlobalReloc` returns and has
raised no fatal diagnostic: `scanRelocation` returns, and it raises the fatal
`undefined_reference` exactly when the symbol, read after the dispatch, is
undefined, not dynamic, not weak and not the null symbol. -/
theorem undefined_reference_iff (base : GNULDBackend) (st st1 : LinkState)
    (pReloc r1 : Relocation) (pSection : LDSection)
    (ha : pSection.getLink.flag &&& SHF_ALLOC ≠ 0)
    (hd : (if (st.resolveInfo pReloc.symInfo).isLocal
            then scanLocalReloc base st (updateAddend base pReloc) pSection
            else scanGlobalReloc base st (updateAddend base pReloc) pSection)
          = some (r1, st1))
    (hnf : ∀ d ∈ raisedBetween st st1, d.severity ≠ Severity.Fatal) :
    ∃ st2, scanRelocation base st pReloc pSection = some (r1, st2) ∧
      ((∃ d ∈ raisedBetween st st2,
          d.severity = Severity.Fatal ∧ d.id = DiagID.undefined_reference) ↔
        ((st1.resolveInfo pReloc.symInfo).isUndef = true ∧
         (st1.resolveInfo pReloc.symInfo).isDyn = false ∧
         (st1.resolveInfo pReloc.symInfo).isWeak = false ∧
         (st1.resolveInfo pReloc.symInfo).isNull = false)) := by
  have hsteps : Steps st st1 := by
    by_cases hl : (st.resolveInfo pReloc.symInfo).isLocal = true
    · rw [if_pos hl] at hd; exact Steps.of_scanLocalReloc hd
    · rw [if_neg hl] at hd; exact Steps.of_scanGlobalReloc hd
  obtain ⟨ds, hds⟩ := hsteps.append_diagnostics
  have hr1 : raisedBetween st st1 = ds := by
    unfold raisedBetween; rw [hds]; simp
  have hcond : isUndefinedReference (st1.resolveInfo pReloc.symInfo) = true ↔
      ((st1.resolveInfo pReloc.symInfo).isUndef = true ∧
       (st1.resolveInfo pReloc.symInfo).isDyn = false ∧
       (st1.resolveInfo pReloc.symInfo).isWeak = false ∧
       (st1.resolveInfo pReloc.symInfo).isNull = false) := by
    simp [isUndefinedReference, and_assoc]
  by_cases hu : isUndefinedReference (st1.resolveInfo pReloc.symInfo) = true
  · refine ⟨st1.report { severity := Severity.Fatal, id := DiagID.undefined_reference,
                         type := none,
                         args := [(st1.resolveInfo pReloc.symInfo).name] }, ?_, ?_⟩
    · unfold scanRelocation
      dsimp only
      rw [if_neg ha, hd]
      dsimp only
      rw [if_pos hu]
    · rw [← hcond]
      refine ⟨fun _ => hu, fun _ =>
        ⟨{ severity := Severity.Fatal, id := DiagID.undefined_reference, type := none,
           args := [(st1.resolveInfo pReloc.symInfo).name] }, ?_, rfl, rfl⟩⟩
      unfold raisedBetween LinkState.report
      dsimp only
      rw [hds]
      simp
  · refine ⟨st1, ?_, ?_⟩
    · unfold scanRelocation
      dsimp only
      rw [if_neg ha, hd]
      dsimp only
      rw [if_neg hu]
    · rw [← hcond]
      refine ⟨fun ⟨d, hmem, hsev, _⟩ => absurd hsev (hnf d hmem), fun h => absurd h hu⟩

/-- Instance of C6: an `R_ARM_REL32` relocation of `.rel.text` against the
undefined global `missing`. -/
theorem undefined_reference_iff_witness :
    sampleRelText.getLink.flag &&& SHF_ALLOC ≠ 0 ∧
    (∃ st2, scanRelocation sampleBase sampleState
        { type := RelocType.R_ARM_REL32, symInfo := 3, addend := 0 } sampleRelText
        = some ({ type := RelocType.R_ARM_REL32, symInfo := 3, addend := 0 }, st2) ∧
      ((∃ d ∈ raisedBetween sampleState st2,
          d.severity = Severity.Fatal ∧ d.id = DiagID.undefined_reference) ↔
        ((sampleState.resolveInfo 3).isUndef = true ∧
         (sampleState.resolveInfo 3).isDyn = false ∧
         (sampleState.resolveInfo 3).isWeak = false ∧
         (sampleState.resolveInfo 3).isNull = false))) ∧
    ((sampleState.resolveInfo 3).isUndef = true ∧
     (sampleState.resolveInfo 3).isDyn = false ∧
     (sampleState.resolveInfo 3).isWeak = false ∧
     (sampleState.resolveInfo 3).isNull = false) :=
  ⟨by decide,
   undefined_reference_iff sampleBase sampleState sampleState
     { type := RelocType.R_ARM_REL32, symInfo := 3, addend := 0 }
     { type := RelocType.R_ARM_REL32, symInfo := 3, addend := 0 } sampleRelText
     (by decide) rfl (by intro d hd; exact absurd hd (by simp [raisedBetween])),
   by decide⟩

/-- C7. For a relocation of type `R_ARM_COPY`, `R_ARM_GLOB_DAT`,
`R_ARM_JUMP_SLOT` or `R_ARM_RELATIVE`, `scanLocalReloc` and `scanGlobalReloc`
both return the state with the fatal `dynamic_relocation` diagnostic added
and nothing else changed: no counter of the GOT, the PLT, `.rel.dyn` or
`.rel.plt`, and no `reserved` mask. -/
theorem dynamic_only_types_rejected (base : GNULDBackend) (st : LinkState)
    (pReloc : Relocation) (pSection : LDSection)
    (ht : pReloc.type = RelocType.R_ARM_COPY ∨ pReloc.type = RelocType.R_ARM_GLOB_DAT ∨
          pReloc.type = RelocType.R_ARM_JUMP_SLOT ∨ pReloc.type = RelocType.R_ARM_RELATIVE) :
    scanLocalReloc base st pReloc pSection
      = some (pReloc, st.report { severity := Severity.Fatal, id := DiagID.dynamic_relocation,
                                  type := some pReloc.type, args := [] }) ∧
    scanGlobalReloc base st pReloc pSection
      = some (pReloc, st.report { severity := Severity.Fatal, id := DiagID.dynamic_relocation,
                                  type := some pReloc.type, args := [] }) ∧
    raisedBetween st (st.report { severity := Severity.Fatal, id := DiagID.dynamic_relocation,
                                  type := some pReloc.type, args := [] })
      = [{ severity := Severity.Fatal, id := DiagID.dynamic_relocation,
           type := some pReloc.type, args := [] }] ∧
    (st.report { severity := Severity.Fatal, id := DiagID.dynamic_relocation,
                 type := some pReloc.type, args := [] }).m_pGOT = st.m_pGOT ∧
    (st.report { severity := Severity.Fatal, id := DiagID.dynamic_relocation,
                 type := some pReloc.type, args := [] }).m_pPLT = st.m_pPLT ∧
    (st.report { severity := Severity.Fatal, id := DiagID.dynamic_relocation,
                 type := some pReloc.type, args := [] }).m_pRelDyn = st.m_pRelDyn ∧
    (st.report { severity := Severity.Fatal, id := DiagID.dynamic_relocation,
                 type := some pReloc.type, args := [] }).m_pRelPLT = st.m_pRelPLT ∧
    (st.report { severity := Severity.Fatal, id := DiagID.dynamic_relocation,
                 type := some pReloc.type, args := [] }).resolveInfo = st.resolveInfo := by
  obtain ⟨t, s, a⟩ := pReloc
  have hr : ∀ d : Diagnostic, raisedBetween st (st.report d) = [d] := by
    intro d; simp [raisedBetween, LinkState.report]
  refine ⟨?_, ?_, hr _, rfl, rfl, rfl, rfl, rfl⟩
  · rcases ht with h | h | h | h <;> (simp only at h; subst h; rfl)
  · rcases ht with h | h | h | h <;> (simp only at h; subst h; rfl)

/-- Instance of C7: `R_ARM_JUMP_SLOT` against `foo` in the sample link. -/
theorem dynamic_only_types_rejected_witness :
    scanLocalReloc sampleBase sampleState
        { type := RelocType.R_ARM_JUMP_SLOT, symInfo := 1, addend := 0 } sampleRelText
      = some ({ type := RelocType.R_ARM_JUMP_SLOT, symInfo := 1, addend := 0 },
              sampleState.report { severity := Severity.Fatal,
                                   id := DiagID.dynamic_relocation,
                                   type := some RelocType.R_ARM_JUMP_SLOT, args := [] }) ∧
    scanGlobalReloc sampleBase sampleState
        { type := RelocType.R_ARM_JUMP_SLOT, symInfo := 1, addend := 0 } sampleRelText
      = some ({ type := RelocType.R_ARM_JUMP_SLOT, symInfo := 1, addend := 0 },
              sampleState.report { severity := Severity.Fatal,
                                   id := DiagID.dynamic_relocation,
                                   type := some RelocType.R_ARM_JUMP_SLOT, args := [] }) :=
  have h := dynamic_only_types_rejected sampleBase sampleState
    { type := RelocType.R_ARM_JUMP_SLOT, symInfo := 1, addend := 0 } sampleRelText
    (Or.inr (Or.inr (Or.inl rfl)))
  ⟨h.1, h.2.1⟩

/-- With `m_pGOTSymbol` set, the `R_ARM_BASE_PREL` case of `scanLocalReloc`
reports the fatal `base_relocation` exactly for a symbol other than
`_GLOBAL_OFFSET_TABLE_`, and changes nothing else. -/
theorem base_prel_local_with_got_symbol (base : GNULDBackend) (st : LinkState)
    (pReloc : Relocation) (pSection : LDSection) (gotSymbol : LDSymbol)
    (hg : st.m_pGOTSymbol = some gotSymbol)
    (ht : pReloc.type = RelocType.R_ARM_BASE_PREL) :
    scanLocalReloc base st pReloc pSection
      = some (pReloc,
          if pReloc.symInfo ≠ gotSymbol.resolveInfo then
            st.report { severity := Severity.Fatal, id := DiagID.base_relocation,
                        type := some pReloc.type,
                        args := [(st.resolveInfo pReloc.symInfo).name,
                                 "mclinker@googlegroups.com"] }
          else st) := by
  obtain ⟨t, s, a⟩ := pReloc
  simp only at ht
  subst ht
  simp only [scanLocalReloc, hg]
  split <;> rfl

/-- C8 at the failing input: in a link whose input does not name
`_GLOBAL_OFFSET_TABLE_` (`m_pGOTSymbol` is null), an `R_ARM_BASE_PREL`
relocation against the local `loc` or the global `missing` makes the scanner
read through the null pointer; no `base_relocation` diagnostic is raised and
the scan does not return. -/
theorem base_prel_null_got_symbol :
    sampleStateNoGOTSymbol.m_pGOTSymbol = none ∧
    scanLocalReloc sampleBase sampleStateNoGOTSymbol
        { type := RelocType.R_ARM_BASE_PREL, symInfo := 2, addend := 0 } sampleRelText = none ∧
    scanGlobalReloc sampleBase sampleStateNoGOTSymbol
        { type := RelocType.R_ARM_BASE_PREL, symInfo := 3, addend := 0 } sampleRelText = none ∧
    scanRelocation sampleBase sampleStateNoGOTSymbol
        { type := RelocType.R_ARM_BASE_PREL, symInfo := 2, addend := 0 } sampleRelText = none ∧
    scanRelocation sampleBase sampleStateNoGOTSymbol
        { type := RelocType.R_ARM_BASE_PREL, symInfo := 3, addend := 0 } sampleRelText = none :=
  ⟨rfl, rfl, rfl, rfl, rfl⟩

theorem checkValidReloc_eq (base : GNULDBackend) (st : LinkState) (pReloc : Relocation) :
    checkValidReloc base st pReloc =
      if base.config.isCodeIndep = true ∧ pReloc.type ∉ picAllowedTypes then
        st.report { severity := Severity.Error, id := DiagID.non_pic_relocation,
                    type := some pReloc.type,
                    args := [(st.resolveInfo pReloc.symInfo).name] }
      else st := by
  obtain ⟨t, s, a⟩ := pReloc
  unfold checkValidReloc
  by_cases hp : base.config.isCodeIndep = true
  · cases t <;> simp [hp, picAllowedTypes]
  · simp [hp]

/-- The diagnostics `scanGlobalReloc.dynRel` adds are `non_pic_relocation`
errors. -/
theorem dynRel_diagnostics (base : GNULDBackend) (st : LinkState) (pReloc : Relocation)
    (pSection : LDSection) (isAbsReloc : Bool) :
    ∃ ds, (scanGlobalReloc.dynRel base st pReloc pSection isAbsReloc).diagnostics
        = st.diagnostics ++ ds ∧
      ∀ d ∈ ds, d.severity = Severity.Error ∧ d.id = DiagID.non_pic_relocation := by
  unfold scanGlobalReloc.dynRel
  dsimp only
  split
  · split
    · have hf := defineSymbolforCopyReloc_frame base st.reserveRelDyn
        (st.reserveRelDyn.resolveInfo pReloc.symInfo)
      exact ⟨[], by rw [addCopyReloc, hf.2.2.2.2.2.2]; exact (List.append_nil _).symm,
        by simp⟩
    · rw [checkValidReloc_eq]
      split
      · exact ⟨[_], rfl, by simp⟩
      · exact ⟨[], (List.append_nil _).symm, by simp⟩
  · exact ⟨[], (List.append_nil _).symm, by simp⟩

/-- C9 as stated fails: `R_ARM_MOVW_BREL_NC` belongs to the base/BREL family
and `foo` is not `_GLOBAL_OFFSET_TABLE_`, yet `scanGlobalReloc` raises no
`base_relocation` diagnostic (it reports only that the type is not allowed
under PIC). -/
theorem movw_brel_foreign_symbol_not_fatal :
    RelocType.R_ARM_MOVW_BREL_NC ∈ baseBrelFamily ∧
    (sampleState.resolveInfo 1).isLocal = false ∧
    sampleState.m_pGOTSymbol = some { resolveInfo := 0 } ∧
    ∃ st1, scanGlobalReloc sampleBase sampleState
        { type := RelocType.R_ARM_MOVW_BREL_NC, symInfo := 1, addend := 0 } sampleRelText
        = some ({ type := RelocType.R_ARM_MOVW_BREL_NC, symInfo := 1, addend := 0 }, st1) ∧
      raisedBetween sampleState st1
        = [{ severity := Severity.Error, id := DiagID.non_pic_relocation,
             type := some RelocType.R_ARM_MOVW_BREL_NC, args := ["foo"] }] ∧
      ∀ d ∈ raisedBetween sampleState st1, d.id ≠ DiagID.base_relocation := by
  refine ⟨by decide, rfl, rfl, _, rfl, rfl, ?_⟩
  intro d hd
  have h : d = { severity := Severity.Error, id := DiagID.non_pic_relocation,
                 type := some RelocType.R_ARM_MOVW_BREL_NC, args := ["foo"] } :=
    List.mem_singleton.1 hd
  rw [h]
  decide

/-- C9, amended. With `m_pGOTSymbol` set, for a global-symbol relocation of
type `R_ARM_BASE_PREL`, `R_ARM_THM_MOVW_BREL_NC`, `R_ARM_THM_MOVW_BREL` or
`R_ARM_THM_MOVT_BREL`, `scanGlobalReloc` returns and raises the fatal
`base_relocation` exactly when the symbol is not `_GLOBAL_OFFSET_TABLE_`;
for `R_ARM_MOVW_BREL_NC`, `R_ARM_MOVW_BREL` and `R_ARM_MOVT_BREL` it returns
and raises no `base_relocation`, whatever the symbol. -/
theorem got_checked_types_base_relocation (base : GNULDBackend) (st : LinkState)
    (pReloc : Relocation) (pSection : LDSection) (gotSymbol : LDSymbol)
    (hg : st.m_pGOTSymbol = some gotSymbol) :
    (pReloc.type ∈ gotCheckedTypes →
      ∃ st1, scanGlobalReloc base st pReloc pSection = some (pReloc, st1) ∧
        ((∃ d ∈ raisedBetween st st1,
            d.severity = Severity.Fatal ∧ d.id = DiagID.base_relocation) ↔
          pReloc.symInfo ≠ gotSymbol.resolveInfo) ∧
        ((∃ d ∈ raisedBetween st st1, d.id = DiagID.base_relocation) ↔
          pReloc.symInfo ≠ gotSymbol.resolveInfo)) ∧
    (pReloc.type = RelocType.R_ARM_MOVW_BREL_NC ∨ pReloc.type = RelocType.R_ARM_MOVW_BREL ∨
     pReloc.type = RelocType.R_ARM_MOVT_BREL →
      ∃ st1, scanGlobalReloc base st pReloc pSection = some (pReloc, st1) ∧
        ∀ d ∈ raisedBetween st st1, d.id ≠ DiagID.base_relocation) := by
  obtain ⟨t, s, a⟩ := pReloc
  constructor
  · intro ht
    have hres : scanGlobalReloc base st { type := t, symInfo := s, addend := a } pSection
        = some ({ type := t, symInfo := s, addend := a },
            scanGlobalReloc.dynRel base
              (if s ≠ gotSymbol.resolveInfo then
                st.report { severity := Severity.Fatal, id := DiagID.base_relocation,
                            type := some t,
                            args := [(st.resolveInfo s).name, "mclinker@googlegroups.com"] }
               else st)
              { type := t, symInfo := s, addend := a } pSection false) := by
      simp only [gotCheckedTypes, List.mem_cons, List.mem_singleton, List.not_mem_nil,
        or_false] at ht
      rcases ht with h | h | h | h <;> (subst h; simp only [scanGlobalReloc, hg])
    refine ⟨_, hres, ?_⟩
    obtain ⟨ds, hds, hall⟩ := dynRel_diagnostics base
      (if s ≠ gotSymbol.resolveInfo then
        st.report { severity := Severity.Fatal, id := DiagID.base_relocation,
                    type := some t,
                    args := [(st.resolveInfo s).name, "mclinker@googlegroups.com"] }
       else st)
      { type := t, symInfo := s, addend := a } pSection false
    by_cases hne : s ≠ gotSymbol.resolveInfo
    · rw [if_pos hne] at hds
      have hr : raisedBetween st (scanGlobalReloc.dynRel base
          (if s ≠ gotSymbol.resolveInfo then
            st.report { severity := Severity.Fatal, id := DiagID.base_relocation,
                        type := some t,
                        args := [(st.resolveInfo s).name, "mclinker@googlegroups.com"] }
           else st)
          { type := t, symInfo := s, addend := a } pSection false)
          = { severity := Severity.Fatal, id := DiagID.base_relocation, type := some t,
              args := [(st.resolveInfo s).name, "mclinker@googlegroups.com"] } :: ds := by
        unfold raisedBetween
        rw [if_pos hne, hds]
        simp [LinkState.report]
      rw [hr]
      exact ⟨⟨fun _ => hne, fun _ => ⟨_, List.mem_cons_self _ _, rfl, rfl⟩⟩,
             ⟨fun _ => hne, fun _ => ⟨_, List.mem_cons_self _ _, rfl⟩⟩⟩
    · rw [if_neg hne] at hds
      have hr : raisedBetween st (scanGlobalReloc.dynRel base
          (if s ≠ gotSymbol.resolveInfo then
            st.report { severity := Severity.Fatal, id := DiagID.base_relocation,
                        type := some t,
                        args := [(st.resolveInfo s).name, "mclinker@googlegroups.com"] }
           else st)
          { type := t, symInfo := s, addend := a } pSection false) = ds := by
        unfold raisedBetween
        rw [if_neg hne, hds]
        simp
      rw [hr]
      refine ⟨⟨fun ⟨d, hd, _, hid⟩ => ?_, fun h => absurd h hne⟩,
              ⟨fun ⟨d, hd, hid⟩ => ?_, fun h => absurd h hne⟩⟩
      · have := (hall d hd).2; rw [hid] at this; exact absurd this (by decide)
      · have := (hall d hd).2; rw [hid] at this; exact absurd this (by decide)
  · intro ht
    have hres : scanGlobalReloc base st { type := t, symInfo := s, addend := a } pSection
        = some ({ type := t, symInfo := s, addend := a },
            scanGlobalReloc.dynRel base st { type := t, symInfo := s, addend := a }
              pSection false) := by
      rcases ht with h | h | h <;> (simp only at h; subst h; rfl)
    refine ⟨_, hres, ?_⟩
    obtain ⟨ds, hds, hall⟩ := dynRel_diagnostics base st
      { type := t, symInfo := s, addend := a } pSection false
    have hr : raisedBetween st (scanGlobalReloc.dynRel base st
        { type := t, symInfo := s, addend := a } pSection false) = ds := by
      unfold raisedBetween
      rw [hds]
      simp
    rw [hr]
    intro d hd hid
    have := (hall d hd).2
    rw [hid] at this
    exact absurd this (by decide)

/-- Instance of the amended C9: `R_ARM_BASE_PREL` against the global `foo`,
which is not `_GLOBAL_OFFSET_TABLE_`, in the sample link. -/
theorem got_checked_types_base_relocation_witness :
    sampleState.m_pGOTSymbol = some { resolveInfo := 0 } ∧
    RelocType.R_ARM_BASE_PREL ∈ gotCheckedTypes ∧
    (1 : Nat) ≠ ({ resolveInfo := 0 } : LDSymbol).resolveInfo ∧
    ∃ st1, scanGlobalReloc sampleBase sampleState
        { type := RelocType.R_ARM_BASE_PREL, symInfo := 1, addend := 0 } sampleRelText
        = some ({ type := RelocType.R_ARM_BASE_PREL, symInfo := 1, addend := 0 }, st1) ∧
      ∃ d ∈ raisedBetween sampleState st1,
        d.severity = Severity.Fatal ∧ d.id = DiagID.base_relocation := by
  have h := (got_checked_types_base_relocation sampleBase sampleState
    { type := RelocType.R_ARM_BASE_PREL, symInfo := 1, addend := 0 } sampleRelText
    { resolveInfo := 0 } rfl).1 (by decide)
  obtain ⟨st1, h1, h2, -⟩ := h
  exact ⟨rfl, by decide, by decide, st1, h1, h2.2 (by decide)⟩

/-- C10. `checkValidReloc` reports the `non_pic_relocation` error exactly
when the configuration is position independent and the type is not one of
the ten types allowed under PIC; otherwise, so for every type when the
configuration is not PIC, it returns the state as it was. It changes no
counter and no mask, and the relocation is only read. -/
theorem checkValidReloc_non_pic_iff (base : GNULDBackend) (st : LinkState)
    (pReloc : Relocation) :
    ((∃ d ∈ raisedBetween st (checkValidReloc base st pReloc),
        d.id = DiagID.non_pic_relocation) ↔
      (base.config.isCodeIndep = true ∧ pReloc.type ∉ picAllowedTypes)) ∧
    (base.config.isCodeIndep = true ∧ pReloc.type ∉ picAllowedTypes →
      checkValidReloc base st pReloc
        = st.report { severity := Severity.Error, id := DiagID.non_pic_relocation,
                      type := some pReloc.type,
                      args := [(st.resolveInfo pReloc.symInfo).name] }) ∧
    (¬ (base.config.isCodeIndep = true ∧ pReloc.type ∉ picAllowedTypes) →
      checkValidReloc base st pReloc = st) ∧
    (base.config.isCodeIndep = false → checkValidReloc base st pReloc = st) ∧
    (checkValidReloc base st pReloc).resolveInfo = st.resolveInfo ∧
    (checkValidReloc base st pReloc).m_pGOT = st.m_pGOT ∧
    (checkValidReloc base st pReloc).m_pPLT = st.m_pPLT ∧
    (checkValidReloc base st pReloc).m_pRelDyn = st.m_pRelDyn ∧
    (checkValidReloc base st pReloc).m_pRelPLT = st.m_pRelPLT := by
  have hf := checkValidReloc_frame base st pReloc
  refine ⟨?_, ?_, ?_, ?_, hf.1, hf.2.1, hf.2.2.1, hf.2.2.2.1, hf.2.2.2.2.1⟩
  · rw [checkValidReloc_eq]
    by_cases hc : base.config.isCodeIndep = true ∧ pReloc.type ∉ picAllowedTypes
    · rw [if_pos hc]
      refine ⟨fun _ => hc, fun _ =>
        ⟨{ severity := Severity.Error, id := DiagID.non_pic_relocation,
           type := some pReloc.type,
           args := [(st.resolveInfo pReloc.symInfo).name] }, ?_, rfl⟩⟩
      simp [raisedBetween, LinkState.report]
    · rw [if_neg hc]
      refine ⟨fun ⟨d, hd, _⟩ => ?_, fun h => absurd h hc⟩
      simp [raisedBetween] at hd
  · intro hc; rw [checkValidReloc_eq, if_pos hc]
  · intro hc; rw [checkValidReloc_eq, if_neg hc]
  · intro hc
    rw [checkValidReloc_eq, if_neg]
    rw [hc]; simp

/-! ## The policy of each group of relocation types -/

/-- One report adds exactly its record to the diagnostics. -/
theorem raisedBetween_report (st : LinkState) (d : Diagnostic) :
    raisedBetween st (st.report d) = [d] := by
  simp [raisedBetween, LinkState.report]

/-- Nothing is reported between a state and itself. -/
theorem raisedBetween_self (st : LinkState) : raisedBetween st st = [] := by
  simp [raisedBetween]


/-- C11. For a relocation of type `R_ARM_ABS32`, `R_ARM_ABS32_NOI` or
`R_ARM_TARGET1`, `scanLocalReloc` returns; under PIC it has reserved exactly
one `.rel.dyn` entry (whatever the mask was, so also with `ReserveRel`
already set), has set `ReserveRel` in the mask of the symbol and has changed
no other mask and no GOT, PLT or `.rel.plt` count; when the configuration is
not PIC the state is as it was. -/
theorem local_abs32_policy (base : GNULDBackend) (st : LinkState) (pReloc : Relocation)
    (pSection : LDSection)
    (ht : pReloc.type = RelocType.R_ARM_ABS32 ∨ pReloc.type = RelocType.R_ARM_ABS32_NOI ∨
          pReloc.type = RelocType.R_ARM_TARGET1) :
    ∃ st1, scanLocalReloc base st pReloc pSection
        = some (pReloc.setType (normalizedType pReloc.type), st1) ∧
      (base.config.isCodeIndep = true →
        st1.m_pRelDyn.numOfRelocs = st.m_pRelDyn.numOfRelocs + 1 ∧
        (st1.resolveInfo pReloc.symInfo).reserved
          = (st.resolveInfo pReloc.symInfo).reserved ||| ReserveRel ∧
        (st1.resolveInfo pReloc.symInfo).reserved &&& ReserveRel ≠ 0 ∧
        (∀ q, q ≠ pReloc.symInfo → st1.resolveInfo q = st.resolveInfo q) ∧
        st1.m_pGOT = st.m_pGOT ∧ st1.m_pPLT = st.m_pPLT ∧ st1.m_pRelPLT = st.m_pRelPLT) ∧
      (base.config.isCodeIndep = false → st1 = st) := by
  obtain ⟨t, s, a⟩ := pReloc
  have hbody : ∀ r : Relocation, r.symInfo = s →
      (base.config.isCodeIndep = true →
        (scanLocalReloc.abs32 base st r pSection).m_pRelDyn.numOfRelocs
          = st.m_pRelDyn.numOfRelocs + 1 ∧
        ((scanLocalReloc.abs32 base st r pSection).resolveInfo s).reserved
          = (st.resolveInfo s).reserved ||| ReserveRel ∧
        ((scanLocalReloc.abs32 base st r pSection).resolveInfo s).reserved &&& ReserveRel ≠ 0 ∧
        (∀ q, q ≠ s → (scanLocalReloc.abs32 base st r pSection).resolveInfo q
          = st.resolveInfo q) ∧
        (scanLocalReloc.abs32 base st r pSection).m_pGOT = st.m_pGOT ∧
        (scanLocalReloc.abs32 base st r pSection).m_pPLT = st.m_pPLT ∧
        (scanLocalReloc.abs32 base st r pSection).m_pRelPLT = st.m_pRelPLT) ∧
      (base.config.isCodeIndep = false → scanLocalReloc.abs32 base st r pSection = st) := by
    intro r hr
    unfold scanLocalReloc.abs32
    dsimp only
    constructor
    · intro hp
      rw [if_pos hp, hr]
      refine ⟨rfl, ?_, ?_, ?_, rfl, rfl, rfl⟩
      · simp [LinkState.checkAndSetHasTextRel, LinkState.setReserved, LinkState.reserveRelDyn]
      · simp only [LinkState.checkAndSetHasTextRel, LinkState.setReserved,
          LinkState.reserveRelDyn, Function.update_same]
        exact lor_land_self_ne_zero _ (by decide)
      · intro q hq
        simp [LinkState.checkAndSetHasTextRel, LinkState.setReserved,
          LinkState.reserveRelDyn, Function.update_noteq hq]
    · intro hp
      rw [if_neg (by simp [hp])]
  rcases ht with h | h | h <;> simp only at h <;> subst h
  · exact ⟨_, rfl, hbody _ rfl⟩
  · exact ⟨_, rfl, hbody _ rfl⟩
  · exact ⟨_, rfl, hbody _ rfl⟩

/-- Instance of C11: two `R_ARM_ABS32` relocations against `loc` under PIC
reserve two `.rel.dyn` entries, the second with `ReserveRel` already set. -/
theorem local_abs32_policy_witness :
    sampleBase.config.isCodeIndep = true ∧
    (∃ st1, scanLocalReloc sampleBase sampleState
        { type := RelocType.R_ARM_ABS32, symInfo := 2, addend := 0 } sampleRelText
        = some ({ type := RelocType.R_ARM_ABS32, symInfo := 2, addend := 0 }, st1) ∧
      (st1.resolveInfo 2).reserved = ReserveRel ∧
      ∃ st2, scanLocalReloc sampleBase st1
          { type := RelocType.R_ARM_ABS32, symInfo := 2, addend := 0 } sampleRelText
          = some ({ type := RelocType.R_ARM_ABS32, symInfo := 2, addend := 0 }, st2) ∧
        st2.m_pRelDyn.numOfRelocs = sampleState.m_pRelDyn.numOfRelocs + 1 + 1) := by
  refine ⟨rfl, ?_⟩
  obtain ⟨st1, h1, hp1, -⟩ := local_abs32_policy sampleBase sampleState
    { type := RelocType.R_ARM_ABS32, symInfo := 2, addend := 0 } sampleRelText (Or.inl rfl)
  obtain ⟨st2, h2, hp2, -⟩ := local_abs32_policy sampleBase st1
    { type := RelocType.R_ARM_ABS32, symInfo := 2, addend := 0 } sampleRelText (Or.inl rfl)
  refine ⟨st1, h1, ?_, st2, h2, ?_⟩
  · rw [(hp1 rfl).2.1]; rfl
  · rw [(hp2 rfl).1, (hp1 rfl).1]

/-- C12. For a relocation of type `R_ARM_ABS16`, `R_ARM_ABS12`,
`R_ARM_THM_ABS5`, `R_ARM_ABS8`, `R_ARM_BASE_ABS`, `R_ARM_MOVW_ABS_NC`,
`R_ARM_MOVT_ABS`, `R_ARM_THM_MOVW_ABS_NC` or `R_ARM_THM_MOVT_ABS`,
`scanLocalReloc` returns, reports the `non_pic_relocation` error (with the
type and the symbol's name) exactly when the configuration is PIC, and in
both modes reserves nothing and changes no mask. -/
theorem local_abs_non_pic_policy (base : GNULDBackend) (st : LinkState)
    (pReloc : Relocation) (pSection : LDSection)
    (ht : pReloc.type ∈ [RelocType.R_ARM_ABS16, RelocType.R_ARM_ABS12,
            RelocType.R_ARM_THM_ABS5, RelocType.R_ARM_ABS8, RelocType.R_ARM_BASE_ABS,
            RelocType.R_ARM_MOVW_ABS_NC, RelocType.R_ARM_MOVT_ABS,
            RelocType.R_ARM_THM_MOVW_ABS_NC, RelocType.R_ARM_THM_MOVT_ABS]) :
    ∃ st1, scanLocalReloc base st pReloc pSection = some (pReloc, st1) ∧
      ((∃ d ∈ raisedBetween st st1, d.id = DiagID.non_pic_relocation) ↔
        base.config.isCodeIndep = true) ∧
      (base.config.isCodeIndep = true →
        raisedBetween st st1
          = [{ severity := Severity.Error, id := DiagID.non_pic_relocation,
               type := some pReloc.type,
               args := [(st.resolveInfo pReloc.symInfo).name] }]) ∧
      (base.config.isCodeIndep = false → st1 = st) ∧
      st1.resolveInfo = st.resolveInfo ∧ st1.m_pGOT = st.m_pGOT ∧ st1.m_pPLT = st.m_pPLT ∧
      st1.m_pRelDyn = st.m_pRelDyn ∧ st1.m_pRelPLT = st.m_pRelPLT := by
  obtain ⟨t, s, a⟩ := pReloc
  have hres : scanLocalReloc base st { type := t, symInfo := s, addend := a } pSection
      = some ({ type := t, symInfo := s, addend := a },
          if base.config.isCodeIndep = true then
            st.report { severity := Severity.Error, id := DiagID.non_pic_relocation,
                        type := some t, args := [(st.resolveInfo s).name] }
          else st) := by
    simp only [List.mem_cons, List.mem_singleton, List.not_mem_nil, or_false] at ht
    rcases ht with h | h | h | h | h | h | h | h | h <;>
      (subst h; simp only [scanLocalReloc]; split <;> rfl)
  refine ⟨_, hres, ?_⟩
  by_cases hp : base.config.isCodeIndep = true
  · rw [if_pos hp]
    have hr := raisedBetween_report st
      { severity := Severity.Error, id := DiagID.non_pic_relocation, type := some t,
        args := [(st.resolveInfo s).name] }
    refine ⟨?_, fun _ => hr, fun h => absurd hp (by simp [h]), rfl, rfl, rfl, rfl, rfl⟩
    rw [hr]
    exact ⟨fun _ => hp, fun _ => ⟨_, List.mem_singleton.2 rfl, rfl⟩⟩
  · rw [if_neg hp]
    refine ⟨?_, fun h => absurd h hp, fun _ => rfl, rfl, rfl, rfl, rfl, rfl⟩
    refine ⟨fun ⟨d, hd, _⟩ => ?_, fun h => absurd h hp⟩
    rw [raisedBetween_self] at hd
    cases hd

/-- Instance of C12, the scenario S5: `R_ARM_MOVW_ABS_NC` against `loc` under
PIC yields the diagnostic naming the type and the symbol. -/
theorem local_abs_non_pic_policy_witness :
    sampleBase.config.isCodeIndep = true ∧
    ∃ st1, scanLocalReloc sampleBase sampleState
        { type := RelocType.R_ARM_MOVW_ABS_NC, symInfo := 2, addend := 0 } sampleRelText
        = some ({ type := RelocType.R_ARM_MOVW_ABS_NC, symInfo := 2, addend := 0 }, st1) ∧
      raisedBetween sampleState st1
        = [{ severity := Severity.Error, id := DiagID.non_pic_relocation,
             type := some RelocType.R_ARM_MOVW_ABS_NC, args := ["loc"] }] := by
  obtain ⟨st1, h1, -, h2, -⟩ := local_abs_non_pic_policy sampleBase sampleState
    { type := RelocType.R_ARM_MOVW_ABS_NC, symInfo := 2, addend := 0 } sampleRelText
    (by decide)
  exact ⟨rfl, st1, h1, h2 rfl⟩

/-! ## GOT accesses (C13, C14) -/

/-- The guard of the GOT cases: `reserved & (ReserveGOT | GOTRel)` is not
zero exactly when one of the two bits is set. -/
theorem mask_GOTbits_ne_zero (m : Nat) :
    m &&& (ReserveGOT ||| GOTRel) ≠ 0 ↔ (m &&& ReserveGOT ≠ 0 ∨ m &&& GOTRel ≠ 0) := by
  rw [Ne, mask_GOTbits_eq_zero]
  constructor
  · intro h
    by_cases h1 : m &&& ReserveGOT = 0
    · exact Or.inr (fun h2 => h ⟨h1, h2⟩)
    · exact Or.inl h1
  · rintro (h | h) ⟨h1, h2⟩
    · exact h h1
    · exact h h2

/-- After `reserved | GOTRel` the bit `GOTRel` is set. -/
theorem mask_or_GOTRel_GOTbits_bit (m : Nat) : (m ||| 0x4) &&& GOTRel ≠ 0 :=
  lor_land_self_ne_zero m (by decide)

/-- After `reserved | ReserveGOT` the bit `ReserveGOT` is set. -/
theorem mask_or_GOT_GOTbits_bit (m : Nat) : (m ||| 0x2) &&& ReserveGOT ≠ 0 :=
  lor_land_self_ne_zero m (by decide)

/-- What the body of the local GOT cases does. -/
theorem scanLocalReloc_got_spec (base : GNULDBackend) (st : LinkState) (r : Relocation) :
    (((st.resolveInfo r.symInfo).reserved &&& ReserveGOT ≠ 0 ∨
      (st.resolveInfo r.symInfo).reserved &&& GOTRel ≠ 0) →
        scanLocalReloc.got base st r = st) ∧
    (((st.resolveInfo r.symInfo).reserved &&& ReserveGOT = 0 ∧
      (st.resolveInfo r.symInfo).reserved &&& GOTRel = 0) →
        (scanLocalReloc.got base st r).m_pGOT.got = st.m_pGOT.got + 1 ∧
        (scanLocalReloc.got base st r).m_pGOT.gotplt = st.m_pGOT.gotplt ∧
        (scanLocalReloc.got base st r).m_pPLT = st.m_pPLT ∧
        (scanLocalReloc.got base st r).m_pRelPLT = st.m_pRelPLT ∧
        (∀ q, q ≠ r.symInfo →
          (scanLocalReloc.got base st r).resolveInfo q = st.resolveInfo q) ∧
        (base.config.isCodeIndep = true →
          (scanLocalReloc.got base st r).m_pRelDyn.numOfRelocs
            = st.m_pRelDyn.numOfRelocs + 1 ∧
          ((scanLocalReloc.got base st r).resolveInfo r.symInfo).reserved
            = (st.resolveInfo r.symInfo).reserved ||| GOTRel ∧
          ((scanLocalReloc.got base st r).resolveInfo r.symInfo).reserved &&& GOTRel ≠ 0 ∧
          ((scanLocalReloc.got base st r).resolveInfo r.symInfo).reserved &&& ReserveGOT = 0) ∧
        (base.config.isCodeIndep = false →
          (scanLocalReloc.got base st r).m_pRelDyn = st.m_pRelDyn ∧
          ((scanLocalReloc.got base st r).resolveInfo r.symInfo).reserved
            = (st.resolveInfo r.symInfo).reserved ||| ReserveGOT ∧
          ((scanLocalReloc.got base st r).resolveInfo r.symInfo).reserved &&& ReserveGOT ≠ 0 ∧
          ((scanLocalReloc.got base st r).resolveInfo r.symInfo).reserved &&& GOTRel = 0)) := by
  unfold scanLocalReloc.got
  dsimp only
  constructor
  · intro h
    rw [if_pos ((mask_GOTbits_ne_zero _).2 h)]
  · rintro ⟨h1, h2⟩
    have hz : ¬ (st.resolveInfo r.symInfo).reserved &&& (ReserveGOT ||| GOTRel) ≠ 0 := by
      rw [mask_GOTbits_ne_zero]
      rintro (h | h)
      · exact h h1
      · exact h h2
    rw [if_neg hz]
    by_cases hp : base.config.isCodeIndep = true
    · rw [if_pos hp]
      refine ⟨rfl, rfl, rfl, rfl, ?_, fun _ => ⟨rfl, ?_, ?_, ?_⟩,
        fun h => absurd hp (by simp [h])⟩
      · intro q hq
        simp [LinkState.setReserved, LinkState.reserveRelDyn, LinkState.reserveGOT,
          Function.update_noteq hq]
      · simp only [LinkState.setReserved, LinkState.reserveRelDyn, LinkState.reserveGOT,
          Function.update_same]
        rfl
      · simp only [LinkState.setReserved, LinkState.reserveRelDyn, LinkState.reserveGOT,
          Function.update_same]
        exact mask_or_GOTRel_GOTbits_bit _
      · simp only [LinkState.setReserved, LinkState.reserveRelDyn, LinkState.reserveGOT,
          Function.update_same]
        exact (mask_or_GOTRel_GOT _).trans h1
    · rw [if_neg hp]
      refine ⟨rfl, rfl, rfl, rfl, ?_, fun h => absurd h hp, fun _ => ⟨rfl, ?_, ?_, ?_⟩⟩
      · intro q hq
        simp [LinkState.setReserved, LinkState.reserveGOT, Function.update_noteq hq]
      · simp only [LinkState.setReserved, LinkState.reserveGOT, Function.update_same]
        rfl
      · simp only [LinkState.setReserved, LinkState.reserveGOT, Function.update_same]
        exact mask_or_GOT_GOTbits_bit _
      · simp only [LinkState.setReserved, LinkState.reserveGOT, Function.update_same]
        exact (mask_or_GOT_GOTRel _).trans h2

/-- What the body of the global GOT cases does. -/
theorem scanGlobalReloc_got_spec (base : GNULDBackend) (st : LinkState) (r : Relocation) :
    (((st.resolveInfo r.symInfo).reserved &&& ReserveGOT ≠ 0 ∨
      (st.resolveInfo r.symInfo).reserved &&& GOTRel ≠ 0) →
        scanGlobalReloc.got base st r = st) ∧
    (((st.resolveInfo r.symInfo).reserved &&& ReserveGOT = 0 ∧
      (st.resolveInfo r.symInfo).reserved &&& GOTRel = 0) →
        (scanGlobalReloc.got base st r).m_pGOT.got = st.m_pGOT.got + 1 ∧
        (scanGlobalReloc.got base st r).m_pGOT.gotplt = st.m_pGOT.gotplt ∧
        (scanGlobalReloc.got base st r).m_pPLT = st.m_pPLT ∧
        (scanGlobalReloc.got base st r).m_pRelPLT = st.m_pRelPLT ∧
        (∀ q, q ≠ r.symInfo →
          (scanGlobalReloc.got base st r).resolveInfo q = st.resolveInfo q) ∧
        (base.symbolFinalValueIsKnown (st.resolveInfo r.symInfo) = false →
          (scanGlobalReloc.got base st r).m_pRelDyn.numOfRelocs
            = st.m_pRelDyn.numOfRelocs + 1 ∧
          ((scanGlobalReloc.got base st r).resolveInfo r.symInfo).reserved
            = (st.resolveInfo r.symInfo).reserved ||| GOTRel ∧
          ((scanGlobalReloc.got base st r).resolveInfo r.symInfo).reserved &&& GOTRel ≠ 0 ∧
          ((scanGlobalReloc.got base st r).resolveInfo r.symInfo).reserved &&& ReserveGOT = 0) ∧
        (base.symbolFinalValueIsKnown (st.resolveInfo r.symInfo) = true →
          (scanGlobalReloc.got base st r).m_pRelDyn = st.m_pRelDyn ∧
          ((scanGlobalReloc.got base st r).resolveInfo r.symInfo).reserved
            = (st.resolveInfo r.symInfo).reserved ||| ReserveGOT ∧
          ((scanGlobalReloc.got base st r).resolveInfo r.symInfo).reserved &&& ReserveGOT ≠ 0 ∧
          ((scanGlobalReloc.got base st r).resolveInfo r.symInfo).reserved &&& GOTRel = 0)) := by
  unfold scanGlobalReloc.got
  dsimp only
  constructor
  · intro h
    rw [if_pos ((mask_GOTbits_ne_zero _).2 h)]
  · rintro ⟨h1, h2⟩
    have hz : ¬ (st.resolveInfo r.symInfo).reserved &&& (ReserveGOT ||| GOTRel) ≠ 0 := by
      rw [mask_GOTbits_ne_zero]
      rintro (h | h)
      · exact h h1
      · exact h h2
    rw [if_neg hz]
    by_cases hp : base.symbolFinalValueIsKnown (st.resolveInfo r.symInfo) = false
    · have hk : (!base.symbolFinalValueIsKnown (st.reserveGOT.resolveInfo r.symInfo)) = true := by
        show (!base.symbolFinalValueIsKnown (st.resolveInfo r.symInfo)) = true
        rw [hp]; rfl
      rw [if_pos hk]
      refine ⟨rfl, rfl, rfl, rfl, ?_, fun _ => ⟨rfl, ?_, ?_, ?_⟩,
        fun h => absurd hp (by simp [h])⟩
      · intro q hq
        simp [LinkState.setReserved, LinkState.reserveRelDyn, LinkState.reserveGOT,
          Function.update_noteq hq]
      · simp only [LinkState.setReserved, LinkState.reserveRelDyn, LinkState.reserveGOT,
          Function.update_same]
      · simp only [LinkState.setReserved, LinkState.reserveRelDyn, LinkState.reserveGOT,
          Function.update_same]
        exact lor_land_self_ne_zero _ (by decide)
      · simp only [LinkState.setReserved, LinkState.reserveRelDyn, LinkState.reserveGOT,
          Function.update_same]
        exact (mask_or_GOTRel_GOT _).trans h1
    · have hk : ¬ (!base.symbolFinalValueIsKnown (st.reserveGOT.resolveInfo r.symInfo)) = true := by
        show ¬ (!base.symbolFinalValueIsKnown (st.resolveInfo r.symInfo)) = true
        simpa using hp
      rw [if_neg hk]
      refine ⟨rfl, rfl, rfl, rfl, ?_, fun h => absurd h hp, fun _ => ⟨rfl, ?_, ?_, ?_⟩⟩
      · intro q hq
        simp [LinkState.setReserved, LinkState.reserveGOT, Function.update_noteq hq]
      · simp only [LinkState.setReserved, LinkState.reserveGOT, Function.update_same]
      · simp only [LinkState.setReserved, LinkState.reserveGOT, Function.update_same]
        exact lor_land_self_ne_zero _ (by decide)
      · simp only [LinkState.setReserved, LinkState.reserveGOT, Function.update_same]
        exact (mask_or_GOT_GOTRel _).trans h2

/-- C13. For a relocation of type `R_ARM_GOT_BREL`, `R_ARM_GOT_PREL` or
`R_ARM_TARGET2`, `scanLocalReloc` returns; the state is as it was if the mask
of the symbol has `ReserveGOT` or `GOTRel`; otherwise exactly one GOT slot
has been reserved (no PLT or `.rel.plt` entry, no other mask changed) and,
under PIC, exactly one `.rel.dyn` entry has been reserved and `GOTRel` set
without `ReserveGOT`, while without PIC no `.rel.dyn` entry has been
reserved and `ReserveGOT` set without `GOTRel`. -/
theorem local_got_policy (base : GNULDBackend) (st : LinkState) (pReloc : Relocation)
    (pSection : LDSection)
    (ht : pReloc.type = RelocType.R_ARM_GOT_BREL ∨ pReloc.type = RelocType.R_ARM_GOT_PREL ∨
          pReloc.type = RelocType.R_ARM_TARGET2) :
    ∃ st1, scanLocalReloc base st pReloc pSection
        = some (pReloc.setType (normalizedType pReloc.type), st1) ∧
      (((st.resolveInfo pReloc.symInfo).reserved &&& ReserveGOT ≠ 0 ∨
        (st.resolveInfo pReloc.symInfo).reserved &&& GOTRel ≠ 0) → st1 = st) ∧
      (((st.resolveInfo pReloc.symInfo).reserved &&& ReserveGOT = 0 ∧
        (st.resolveInfo pReloc.symInfo).reserved &&& GOTRel = 0) →
          st1.m_pGOT.got = st.m_pGOT.got + 1 ∧
          st1.m_pGOT.gotplt = st.m_pGOT.gotplt ∧
          st1.m_pPLT = st.m_pPLT ∧ st1.m_pRelPLT = st.m_pRelPLT ∧
          (∀ q, q ≠ pReloc.symInfo → st1.resolveInfo q = st.resolveInfo q) ∧
          (base.config.isCodeIndep = true →
            st1.m_pRelDyn.numOfRelocs = st.m_pRelDyn.numOfRelocs + 1 ∧
            (st1.resolveInfo pReloc.symInfo).reserved
              = (st.resolveInfo pReloc.symInfo).reserved ||| GOTRel ∧
            (st1.resolveInfo pReloc.symInfo).reserved &&& GOTRel ≠ 0 ∧
            (st1.resolveInfo pReloc.symInfo).reserved &&& ReserveGOT = 0) ∧
          (base.config.isCodeIndep = false →
            st1.m_pRelDyn = st.m_pRelDyn ∧
            (st1.resolveInfo pReloc.symInfo).reserved
              = (st.resolveInfo pReloc.symInfo).reserved ||| ReserveGOT ∧
            (st1.resolveInfo pReloc.symInfo).reserved &&& ReserveGOT ≠ 0 ∧
            (st1.resolveInfo pReloc.symInfo).reserved &&& GOTRel = 0)) := by
  obtain ⟨t, s, a⟩ := pReloc
  rcases ht with h | h | h <;> simp only at h <;> subst h
  · exact ⟨_, rfl, scanLocalReloc_got_spec base st _⟩
  · exact ⟨_, rfl, scanLocalReloc_got_spec base st _⟩
  · exact ⟨_, rfl, scanLocalReloc_got_spec base st
      { type := RelocType.R_ARM_GOT_PREL, symInfo := s, addend := a }⟩

/-- Instance of C13: `R_ARM_GOT_BREL` against `loc`, with PIC and without. -/
theorem local_got_policy_witness :
    (∃ st1, scanLocalReloc sampleBase sampleState
        { type := RelocType.R_ARM_GOT_BREL, symInfo := 2, addend := 0 } sampleRelText
        = some ({ type := RelocType.R_ARM_GOT_BREL, symInfo := 2, addend := 0 }, st1) ∧
      st1.m_pGOT.got = 1 ∧ st1.m_pRelDyn.numOfRelocs = 1 ∧
      (st1.resolveInfo 2).reserved = GOTRel) ∧
    (∃ st1, scanLocalReloc sampleBaseNonPIC sampleState
        { type := RelocType.R_ARM_GOT_BREL, symInfo := 2, addend := 0 } sampleRelText
        = some ({ type := RelocType.R_ARM_GOT_BREL, symInfo := 2, addend := 0 }, st1) ∧
      st1.m_pGOT.got = 1 ∧ st1.m_pRelDyn.numOfRelocs = 0 ∧
      (st1.resolveInfo 2).reserved = ReserveGOT) := by
  obtain ⟨st1, h1, -, hp1⟩ := local_got_policy sampleBase sampleState
    { type := RelocType.R_ARM_GOT_BREL, symInfo := 2, addend := 0 } sampleRelText (Or.inl rfl)
  obtain ⟨st2, h2, -, hp2⟩ := local_got_policy sampleBaseNonPIC sampleState
    { type := RelocType.R_ARM_GOT_BREL, symInfo := 2, addend := 0 } sampleRelText (Or.inl rfl)
  have q1 := hp1 ⟨rfl, rfl⟩
  have q2 := hp2 ⟨rfl, rfl⟩
  refine ⟨⟨st1, h1, q1.1, (q1.2.2.2.2.2.1 rfl).1, ?_⟩, ⟨st2, h2, q2.1, ?_, ?_⟩⟩
  · rw [(q1.2.2.2.2.2.1 rfl).2.1]; rfl
  · rw [(q2.2.2.2.2.2.2 rfl).1]; rfl
  · rw [(q2.2.2.2.2.2.2 rfl).2.1]; rfl

/-- C14. For a relocation of type `R_ARM_GOT_BREL`, `R_ARM_GOT_ABS`,
`R_ARM_GOT_PREL` or `R_ARM_TARGET2`, `scanGlobalReloc` returns; the state is
as it was if the mask of the symbol has `ReserveGOT` or `GOTRel`; otherwise
exactly one GOT slot has been reserved and, if `symbolFinalValueIsKnown` is
false, exactly one `.rel.dyn` entry has been reserved and `GOTRel` set, else
no `.rel.dyn` entry has been reserved and `ReserveGOT` set; the PLT and
`.rel.plt` counts are unchanged in all cases. -/
theorem global_got_policy (base : GNULDBackend) (st : LinkState) (pReloc : Relocation)
    (pSection : LDSection)
    (ht : pReloc.type = RelocType.R_ARM_GOT_BREL ∨ pReloc.type = RelocType.R_ARM_GOT_ABS ∨
          pReloc.type = RelocType.R_ARM_GOT_PREL ∨ pReloc.type = RelocType.R_ARM_TARGET2) :
    ∃ st1, scanGlobalReloc base st pReloc pSection
        = some (pReloc.setType (normalizedType pReloc.type), st1) ∧
      st1.m_pPLT = st.m_pPLT ∧ st1.m_pRelPLT = st.m_pRelPLT ∧
      (((st.resolveInfo pReloc.symInfo).reserved &&& ReserveGOT ≠ 0 ∨
        (st.resolveInfo pReloc.symInfo).reserved &&& GOTRel ≠ 0) → st1 = st) ∧
      (((st.resolveInfo pReloc.symInfo).reserved &&& ReserveGOT = 0 ∧
        (st.resolveInfo pReloc.symInfo).reserved &&& GOTRel = 0) →
          st1.m_pGOT.got = st.m_pGOT.got + 1 ∧
          st1.m_pGOT.gotplt = st.m_pGOT.gotplt ∧
          st1.m_pPLT = st.m_pPLT ∧ st1.m_pRelPLT = st.m_pRelPLT ∧
          (∀ q, q ≠ pReloc.symInfo → st1.resolveInfo q = st.resolveInfo q) ∧
          (base.symbolFinalValueIsKnown (st.resolveInfo pReloc.symInfo) = false →
            st1.m_pRelDyn.numOfRelocs = st.m_pRelDyn.numOfRelocs + 1 ∧
            (st1.resolveInfo pReloc.symInfo).reserved
              = (st.resolveInfo pReloc.symInfo).reserved ||| GOTRel ∧
            (st1.resolveInfo pReloc.symInfo).reserved &&& GOTRel ≠ 0 ∧
            (st1.resolveInfo pReloc.symInfo).reserved &&& ReserveGOT = 0) ∧
          (base.symbolFinalValueIsKnown (st.resolveInfo pReloc.symInfo) = true →
            st1.m_pRelDyn = st.m_pRelDyn ∧
            (st1.resolveInfo pReloc.symInfo).reserved
              = (st.resolveInfo pReloc.symInfo).reserved ||| ReserveGOT ∧
            (st1.resolveInfo pReloc.symInfo).reserved &&& ReserveGOT ≠ 0 ∧
            (st1.resolveInfo pReloc.symInfo).reserved &&& GOTRel = 0)) := by
  obtain ⟨t, s, a⟩ := pReloc
  have hframe : ∀ r : Relocation, r.symInfo = s →
      (scanGlobalReloc.got base st r).m_pPLT = st.m_pPLT ∧
      (scanGlobalReloc.got base st r).m_pRelPLT = st.m_pRelPLT := by
    intro r hr
    by_cases h : (st.resolveInfo r.symInfo).reserved &&& ReserveGOT = 0 ∧
        (st.resolveInfo r.symInfo).reserved &&& GOTRel = 0
    · have q := (scanGlobalReloc_got_spec base st r).2 h
      exact ⟨q.2.2.1, q.2.2.2.1⟩
    · have h1 : (st.resolveInfo r.symInfo).reserved &&& ReserveGOT ≠ 0 ∨
          (st.resolveInfo r.symInfo).reserved &&& GOTRel ≠ 0 := by
        by_cases h2 : (st.resolveInfo r.symInfo).reserved &&& ReserveGOT = 0
        · exact Or.inr (fun h3 => h ⟨h2, h3⟩)
        · exact Or.inl h2
      rw [(scanGlobalReloc_got_spec base st r).1 h1]
      exact ⟨rfl, rfl⟩
  rcases ht with h | h | h | h <;> simp only at h <;> subst h
  · exact ⟨_, rfl, (hframe _ rfl).1, (hframe _ rfl).2, scanGlobalReloc_got_spec base st _⟩
  · exact ⟨_, rfl, (hframe _ rfl).1, (hframe _ rfl).2, scanGlobalReloc_got_spec base st _⟩
  · exact ⟨_, rfl, (hframe _ rfl).1, (hframe _ rfl).2, scanGlobalReloc_got_spec base st _⟩
  · exact ⟨_, rfl,
      (hframe { type := RelocType.R_ARM_GOT_PREL, symInfo := s, addend := a } rfl).1,
      (hframe { type := RelocType.R_ARM_GOT_PREL, symInfo := s, addend := a } rfl).2,
      scanGlobalReloc_got_spec base st
        { type := RelocType.R_ARM_GOT_PREL, symInfo := s, addend := a }⟩

/-- Instance of C14: `R_ARM_GOT_ABS` against the global `foo`, whose final
value is not known at link time, reserves a GOT slot and a `.rel.dyn` entry. -/
theorem global_got_policy_witness :
    ∃ st1, scanGlobalReloc sampleBase sampleState
        { type := RelocType.R_ARM_GOT_ABS, symInfo := 1, addend := 0 } sampleRelText
        = some ({ type := RelocType.R_ARM_GOT_ABS, symInfo := 1, addend := 0 }, st1) ∧
      st1.m_pGOT.got = 1 ∧ st1.m_pRelDyn.numOfRelocs = 1 ∧
      (st1.resolveInfo 1).reserved = GOTRel ∧ st1.m_pPLT.plt1 = 0 := by
  obtain ⟨st1, h1, hplt, -, -, hp1⟩ := global_got_policy sampleBase sampleState
    { type := RelocType.R_ARM_GOT_ABS, symInfo := 1, addend := 0 } sampleRelText
    (Or.inr (Or.inl rfl))
  have q1 := hp1 ⟨rfl, rfl⟩
  refine ⟨st1, h1, q1.1, (q1.2.2.2.2.2.1 rfl).1, ?_, ?_⟩
  · rw [(q1.2.2.2.2.2.1 rfl).2.1]; rfl
  · rw [hplt]; rfl

/-! ## Global symbols: branches (C15) -/

/-- What the statements that reserve a PLT entry do. -/
theorem reservePLT_spec (st : LinkState) (s : Nat) :
    (scanGlobalReloc.reservePLT st s).m_pPLT.plt1 = st.m_pPLT.plt1 + 1 ∧
    (scanGlobalReloc.reservePLT st s).m_pRelPLT.numOfRelocs = st.m_pRelPLT.numOfRelocs + 1 ∧
    ((scanGlobalReloc.reservePLT st s).resolveInfo s).reserved
      = (st.resolveInfo s).reserved ||| ReservePLT ∧
    ((scanGlobalReloc.reservePLT st s).resolveInfo s).reserved &&& ReservePLT ≠ 0 ∧
    (∀ q, q ≠ s → (scanGlobalReloc.reservePLT st s).resolveInfo q = st.resolveInfo q) ∧
    (scanGlobalReloc.reservePLT st s).m_pGOT.got = st.m_pGOT.got ∧
    (scanGlobalReloc.reservePLT st s).m_pGOT.gotplt = st.m_pGOT.gotplt + 1 ∧
    (scanGlobalReloc.reservePLT st s).m_pRelDyn = st.m_pRelDyn := by
  unfold scanGlobalReloc.reservePLT
  dsimp only
  refine ⟨rfl, rfl, ?_, ?_, ?_, rfl, rfl, rfl⟩
  · simp only [LinkState.setReserved, LinkState.reserveRelPLT, LinkState.reservePLTEntry,
      Function.update_same]
  · simp only [LinkState.setReserved, LinkState.reserveRelPLT, LinkState.reservePLTEntry,
      Function.update_same]
    exact mask_or_PLT_PLT _
  · intro q hq
    simp [LinkState.setReserved, LinkState.reserveRelPLT, LinkState.reservePLTEntry,
      Function.update_noteq hq]

/-- C15. For a relocation of a branch type, `scanGlobalReloc` returns and
never reserves a `.rel.dyn` entry. It reserves exactly one PLT1 entry and
exactly one `.rel.plt` entry and sets `ReservePLT` when `ReservePLT` was
unset, `symbolFinalValueIsKnown` is false and the symbol is not at once
defined, non-dynamic and non-preemptible; in every other case the state is
as it was. -/
theorem global_branch_policy (base : GNULDBackend) (st : LinkState) (pReloc : Relocation)
    (pSection : LDSection)
    (ht : pReloc.type ∈ [RelocType.R_ARM_THM_CALL, RelocType.R_ARM_PLT32,
            RelocType.R_ARM_CALL, RelocType.R_ARM_JUMP24, RelocType.R_ARM_THM_JUMP24,
            RelocType.R_ARM_SBREL31, RelocType.R_ARM_PREL31, RelocType.R_ARM_THM_JUMP19,
            RelocType.R_ARM_THM_JUMP6, RelocType.R_ARM_THM_JUMP11,
            RelocType.R_ARM_THM_JUMP8]) :
    ∃ st1, scanGlobalReloc base st pReloc pSection = some (pReloc, st1) ∧
      st1.m_pRelDyn = st.m_pRelDyn ∧
      (st1.m_pPLT.plt1 = st.m_pPLT.plt1 + 1 ↔
        ((st.resolveInfo pReloc.symInfo).reserved &&& ReservePLT = 0 ∧
         base.symbolFinalValueIsKnown (st.resolveInfo pReloc.symInfo) = false ∧
         ¬ ((st.resolveInfo pReloc.symInfo).isDefine = true ∧
            (st.resolveInfo pReloc.symInfo).isDyn = false ∧
            base.isSymbolPreemptible (st.resolveInfo pReloc.symInfo) = false))) ∧
      (((st.resolveInfo pReloc.symInfo).reserved &&& ReservePLT = 0 ∧
        base.symbolFinalValueIsKnown (st.resolveInfo pReloc.symInfo) = false ∧
        ¬ ((st.resolveInfo pReloc.symInfo).isDefine = true ∧
           (st.resolveInfo pReloc.symInfo).isDyn = false ∧
           base.isSymbolPreemptible (st.resolveInfo pReloc.symInfo) = false)) →
          st1.m_pPLT.plt1 = st.m_pPLT.plt1 + 1 ∧
          st1.m_pRelPLT.numOfRelocs = st.m_pRelPLT.numOfRelocs + 1 ∧
          (st1.resolveInfo pReloc.symInfo).reserved
            = (st.resolveInfo pReloc.symInfo).reserved ||| ReservePLT ∧
          (st1.resolveInfo pReloc.symInfo).reserved &&& ReservePLT ≠ 0 ∧
          (∀ q, q ≠ pReloc.symInfo → st1.resolveInfo q = st.resolveInfo q) ∧
          st1.m_pGOT.got = st.m_pGOT.got) ∧
      (¬ ((st.resolveInfo pReloc.symInfo).reserved &&& ReservePLT = 0 ∧
          base.symbolFinalValueIsKnown (st.resolveInfo pReloc.symInfo) = false ∧
          ¬ ((st.resolveInfo pReloc.symInfo).isDefine = true ∧
             (st.resolveInfo pReloc.symInfo).isDyn = false ∧
             base.isSymbolPreemptible (st.resolveInfo pReloc.symInfo) = false)) →
          st1 = st) := by
  obtain ⟨t, s, a⟩ := pReloc
  have hres : scanGlobalReloc base st { type := t, symInfo := s, addend := a } pSection
      = some ({ type := t, symInfo := s, addend := a },
          scanGlobalReloc.branch base st { type := t, symInfo := s, addend := a }) := by
    simp only [List.mem_cons, List.mem_singleton, List.not_mem_nil, or_false] at ht
    rcases ht with h | h | h | h | h | h | h | h | h | h | h <;> (subst h; rfl)
  refine ⟨_, hres, ?_⟩
  dsimp only
  by_cases hc : (st.resolveInfo s).reserved &&& ReservePLT = 0 ∧
      base.symbolFinalValueIsKnown (st.resolveInfo s) = false ∧
      ¬ ((st.resolveInfo s).isDefine = true ∧ (st.resolveInfo s).isDyn = false ∧
         base.isSymbolPreemptible (st.resolveInfo s) = false)
  · have hb : scanGlobalReloc.branch base st { type := t, symInfo := s, addend := a }
        = scanGlobalReloc.reservePLT st s := by
      unfold scanGlobalReloc.branch
      dsimp only
      rw [if_neg (by simp [hc.1]), if_neg (by simp [hc.2.1]), if_neg]
      intro h
      apply hc.2.2
      simpa [and_assoc] using h
    rw [hb]
    have q := reservePLT_spec st s
    exact ⟨q.2.2.2.2.2.2.2, ⟨fun _ => hc, fun _ => q.1⟩,
      fun _ => ⟨q.1, q.2.1, q.2.2.1, q.2.2.2.1, q.2.2.2.2.1, q.2.2.2.2.2.1⟩,
      fun h => absurd hc h⟩
  · have hb : scanGlobalReloc.branch base st { type := t, symInfo := s, addend := a } = st := by
      unfold scanGlobalReloc.branch
      dsimp only
      by_cases h1 : (st.resolveInfo s).reserved &&& ReservePLT ≠ 0
      · rw [if_pos h1]
      · rw [if_neg h1]
        by_cases h2 : base.symbolFinalValueIsKnown (st.resolveInfo s) = true
        · rw [if_pos h2]
        · rw [if_neg h2, if_pos]
          have h1' : (st.resolveInfo s).reserved &&& ReservePLT = 0 := by simpa using h1
          have h2' : base.symbolFinalValueIsKnown (st.resolveInfo s) = false := by
            simpa using h2
          by_contra h3
          apply hc
          refine ⟨h1', h2', fun h4 => h3 ?_⟩
          simp [h4.1, h4.2.1, h4.2.2]
    rw [hb]
    exact ⟨rfl, ⟨fun h => absurd h (by omega), fun h => absurd h hc⟩,
      fun h => absurd h hc, fun _ => rfl⟩

/-- Instance of C15, the scenario S2: `R_ARM_CALL` to the preemptible `foo`
reserves one PLT1 entry and one `.rel.plt` entry and sets `ReservePLT`. -/
theorem global_branch_policy_witness :
    ∃ st1, scanGlobalReloc sampleBase sampleState
        { type := RelocType.R_ARM_CALL, symInfo := 1, addend := 0 } sampleRelText
        = some ({ type := RelocType.R_ARM_CALL, symInfo := 1, addend := 0 }, st1) ∧
      st1.m_pPLT.plt1 = 1 ∧ st1.m_pRelPLT.numOfRelocs = 1 ∧
      (st1.resolveInfo 1).reserved &&& ReservePLT ≠ 0 ∧ st1.m_pRelDyn.numOfRelocs = 0 := by
  obtain ⟨st1, h1, hdyn, -, hp, -⟩ := global_branch_policy sampleBase sampleState
    { type := RelocType.R_ARM_CALL, symInfo := 1, addend := 0 } sampleRelText (by decide)
  have q := hp ⟨rfl, rfl, by decide⟩
  exact ⟨st1, h1, q.1, q.2.1, q.2.2.2.1, by rw [hdyn]; rfl⟩

/-! ## Global symbols: absolute types (C16) -/

/-- What the block `if (symbolNeedsDynRel(..)) { .. }` does: one `.rel.dyn`
entry exactly when the symbol needs a dynamic relocation, `ReserveRel`
exactly when it does and needs no copy relocation, and no change of the GOT,
the PLT or `.rel.plt`. -/
theorem dynRel_spec (base : GNULDBackend) (st : LinkState) (r : Relocation)
    (pSection : LDSection) (isAbsReloc : Bool) :
    (base.symbolNeedsDynRel (st.resolveInfo r.symInfo)
        (decide ((st.resolveInfo r.symInfo).reserved &&& ReservePLT ≠ 0)) isAbsReloc = false →
      scanGlobalReloc.dynRel base st r pSection isAbsReloc = st) ∧
    (base.symbolNeedsDynRel (st.resolveInfo r.symInfo)
        (decide ((st.resolveInfo r.symInfo).reserved &&& ReservePLT ≠ 0)) isAbsReloc = true →
      (scanGlobalReloc.dynRel base st r pSection isAbsReloc).m_pRelDyn.numOfRelocs
        = st.m_pRelDyn.numOfRelocs + 1) ∧
    (scanGlobalReloc.dynRel base st r pSection isAbsReloc).m_pGOT = st.m_pGOT ∧
    (scanGlobalReloc.dynRel base st r pSection isAbsReloc).m_pPLT = st.m_pPLT ∧
    (scanGlobalReloc.dynRel base st r pSection isAbsReloc).m_pRelPLT = st.m_pRelPLT ∧
    ((base.symbolNeedsDynRel (st.resolveInfo r.symInfo)
        (decide ((st.resolveInfo r.symInfo).reserved &&& ReservePLT ≠ 0)) isAbsReloc = true ∧
      base.symbolNeedsCopyReloc r (st.resolveInfo r.symInfo) = false) →
      ((scanGlobalReloc.dynRel base st r pSection isAbsReloc).resolveInfo r.symInfo).reserved
        = (st.resolveInfo r.symInfo).reserved ||| ReserveRel ∧
      ∀ q, q ≠ r.symInfo →
        (scanGlobalReloc.dynRel base st r pSection isAbsReloc).resolveInfo q
          = st.resolveInfo q) ∧
    (¬ (base.symbolNeedsDynRel (st.resolveInfo r.symInfo)
        (decide ((st.resolveInfo r.symInfo).reserved &&& ReservePLT ≠ 0)) isAbsReloc = true ∧
      base.symbolNeedsCopyReloc r (st.resolveInfo r.symInfo) = false) →
      (scanGlobalReloc.dynRel base st r pSection isAbsReloc).resolveInfo = st.resolveInfo) := by
  unfold scanGlobalReloc.dynRel
  dsimp only
  by_cases hn : base.symbolNeedsDynRel (st.resolveInfo r.symInfo)
      (decide ((st.resolveInfo r.symInfo).reserved &&& ReservePLT ≠ 0)) isAbsReloc = true
  · rw [if_pos hn]
    by_cases hc : base.symbolNeedsCopyReloc r (st.reserveRelDyn.resolveInfo r.symInfo) = true
    · rw [if_pos hc]
      have hf := defineSymbolforCopyReloc_frame base st.reserveRelDyn
        (st.reserveRelDyn.resolveInfo r.symInfo)
      have hc1 : base.symbolNeedsCopyReloc r (st.resolveInfo r.symInfo) = true := hc
      refine ⟨fun h => Bool.noConfusion (h.symm.trans hn), fun _ => ?_, ?_, ?_, ?_,
        fun h => Bool.noConfusion (h.2.symm.trans hc1), fun _ => ?_⟩
      · simp only [addCopyReloc]
        rw [hf.2.2.2.1]; rfl
      · simp only [addCopyReloc]; rw [hf.2.1]; rfl
      · simp only [addCopyReloc]; rw [hf.2.2.1]; rfl
      · simp only [addCopyReloc]; rw [hf.2.2.2.2.1]; rfl
      · simp only [addCopyReloc]; rw [hf.1]; rfl
    · rw [if_neg hc]
      have hf := checkValidReloc_frame base st.reserveRelDyn r
      have hc1 : base.symbolNeedsCopyReloc r (st.resolveInfo r.symInfo) = false := by
        have : ¬ base.symbolNeedsCopyReloc r (st.resolveInfo r.symInfo) = true := hc
        simpa using this
      refine ⟨fun h => Bool.noConfusion (h.symm.trans hn), fun _ => ?_, ?_, ?_, ?_, fun _ => ⟨?_, ?_⟩,
        fun h => absurd ⟨hn, hc1⟩ h⟩
      · simp only [LinkState.checkAndSetHasTextRel, LinkState.setReserved]
        rw [hf.2.2.2.1]; rfl
      · simp only [LinkState.checkAndSetHasTextRel, LinkState.setReserved]
        rw [hf.2.1]; rfl
      · simp only [LinkState.checkAndSetHasTextRel, LinkState.setReserved]
        rw [hf.2.2.1]; rfl
      · simp only [LinkState.checkAndSetHasTextRel, LinkState.setReserved]
        rw [hf.2.2.2.2.1]; rfl
      · simp only [LinkState.checkAndSetHasTextRel, LinkState.setReserved,
          Function.update_same]
        rw [hf.1]; rfl
      · intro q hq
        simp only [LinkState.checkAndSetHasTextRel, LinkState.setReserved]
        rw [Function.update_noteq hq, hf.1]; rfl
  · rw [if_neg hn]
    exact ⟨fun _ => rfl, fun h => absurd h hn, rfl, rfl, rfl, fun h => absurd h.1 hn,
      fun _ => rfl⟩

/-- C16. For a relocation of an absolute type (`R_ARM_TARGET1` included),
`scanGlobalReloc` returns after two steps. Step 1, from `st` to `st1`: one
PLT1 entry and one `.rel.plt` entry are reserved and `ReservePLT` is set
exactly when `symbolNeedsPLT` holds and `ReservePLT` was unset. Step 2, from
`st1` to `st2`: exactly one `.rel.dyn` entry is reserved exactly when
`symbolNeedsDynRel(rsym, hasPLT, true)` holds, `hasPLT` being the
`ReservePLT` bit after step 1; and `ReserveRel` is set exactly when step 2
reserved an entry and `symbolNeedsCopyReloc` is false. -/
theorem global_abs_policy (base : GNULDBackend) (st : LinkState) (pReloc : Relocation)
    (pSection : LDSection)
    (ht : pReloc.type ∈ [RelocType.R_ARM_ABS32, RelocType.R_ARM_ABS16, RelocType.R_ARM_ABS12,
            RelocType.R_ARM_THM_ABS5, RelocType.R_ARM_ABS8, RelocType.R_ARM_BASE_ABS,
            RelocType.R_ARM_MOVW_ABS_NC, RelocType.R_ARM_MOVT_ABS,
            RelocType.R_ARM_THM_MOVW_ABS_NC, RelocType.R_ARM_THM_MOVT_ABS,
            RelocType.R_ARM_ABS32_NOI, RelocType.R_ARM_TARGET1]) :
    ∃ st1 st2,
      scanGlobalReloc base st pReloc pSection
        = some (pReloc.setType (normalizedType pReloc.type), st2) ∧
      ((base.symbolNeedsPLT (st.resolveInfo pReloc.symInfo) = true ∧
        (st.resolveInfo pReloc.symInfo).reserved &&& ReservePLT = 0) →
          st1.m_pPLT.plt1 = st.m_pPLT.plt1 + 1 ∧
          st1.m_pRelPLT.numOfRelocs = st.m_pRelPLT.numOfRelocs + 1 ∧
          (st1.resolveInfo pReloc.symInfo).reserved
            = (st.resolveInfo pReloc.symInfo).reserved ||| ReservePLT ∧
          (st1.resolveInfo pReloc.symInfo).reserved &&& ReservePLT ≠ 0 ∧
          (∀ q, q ≠ pReloc.symInfo → st1.resolveInfo q = st.resolveInfo q) ∧
          st1.m_pRelDyn = st.m_pRelDyn) ∧
      (¬ (base.symbolNeedsPLT (st.resolveInfo pReloc.symInfo) = true ∧
          (st.resolveInfo pReloc.symInfo).reserved &&& ReservePLT = 0) → st1 = st) ∧
      (base.symbolNeedsDynRel (st1.resolveInfo pReloc.symInfo)
          (decide ((st1.resolveInfo pReloc.symInfo).reserved &&& ReservePLT ≠ 0)) true = false →
        st2 = st1) ∧
      (base.symbolNeedsDynRel (st1.resolveInfo pReloc.symInfo)
          (decide ((st1.resolveInfo pReloc.symInfo).reserved &&& ReservePLT ≠ 0)) true = true →
        st2.m_pRelDyn.numOfRelocs = st1.m_pRelDyn.numOfRelocs + 1) ∧
      st2.m_pGOT = st1.m_pGOT ∧ st2.m_pPLT = st1.m_pPLT ∧ st2.m_pRelPLT = st1.m_pRelPLT ∧
      ((base.symbolNeedsDynRel (st1.resolveInfo pReloc.symInfo)
          (decide ((st1.resolveInfo pReloc.symInfo).reserved &&& ReservePLT ≠ 0)) true = true ∧
        base.symbolNeedsCopyReloc (pReloc.setType (normalizedType pReloc.type))
          (st1.resolveInfo pReloc.symInfo) = false) →
        (st2.resolveInfo pReloc.symInfo).reserved
          = (st1.resolveInfo pReloc.symInfo).reserved ||| ReserveRel ∧
        ∀ q, q ≠ pReloc.symInfo → st2.resolveInfo q = st1.resolveInfo q) ∧
      (¬ (base.symbolNeedsDynRel (st1.resolveInfo pReloc.symInfo)
          (decide ((st1.resolveInfo pReloc.symInfo).reserved &&& ReservePLT ≠ 0)) true = true ∧
        base.symbolNeedsCopyReloc (pReloc.setType (normalizedType pReloc.type))
          (st1.resolveInfo pReloc.symInfo) = false) →
        st2.resolveInfo = st1.resolveInfo) := by
  obtain ⟨t, s, a⟩ := pReloc
  have hres : scanGlobalReloc base st { type := t, symInfo := s, addend := a } pSection
      = some ({ type := normalizedType t, symInfo := s, addend := a },
          scanGlobalReloc.abs base st
            { type := normalizedType t, symInfo := s, addend := a } pSection) := by
    simp only [List.mem_cons, List.mem_singleton, List.not_mem_nil, or_false] at ht
    rcases ht with h | h | h | h | h | h | h | h | h | h | h | h <;> (subst h; rfl)
  have habs : scanGlobalReloc.abs base st
        { type := normalizedType t, symInfo := s, addend := a } pSection
      = scanGlobalReloc.dynRel base
          (if base.symbolNeedsPLT (st.resolveInfo s) = true ∧
              (st.resolveInfo s).reserved &&& ReservePLT = 0
            then scanGlobalReloc.reservePLT st s else st)
          { type := normalizedType t, symInfo := s, addend := a } pSection true := by
    unfold scanGlobalReloc.abs
    dsimp only
    by_cases h1 : base.symbolNeedsPLT (st.resolveInfo s) = true
    · by_cases h2 : (st.resolveInfo s).reserved &&& ReservePLT = 0
      · rw [if_pos h1, if_pos (by simp [h2]), if_pos ⟨h1, h2⟩]
      · rw [if_pos h1, if_neg (by simp [h2]), if_neg (fun h => h2 h.2)]
    · rw [if_neg h1, if_neg (fun h => h1 h.1)]
  refine ⟨if base.symbolNeedsPLT (st.resolveInfo s) = true ∧
              (st.resolveInfo s).reserved &&& ReservePLT = 0
            then scanGlobalReloc.reservePLT st s else st, _, hres.trans (by rw [habs]; rfl),
          ?_, ?_, ?_⟩
  · intro h
    dsimp only
    rw [if_pos h]
    have q := reservePLT_spec st s
    exact ⟨q.1, q.2.1, q.2.2.1, q.2.2.2.1, q.2.2.2.2.1, q.2.2.2.2.2.2.2⟩
  · intro h
    dsimp only at h
    rw [if_neg h]
  · exact dynRel_spec base _ { type := normalizedType t, symInfo := s, addend := a }
      pSection true

/-- Instance of C16: `R_ARM_ABS32` against the function `foo` of a shared
library reserves the PLT entry in step 1, and with the PLT bit then set the
sample link asks for no dynamic relocation in step 2. -/
theorem global_abs_policy_witness :
    ∃ st2, scanGlobalReloc sampleBase sampleState
        { type := RelocType.R_ARM_ABS32, symInfo := 1, addend := 0 } sampleRelText
        = some ({ type := RelocType.R_ARM_ABS32, symInfo := 1, addend := 0 }, st2) ∧
      st2.m_pPLT.plt1 = 1 ∧ st2.m_pRelPLT.numOfRelocs = 1 := by
  obtain ⟨st1, st2, h, hplt, -, -, -, -, hp, hq, -⟩ := global_abs_policy sampleBase sampleState
    { type := RelocType.R_ARM_ABS32, symInfo := 1, addend := 0 } sampleRelText (by decide)
  have q := hplt ⟨rfl, rfl⟩
  exact ⟨st2, h, by rw [hp, q.1]; rfl, by rw [hq, q.2.1]; rfl⟩

/-! ## Layout hooks -/

/-- What `defineGOTSymbol` leaves alone: everything of the state but
`m_pGOTSymbol`, and the sections and the segment table of the output. -/
theorem defineGOTSymbol_frame (pBuilder : IRBuilder) (st : LinkState) (out : OutputState) :
    (defineGOTSymbol pBuilder st out).1.resolveInfo = st.resolveInfo ∧
    (defineGOTSymbol pBuilder st out).1.m_pGOT = st.m_pGOT ∧
    (defineGOTSymbol pBuilder st out).1.m_pPLT = st.m_pPLT ∧
    (defineGOTSymbol pBuilder st out).1.m_pRelDyn = st.m_pRelDyn ∧
    (defineGOTSymbol pBuilder st out).1.m_pRelPLT = st.m_pRelPLT ∧
    (defineGOTSymbol pBuilder st out).2.format = out.format ∧
    (defineGOTSymbol pBuilder st out).2.elfSegmentTable = out.elfSegmentTable := by
  unfold defineGOTSymbol
  cases st.m_pGOTSymbol <;> exact ⟨rfl, rfl, rfl, rfl, rfl, rfl, rfl⟩

/-- Creating `.dynamic` touches no section size. -/
theorem initDynamic_format (base : GNULDBackend) (out : OutputState) :
    (doPreLayout.initDynamic base out).format = out.format := by
  unfold doPreLayout.initDynamic
  split <;> rfl

/-- The block `set .got size` changes neither the scanner's counters nor a
section other than `.got`. -/
theorem setGOTSize_frame (base : GNULDBackend) (pBuilder : IRBuilder) (st : LinkState)
    (out : OutputState) :
    (doPreLayout.setGOTSize base pBuilder st out).1.resolveInfo = st.resolveInfo ∧
    (doPreLayout.setGOTSize base pBuilder st out).1.m_pGOT = st.m_pGOT ∧
    (doPreLayout.setGOTSize base pBuilder st out).1.m_pPLT = st.m_pPLT ∧
    (doPreLayout.setGOTSize base pBuilder st out).1.m_pRelDyn = st.m_pRelDyn ∧
    (doPreLayout.setGOTSize base pBuilder st out).1.m_pRelPLT = st.m_pRelPLT ∧
    (doPreLayout.setGOTSize base pBuilder st out).2.format.PLT = out.format.PLT ∧
    (doPreLayout.setGOTSize base pBuilder st out).2.format.RelDyn = out.format.RelDyn ∧
    (doPreLayout.setGOTSize base pBuilder st out).2.format.RelPlt = out.format.RelPlt ∧
    (doPreLayout.setGOTSize base pBuilder st out).2.format.GOT
      = (if base.config.codeGenType = CodeGenType.DynObj ∨ st.m_pGOT.hasGOT1 = true ∨
            st.m_pGOTSymbol ≠ none
         then st.m_pGOT.finalizeSectionSize out.format.GOT else out.format.GOT) := by
  unfold doPreLayout.setGOTSize
  split
  · have hf := defineGOTSymbol_frame pBuilder st
      { out with format :=
          { out.format with GOT := st.m_pGOT.finalizeSectionSize out.format.GOT } }
    refine ⟨hf.1, hf.2.1, hf.2.2.1, hf.2.2.2.1, hf.2.2.2.2.1, ?_, ?_, ?_, ?_⟩ <;>
      rw [hf.2.2.2.2.2.1]
  · exact ⟨rfl, rfl, rfl, rfl, rfl, rfl, rfl, rfl, rfl⟩

/-- The block `set .plt size` changes the `.plt` header only. -/
theorem setPLTSize_format (st : LinkState) (out : OutputState) :
    (doPreLayout.setPLTSize st out).format.GOT = out.format.GOT ∧
    (doPreLayout.setPLTSize st out).format.RelDyn = out.format.RelDyn ∧
    (doPreLayout.setPLTSize st out).format.RelPlt = out.format.RelPlt ∧
    (doPreLayout.setPLTSize st out).format.PLT
      = (if st.m_pPLT.hasPLT1 = true then st.m_pPLT.finalizeSectionSize out.format.PLT
         else out.format.PLT) := by
  unfold doPreLayout.setPLTSize
  split <;> exact ⟨rfl, rfl, rfl, rfl⟩

/-- The two blocks that size `.rel.dyn` and `.rel.plt`, when both assertions hold. -/
theorem setRelSizes_some {base : GNULDBackend} {st : LinkState} {out out2 : OutputState}
    (h : doPreLayout.setRelSizes base st out = some out2) :
    doPreLayout.setRelSize base st.m_pRelDyn out.format.RelDyn = some out2.format.RelDyn ∧
    doPreLayout.setRelSize base st.m_pRelPLT out.format.RelPlt = some out2.format.RelPlt ∧
    out2.format.GOT = out.format.GOT ∧ out2.format.PLT = out.format.PLT := by
  unfold doPreLayout.setRelSizes at h
  cases h1 : doPreLayout.setRelSize base st.m_pRelDyn out.format.RelDyn with
  | none => rw [h1] at h; cases h
  | some relDyn =>
    cases h2 : doPreLayout.setRelSize base st.m_pRelPLT out.format.RelPlt with
    | none => rw [h1, h2] at h; cases h
    | some relPlt =>
      rw [h1, h2] at h
      simp only [Option.some.injEq] at h
      subst h
      exact ⟨rfl, rfl, rfl, rfl⟩

/-- The size `doPreLayout` leaves in the section of a relocation table whose
section had size 0: eight times the number of reserved entries. -/
theorem setRelSize_size {base : GNULDBackend} {table : OutputRelocSection}
    {sect sect2 : SectionHeader} (h0 : sect.size = 0)
    (h : doPreLayout.setRelSize base table sect = some sect2) :
    sect2.size = 8 * table.numOfRelocs := by
  unfold doPreLayout.setRelSize at h
  by_cases he : table.empty = true
  · rw [if_neg (by simp [he])] at h
    simp only [Option.some.injEq] at h
    subst h
    have : table.numOfRelocs = 0 := by simpa [OutputRelocSection.empty] using he
    rw [h0, this]
  · rw [if_pos (by simpa using he)] at h
    by_cases hs : base.config.isCodeStatic = true
    · rw [if_pos hs] at h; cases h
    · rw [if_neg hs] at h
      simp only [Option.some.injEq] at h
      subst h
      show table.numOfRelocs * getRelEntrySize = 8 * table.numOfRelocs
      unfold getRelEntrySize
      omega

/-- The assertion of `doPreLayout` holds, so the size is set, when the link
is not static or the table is empty. -/
theorem setRelSize_isSome (base : GNULDBackend) (table : OutputRelocSection)
    (sect : SectionHeader)
    (h : base.config.isCodeStatic = false ∨ table.numOfRelocs = 0) :
    ∃ sect2, doPreLayout.setRelSize base table sect = some sect2 := by
  unfold doPreLayout.setRelSize
  by_cases he : table.empty = true
  · rw [if_neg (by simp [he])]; exact ⟨_, rfl⟩
  · rw [if_pos (by simpa using he)]
    rcases h with h | h
    · rw [if_neg (by simp [h])]; exact ⟨_, rfl⟩
    · exact absurd (by simp [OutputRelocSection.empty, h]) he

/-- What a returning `doPreLayout` has done for an output that is not a
relocatable object. -/
theorem doPreLayout_some {base : GNULDBackend} {pBuilder : IRBuilder} {st st2 : LinkState}
    {out out2 : OutputState} (hcg : base.config.codeGenType ≠ CodeGenType.Object)
    (h : doPreLayout base pBuilder st out = some (st2, out2)) :
    st2.resolveInfo = st.resolveInfo ∧ st2.m_pGOT = st.m_pGOT ∧ st2.m_pPLT = st.m_pPLT ∧
    st2.m_pRelDyn = st.m_pRelDyn ∧ st2.m_pRelPLT = st.m_pRelPLT ∧
    doPreLayout.setRelSize base st.m_pRelDyn out.format.RelDyn = some out2.format.RelDyn ∧
    doPreLayout.setRelSize base st.m_pRelPLT out.format.RelPlt = some out2.format.RelPlt ∧
    out2.format.PLT
      = (if st.m_pPLT.hasPLT1 = true then st.m_pPLT.finalizeSectionSize out.format.PLT
         else out.format.PLT) ∧
    out2.format.GOT
      = (if base.config.codeGenType = CodeGenType.DynObj ∨ st.m_pGOT.hasGOT1 = true ∨
            st.m_pGOTSymbol ≠ none
         then st.m_pGOT.finalizeSectionSize out.format.GOT else out.format.GOT) := by
  unfold doPreLayout at h
  dsimp only at h
  rw [if_pos hcg] at h
  have hg := setGOTSize_frame base pBuilder st (doPreLayout.initDynamic base out)
  have hp := setPLTSize_format
    (doPreLayout.setGOTSize base pBuilder st (doPreLayout.initDynamic base out)).1
    (doPreLayout.setGOTSize base pBuilder st (doPreLayout.initDynamic base out)).2
  have hi := initDynamic_format base out
  cases hr : doPreLayout.setRelSizes base
      (doPreLayout.setGOTSize base pBuilder st (doPreLayout.initDynamic base out)).1
      (doPreLayout.setPLTSize
        (doPreLayout.setGOTSize base pBuilder st (doPreLayout.initDynamic base out)).1
        (doPreLayout.setGOTSize base pBuilder st (doPreLayout.initDynamic base out)).2) with
  | none => rw [hr] at h; cases h
  | some o =>
    rw [hr] at h
    simp only [Option.some.injEq, Prod.mk.injEq] at h
    obtain ⟨h1, h2⟩ := h
    subst h1 h2
    have hs := setRelSizes_some hr
    rw [hp.2.1, hg.2.2.2.2.2.2.1, hi, hg.2.2.2.1] at hs
    rw [hp.2.2.1, hg.2.2.2.2.2.2.2.1, hg.2.2.2.2.1] at hs
    rw [hp.1, hg.2.2.2.2.2.2.2.2, hi] at hs
    rw [hp.2.2.2, hg.2.2.2.2.2.1, hi, hg.2.2.1] at hs
    exact ⟨hg.1, hg.2.1, hg.2.2.1, hg.2.2.2.1, hg.2.2.2.2.1, hs.1, hs.2.1, hs.2.2.2, hs.2.2.1⟩

/-- When both assertions hold, `doPreLayout` returns. -/
theorem doPreLayout_isSome (base : GNULDBackend) (pBuilder : IRBuilder) (st : LinkState)
    (out : OutputState)
    (h : base.config.isCodeStatic = false ∨
         (st.m_pRelDyn.numOfRelocs = 0 ∧ st.m_pRelPLT.numOfRelocs = 0)) :
    ∃ res, doPreLayout base pBuilder st out = some res := by
  unfold doPreLayout
  dsimp only
  by_cases hcg : base.config.codeGenType ≠ CodeGenType.Object
  · rw [if_pos hcg]
    have hg := setGOTSize_frame base pBuilder st (doPreLayout.initDynamic base out)
    obtain ⟨s1, hs1⟩ := setRelSize_isSome base st.m_pRelDyn
      (doPreLayout.setPLTSize
        (doPreLayout.setGOTSize base pBuilder st (doPreLayout.initDynamic base out)).1
        (doPreLayout.setGOTSize base pBuilder st
          (doPreLayout.initDynamic base out)).2).format.RelDyn
      (h.imp id (fun h => h.1))
    obtain ⟨s2, hs2⟩ := setRelSize_isSome base st.m_pRelPLT
      (doPreLayout.setPLTSize
        (doPreLayout.setGOTSize base pBuilder st (doPreLayout.initDynamic base out)).1
        (doPreLayout.setGOTSize base pBuilder st
          (doPreLayout.initDynamic base out)).2).format.RelPlt
      (h.imp id (fun h => h.2))
    unfold doPreLayout.setRelSizes
    rw [hg.2.2.2.1, hg.2.2.2.2.1, hs1, hs2]
    exact ⟨_, rfl⟩
  · rw [if_neg hcg]; exact ⟨_, rfl⟩

/-- C17. For an output that is not a relocatable object and whose `.rel.dyn`
and `.rel.plt` sections start with size 0: after `doPreLayout` the size of
`.rel.dyn` is 8 times the number of reserved `.rel.dyn` entries and the size
of `.rel.plt` is 8 times the number of reserved `.rel.plt` entries, a count
of 0 included. `doPreLayout` returns whenever the link is not static or both
tables are empty. -/
theorem rel_section_sizes (base : GNULDBackend) (pBuilder : IRBuilder) (st : LinkState)
    (out : OutputState) (hcg : base.config.codeGenType ≠ CodeGenType.Object)
    (hdyn : out.format.RelDyn.size = 0) (hplt : out.format.RelPlt.size = 0) :
    ((base.config.isCodeStatic = false ∨
      (st.m_pRelDyn.numOfRelocs = 0 ∧ st.m_pRelPLT.numOfRelocs = 0)) →
        ∃ res, doPreLayout base pBuilder st out = some res) ∧
    ∀ st2 out2, doPreLayout base pBuilder st out = some (st2, out2) →
      out2.format.RelDyn.size = 8 * st.m_pRelDyn.numOfRelocs ∧
      out2.format.RelPlt.size = 8 * st.m_pRelPLT.numOfRelocs ∧
      st2.m_pRelDyn.numOfRelocs = st.m_pRelDyn.numOfRelocs ∧
      st2.m_pRelPLT.numOfRelocs = st.m_pRelPLT.numOfRelocs := by
  refine ⟨doPreLayout_isSome base pBuilder st out, fun st2 out2 h => ?_⟩
  have q := doPreLayout_some hcg h
  exact ⟨setRelSize_size hdyn q.2.2.2.2.2.1, setRelSize_size hplt q.2.2.2.2.2.2.1,
    by rw [q.2.2.2.1], by rw [q.2.2.2.2.1]⟩

/-- Instance of C17: three reserved `.rel.dyn` entries and no `.rel.plt`
entry give the sizes 24 and 0. -/
theorem rel_section_sizes_witness :
    sampleBase.config.codeGenType ≠ CodeGenType.Object ∧
    sampleOutput.format.RelDyn.size = 0 ∧ sampleOutput.format.RelPlt.size = 0 ∧
    (∃ res, doPreLayout sampleBase sampleBuilder
        { sampleState with m_pRelDyn := { sampleState.m_pRelDyn with numOfRelocs := 3 } }
        sampleOutput = some res) ∧
    ∀ st2 out2, doPreLayout sampleBase sampleBuilder
        { sampleState with m_pRelDyn := { sampleState.m_pRelDyn with numOfRelocs := 3 } }
        sampleOutput = some (st2, out2) →
      out2.format.RelDyn.size = 24 ∧ out2.format.RelPlt.size = 0 :=
  ⟨by decide, rfl, rfl,
    (rel_section_sizes sampleBase sampleBuilder
      { sampleState with m_pRelDyn := { sampleState.m_pRelDyn with numOfRelocs := 3 } }
      sampleOutput (by decide) rfl rfl).1 (Or.inl rfl),
    fun st2 out2 h =>
      ⟨((rel_section_sizes sampleBase sampleBuilder
          { sampleState with m_pRelDyn := { sampleState.m_pRelDyn with numOfRelocs := 3 } }
          sampleOutput (by decide) rfl rfl).2 st2 out2 h).1,
       ((rel_section_sizes sampleBase sampleBuilder
          { sampleState with m_pRelDyn := { sampleState.m_pRelDyn with numOfRelocs := 3 } }
          sampleOutput (by decide) rfl rfl).2 st2 out2 h).2.1⟩⟩

/-! ## Scenario S1 through scan and doPreLayout (C18) -/

/-- What the body of the local `R_ARM_ABS32` cases does. -/
theorem scanLocalReloc_abs32_spec (base : GNULDBackend) (st : LinkState) (r : Relocation)
    (pSection : LDSection) :
    (base.config.isCodeIndep = true →
      (scanLocalReloc.abs32 base st r pSection).m_pRelDyn.numOfRelocs
        = st.m_pRelDyn.numOfRelocs + 1 ∧
      ((scanLocalReloc.abs32 base st r pSection).resolveInfo r.symInfo).reserved
        = (st.resolveInfo r.symInfo).reserved ||| ReserveRel ∧
      ((scanLocalReloc.abs32 base st r pSection).resolveInfo r.symInfo).reserved
          &&& ReserveRel ≠ 0 ∧
      (∀ q, q ≠ r.symInfo → (scanLocalReloc.abs32 base st r pSection).resolveInfo q
        = st.resolveInfo q) ∧
      (scanLocalReloc.abs32 base st r pSection).m_pGOT = st.m_pGOT ∧
      (scanLocalReloc.abs32 base st r pSection).m_pPLT = st.m_pPLT ∧
      (scanLocalReloc.abs32 base st r pSection).m_pRelPLT = st.m_pRelPLT) ∧
    (base.config.isCodeIndep = false → scanLocalReloc.abs32 base st r pSection = st) ∧
    (∀ q, ((scanLocalReloc.abs32 base st r pSection).resolveInfo q).binding
      = (st.resolveInfo q).binding) := by
  unfold scanLocalReloc.abs32
  dsimp only
  by_cases hp : base.config.isCodeIndep = true
  · rw [if_pos hp]
    refine ⟨fun _ => ⟨rfl, ?_, ?_, ?_, rfl, rfl, rfl⟩, fun h => absurd hp (by simp [h]), ?_⟩
    · simp [LinkState.checkAndSetHasTextRel, LinkState.setReserved, LinkState.reserveRelDyn]
    · simp only [LinkState.checkAndSetHasTextRel, LinkState.setReserved,
        LinkState.reserveRelDyn, Function.update_same]
      exact lor_land_self_ne_zero _ (by decide)
    · intro q hq
      simp [LinkState.checkAndSetHasTextRel, LinkState.setReserved,
        LinkState.reserveRelDyn, Function.update_noteq hq]
    · intro q
      by_cases hq : q = r.symInfo
      · subst hq
        simp [LinkState.checkAndSetHasTextRel, LinkState.setReserved, LinkState.reserveRelDyn]
      · simp [LinkState.checkAndSetHasTextRel, LinkState.setReserved,
          LinkState.reserveRelDyn, Function.update_noteq hq]
  · rw [if_neg hp]
    exact ⟨fun h => absurd h hp, fun _ => rfl, fun _ => rfl⟩

/-- One `scanRelocation` call on an `R_ARM_ABS32` relocation against a local
symbol, in an allocated section and under PIC: one more `.rel.dyn` entry and
nothing else reserved. -/
theorem scanRelocation_local_abs32_pic (base : GNULDBackend) (st : LinkState)
    (pReloc : Relocation) (pSection : LDSection)
    (hpic : base.config.isCodeIndep = true)
    (ht : pReloc.type = RelocType.R_ARM_ABS32)
    (hl : (st.resolveInfo pReloc.symInfo).isLocal = true)
    (ha : pSection.getLink.flag &&& SHF_ALLOC ≠ 0) :
    ∃ r st1, scanRelocation base st pReloc pSection = some (r, st1) ∧
      st1.m_pRelDyn.numOfRelocs = st.m_pRelDyn.numOfRelocs + 1 ∧
      st1.m_pGOT = st.m_pGOT ∧ st1.m_pPLT = st.m_pPLT ∧ st1.m_pRelPLT = st.m_pRelPLT ∧
      (∀ q, (st1.resolveInfo q).binding = (st.resolveInfo q).binding) := by
  obtain ⟨t, s, a⟩ := pReloc
  simp only at ht
  subst ht
  have hb := scanLocalReloc_abs32_spec base st
    { type := RelocType.R_ARM_ABS32, symInfo := s, addend := base.refreshedAddend
        { type := RelocType.R_ARM_ABS32, symInfo := s, addend := a } } pSection
  have hd : scanLocalReloc base st
        (updateAddend base { type := RelocType.R_ARM_ABS32, symInfo := s, addend := a }) pSection
      = some (_, scanLocalReloc.abs32 base st
          { type := RelocType.R_ARM_ABS32, symInfo := s, addend := base.refreshedAddend
              { type := RelocType.R_ARM_ABS32, symInfo := s, addend := a } } pSection) := rfl
  unfold scanRelocation
  dsimp only
  rw [if_neg ha, if_pos hl, hd]
  dsimp only
  have q := hb.1 hpic
  split
  · exact ⟨_, _, rfl, q.1, q.2.2.2.2.1, q.2.2.2.2.2.1, q.2.2.2.2.2.2, hb.2.2⟩
  · exact ⟨_, _, rfl, q.1, q.2.2.2.2.1, q.2.2.2.2.2.1, q.2.2.2.2.2.2, hb.2.2⟩

/-- A scan of `R_ARM_ABS32` relocations against local symbols, in allocated
sections and under PIC, reserves one `.rel.dyn` entry for each and nothing
in the GOT, the PLT or `.rel.plt`. -/
theorem scanAll_local_abs32_pic (base : GNULDBackend)
    (hpic : base.config.isCodeIndep = true) (calls : List (Relocation × LDSection)) :
    ∀ st : LinkState,
      (∀ c ∈ calls, c.1.type = RelocType.R_ARM_ABS32 ∧
        (st.resolveInfo c.1.symInfo).isLocal = true ∧
        c.2.getLink.flag &&& SHF_ALLOC ≠ 0) →
      ∃ st1, scanAll base st calls = some st1 ∧
        st1.m_pRelDyn.numOfRelocs = st.m_pRelDyn.numOfRelocs + calls.length ∧
        st1.m_pGOT = st.m_pGOT ∧ st1.m_pPLT = st.m_pPLT ∧ st1.m_pRelPLT = st.m_pRelPLT := by
  induction calls with
  | nil => intro st _; exact ⟨st, rfl, rfl, rfl, rfl, rfl⟩
  | cons c rest ih =>
    intro st hc
    obtain ⟨pReloc, pSection⟩ := c
    have h1 := hc (pReloc, pSection) (List.mem_cons_self _ _)
    obtain ⟨r, st0, hs, hn, hg, hp, hq, hb⟩ :=
      scanRelocation_local_abs32_pic base st pReloc pSection hpic h1.1 h1.2.1 h1.2.2
    have hrest : ∀ c ∈ rest, c.1.type = RelocType.R_ARM_ABS32 ∧
        (st0.resolveInfo c.1.symInfo).isLocal = true ∧
        c.2.getLink.flag &&& SHF_ALLOC ≠ 0 := by
      intro c hcm
      have h2 := hc c (List.mem_cons_of_mem _ hcm)
      refine ⟨h2.1, ?_, h2.2.2⟩
      unfold ResolveInfo.isLocal
      rw [hb]
      exact h2.2.1
    obtain ⟨st1, hs1, hn1, hg1, hp1, hq1⟩ := ih st0 hrest
    refine ⟨st1, by simp only [scanAll, hs, hs1], ?_, hg1.trans hg, hp1.trans hp,
      hq1.trans hq⟩
    rw [hn1, hn, List.length_cons]
    omega

/-- C18 as stated fails in scenario S1 itself: a shared-object, PIC link
that scans one `R_ARM_ABS32` relocation of `.text` against the local symbol
`loc`, with sections of size 0 before `doPreLayout`. `.rel.dyn` holds one
entry and `.got` has size 12, but no PLT1 entry exists, so `doPreLayout` does
not finalize `.plt`: its size is 0, not 20. -/
theorem s1_plt_size_counterexample :
    sampleBase.config.codeGenType = CodeGenType.DynObj ∧
    sampleBase.config.isCodeIndep = true ∧
    sampleState.isEmpty ∧
    (sampleState.resolveInfo 2).isLocal = true ∧
    sampleRelText.getLink.flag &&& SHF_ALLOC ≠ 0 ∧
    ∃ st1 st2 out2,
      scanAll sampleBase sampleState
        [({ type := RelocType.R_ARM_ABS32, symInfo := 2, addend := 0 }, sampleRelText)]
        = some st1 ∧
      doPreLayout sampleBase sampleBuilder st1 sampleOutput = some (st2, out2) ∧
      st2.m_pRelDyn.numOfRelocs = 1 ∧ st2.m_pGOT.got = 0 ∧ st2.m_pGOT.gotplt = 0 ∧
      st2.m_pPLT.plt1 = 0 ∧ out2.format.GOT.size = 12 ∧
      out2.format.PLT.size = 0 ∧ out2.format.PLT.size ≠ 20 := by
  refine ⟨rfl, rfl, LinkState.initial_isEmpty _ _, rfl, by decide, _, _, _, rfl, rfl,
    rfl, rfl, rfl, rfl, rfl, rfl, ?_⟩
  decide

/-- C18, amended. In a shared-object, PIC link that starts from the empty
state and scans only `R_ARM_ABS32` relocations against local symbols in
`SHF_ALLOC` sections, the scan returns; `doPreLayout` then returns when the
link is not static, and after it `.rel.dyn` holds exactly as many reserved
entries as relocations were scanned, no GOT entry beyond the header and no
PLT1 entry exists, `.got` has size 12 and `.plt` has the size it had before
`doPreLayout`. -/
theorem s1_local_abs32_link (base : GNULDBackend) (pBuilder : IRBuilder) (st : LinkState)
    (out : OutputState) (calls : List (Relocation × LDSection))
    (hdyn : base.config.codeGenType = CodeGenType.DynObj)
    (hpic : base.config.isCodeIndep = true) (hempty : st.isEmpty)
    (hcalls : ∀ c ∈ calls, c.1.type = RelocType.R_ARM_ABS32 ∧
      (st.resolveInfo c.1.symInfo).isLocal = true ∧ c.2.getLink.flag &&& SHF_ALLOC ≠ 0) :
    ∃ st1, scanAll base st calls = some st1 ∧
      (base.config.isCodeStatic = false →
        ∃ res, doPreLayout base pBuilder st1 out = some res) ∧
      ∀ st2 out2, doPreLayout base pBuilder st1 out = some (st2, out2) →
        st2.m_pRelDyn.numOfRelocs = calls.length ∧
        st2.m_pGOT.got = 0 ∧ st2.m_pGOT.gotplt = 0 ∧ st2.m_pPLT.plt1 = 0 ∧
        out2.format.GOT.size = 12 ∧
        out2.format.PLT.size = out.format.PLT.size := by
  obtain ⟨-, hg, hgp, hp, hr, -⟩ := hempty
  obtain ⟨st1, hs, hn, hgot, hplt, -⟩ := scanAll_local_abs32_pic base hpic calls st hcalls
  have hcg : base.config.codeGenType ≠ CodeGenType.Object := by
    rw [hdyn]; exact fun h => CodeGenType.noConfusion h
  refine ⟨st1, hs, fun hst => doPreLayout_isSome base pBuilder st1 out (Or.inl hst), ?_⟩
  intro st2 out2 h
  have q := doPreLayout_some hcg h
  have hg1 : st1.m_pGOT.got = 0 := by rw [hgot, hg]
  have hgp1 : st1.m_pGOT.gotplt = 0 := by rw [hgot, hgp]
  have hp1 : st1.m_pPLT.plt1 = 0 := by rw [hplt, hp]
  refine ⟨by rw [q.2.2.2.1, hn, hr, Nat.zero_add], by rw [q.2.1, hg1], by rw [q.2.1, hgp1],
    by rw [q.2.2.1, hp1], ?_, ?_⟩
  · rw [q.2.2.2.2.2.2.2.2, if_pos (Or.inl hdyn)]
    simp [ARMGOT.finalizeSectionSize, hg1, hgp1]
  · rw [q.2.2.2.2.2.2.2.1, if_neg]
    simp [ARMPLT.hasPLT1, hp1]

/-- Instance of C18 (amended): scenario S1, one `R_ARM_ABS32` relocation of
`.text` against the local symbol `loc` in the sample shared-object link. -/
theorem s1_local_abs32_link_witness :
    sampleState.isEmpty ∧
    ∃ st1, scanAll sampleBase sampleState
        [({ type := RelocType.R_ARM_ABS32, symInfo := 2, addend := 0 }, sampleRelText)]
        = some st1 ∧
      (∃ res, doPreLayout sampleBase sampleBuilder st1 sampleOutput = some res) ∧
      ∀ st2 out2, doPreLayout sampleBase sampleBuilder st1 sampleOutput = some (st2, out2) →
        st2.m_pRelDyn.numOfRelocs = 1 ∧ out2.format.GOT.size = 12 ∧
        out2.format.PLT.size = 0 := by
  have h0 := LinkState.initial_isEmpty sampleInfo (some { resolveInfo := 0 })
  obtain ⟨st1, hs, hret, hall⟩ := s1_local_abs32_link sampleBase sampleBuilder sampleState
    sampleOutput
    [({ type := RelocType.R_ARM_ABS32, symInfo := 2, addend := 0 }, sampleRelText)]
    rfl rfl h0
    (by
      intro c hc
      rw [List.mem_singleton] at hc
      subst hc
      exact ⟨rfl, rfl, by decide⟩)
  refine ⟨h0, st1, hs, hret rfl, fun st2 out2 h => ?_⟩
  have q := hall st2 out2 h
  exact ⟨q.1, q.2.2.2.2.1, q.2.2.2.2.2⟩

/-! ## Section order and program headers (C19, C20) -/

/-- C19. The four objects `.got`, `.plt`, `.ARM.exidx` and `.ARM.extab`
being distinct, `getTargetSectionOrder` returns `SHO_RELRO_LAST` for `.got`
when `-z now` is set and `SHO_DATA` for `.got` otherwise, `SHO_PLT` for
`.plt`, `SHO_EXCEPTION` for `.ARM.exidx` and for `.ARM.extab`, and
`SHO_UNDEFINED` for every other section. -/
theorem section_order (base : GNULDBackend) (out : OutputState) (pSectHdr : SectionHeader)
    (hd : out.distinctSections) :
    (pSectHdr.addr = out.format.GOT.addr → base.config.hasNow = true →
      getTargetSectionOrder base out pSectHdr = SectionOrder.SHO_RELRO_LAST) ∧
    (pSectHdr.addr = out.format.GOT.addr → base.config.hasNow = false →
      getTargetSectionOrder base out pSectHdr = SectionOrder.SHO_DATA) ∧
    (pSectHdr.addr = out.format.PLT.addr →
      getTargetSectionOrder base out pSectHdr = SectionOrder.SHO_PLT) ∧
    (pointsAt out.m_pEXIDX pSectHdr = true ∨ pointsAt out.m_pEXTAB pSectHdr = true →
      getTargetSectionOrder base out pSectHdr = SectionOrder.SHO_EXCEPTION) ∧
    (pSectHdr.addr ≠ out.format.GOT.addr → pSectHdr.addr ≠ out.format.PLT.addr →
      pointsAt out.m_pEXIDX pSectHdr = false → pointsAt out.m_pEXTAB pSectHdr = false →
      getTargetSectionOrder base out pSectHdr = SectionOrder.SHO_UNDEFINED) := by
  obtain ⟨hgp, hx, ht⟩ := hd
  have hpt : ∀ p : Option SectionHeader,
      (∀ s, p = some s → s.addr ≠ out.format.GOT.addr ∧ s.addr ≠ out.format.PLT.addr) →
      pointsAt p pSectHdr = true →
      pSectHdr.addr ≠ out.format.GOT.addr ∧ pSectHdr.addr ≠ out.format.PLT.addr := by
    intro p hp h
    cases p with
    | none => cases h
    | some q =>
      have he : q.addr = pSectHdr.addr := by simpa [pointsAt] using h
      rw [← he]
      exact hp q rfl
  unfold getTargetSectionOrder
  refine ⟨?_, ?_, ?_, ?_, ?_⟩
  · intro h1 h2
    rw [if_pos h1, if_pos h2]
  · intro h1 h2
    rw [if_pos h1, if_neg (by simp [h2])]
  · intro h1
    rw [if_neg (by rw [h1]; exact fun h => hgp h.symm), if_pos h1]
  · intro h
    have hne : pSectHdr.addr ≠ out.format.GOT.addr ∧ pSectHdr.addr ≠ out.format.PLT.addr := by
      rcases h with h | h
      · exact hpt _ hx h
      · exact hpt _ ht h
    rw [if_neg hne.1, if_neg hne.2, if_pos]
    rcases h with h | h <;> simp [h]
  · intro h1 h2 h3 h4
    rw [if_neg h1, if_neg h2, if_neg (by simp [h3, h4])]

/-- Instance of C19 on the sample output: `.got` without `-z now`, `.plt`,
`.ARM.exidx`, `.ARM.extab` and `.rel.dyn`. -/
theorem section_order_witness :
    sampleOutput.distinctSections ∧
    getTargetSectionOrder sampleBase sampleOutput sampleOutput.format.GOT
      = SectionOrder.SHO_DATA ∧
    getTargetSectionOrder sampleBase sampleOutput sampleOutput.format.PLT
      = SectionOrder.SHO_PLT ∧
    getTargetSectionOrder sampleBase sampleOutput { addr := 104, name := ".ARM.exidx", size := 0 }
      = SectionOrder.SHO_EXCEPTION ∧
    getTargetSectionOrder sampleBase sampleOutput { addr := 105, name := ".ARM.extab", size := 0 }
      = SectionOrder.SHO_EXCEPTION ∧
    getTargetSectionOrder sampleBase sampleOutput sampleOutput.format.RelDyn
      = SectionOrder.SHO_UNDEFINED := by
  have hd : sampleOutput.distinctSections := by
    refine ⟨by decide, ?_, ?_⟩
    · intro s hs
      have : s = { addr := 104, name := ".ARM.exidx", size := 0 } :=
        (Option.some.inj hs).symm
      rw [this]; exact ⟨by decide, by decide⟩
    · intro s hs
      have : s = { addr := 105, name := ".ARM.extab", size := 0 } :=
        (Option.some.inj hs).symm
      rw [this]; exact ⟨by decide, by decide⟩
  exact ⟨hd,
    (section_order sampleBase sampleOutput sampleOutput.format.GOT hd).2.1 rfl rfl,
    (section_order sampleBase sampleOutput sampleOutput.format.PLT hd).2.2.1 rfl,
    (section_order sampleBase sampleOutput _ hd).2.2.2.1 (Or.inl rfl),
    (section_order sampleBase sampleOutput _ hd).2.2.2.1 (Or.inr rfl),
    (section_order sampleBase sampleOutput sampleOutput.format.RelDyn hd).2.2.2.2
      (by decide) (by decide) rfl rfl⟩

/-- C20. `doCreateProgramHdrs` adds a segment exactly when `.ARM.exidx`
exists with a size that is not zero; what it adds is one segment at the end
of the table, of type `PT_ARM_EXIDX` with flags `PF_R`, holding exactly the
`.ARM.exidx` section; otherwise the output, its segment table included, is
as it was. -/
theorem exidx_segment (out : OutputState) :
    ((doCreateProgramHdrs out).elfSegmentTable.length = out.elfSegmentTable.length + 1 ↔
      ∃ exidx, out.m_pEXIDX = some exidx ∧ exidx.size ≠ 0) ∧
    (∀ exidx, out.m_pEXIDX = some exidx → exidx.size ≠ 0 →
      (doCreateProgramHdrs out).elfSegmentTable
        = out.elfSegmentTable ++
            [{ type := PT_ARM_EXIDX, flag := PF_R, sections := [exidx] }]) ∧
    (¬ (∃ exidx, out.m_pEXIDX = some exidx ∧ exidx.size ≠ 0) →
      doCreateProgramHdrs out = out) ∧
    (doCreateProgramHdrs out).format = out.format ∧
    (doCreateProgramHdrs out).m_pEXIDX = out.m_pEXIDX := by
  cases hx : out.m_pEXIDX with
  | none =>
    have hr : doCreateProgramHdrs out = out := by
      unfold doCreateProgramHdrs
      rw [hx]
    rw [hr]
    refine ⟨⟨fun h => absurd h (by simp), ?_⟩, ?_, fun _ => rfl, rfl, hx⟩
    · rintro ⟨e, he, -⟩
      cases he
    · intro e he
      cases he
  | some exidx =>
    by_cases hs : exidx.size = 0
    · have hr : doCreateProgramHdrs out = out := by
        unfold doCreateProgramHdrs
        rw [hx]
        exact if_neg (fun h => h hs.symm)
      rw [hr]
      refine ⟨⟨fun h => absurd h (by simp), ?_⟩, ?_, fun _ => rfl, rfl, hx⟩
      · rintro ⟨e, he, hne⟩
        rw [← Option.some.inj he] at hne
        exact absurd hs hne
      · intro e he hne
        rw [← Option.some.inj he] at hne
        exact absurd hs hne
    · have hr : doCreateProgramHdrs out
          = { out with elfSegmentTable := out.elfSegmentTable ++
                [(ELFSegment.produce PT_ARM_EXIDX PF_R).addSection exidx] } := by
        unfold doCreateProgramHdrs
        rw [hx]
        exact if_pos (fun h => hs h.symm)
      rw [hr]
      refine ⟨⟨fun _ => ⟨exidx, rfl, hs⟩, fun _ => by simp⟩, ?_,
        fun h => absurd ⟨exidx, rfl, hs⟩ h, rfl, hx⟩
      intro e he _
      rw [← Option.some.inj he]
      rfl

/-- Instance of C20: with 16 bytes in `.ARM.exidx` the segment table of the
sample output gets its one `PT_ARM_EXIDX` segment; with an empty
`.ARM.exidx` the output is as it was. -/
theorem exidx_segment_witness :
    (doCreateProgramHdrs sampleOutputWithExidx).elfSegmentTable
      = [{ type := 0x70000001, flag := 0x4,
           sections := [{ addr := 104, name := ".ARM.exidx", size := 16 }] }] ∧
    doCreateProgramHdrs sampleOutput = sampleOutput :=
  ⟨(exidx_segment sampleOutputWithExidx).2.1 _ rfl (by decide),
   (exidx_segment sampleOutput).2.2.1 (by
      rintro ⟨e, he, hne⟩
      rw [← Option.some.inj he] at hne
      exact hne rfl)⟩

/-! ## Copy relocations (C26) -/

/-- What `AppendFragment` does to the section data: the old fragments stay in
front and the appended fragment is the last one. -/
theorem AppendFragment_spec (frag : Fragment) (sd : List Fragment) (align : Nat) :
    sd <+: (AppendFragment frag sd align).2 ∧
    (AppendFragment frag sd align).2.getLast? = some frag := by
  unfold AppendFragment
  simp only []
  split
  · exact ⟨List.prefix_append _ _, by simp⟩
  · exact ⟨List.prefix_append _ _, by simp⟩

/-- C26. For every symbol handed to `defineSymbolforCopyReloc`: the section
data of `.tbss` (thread-local symbol) or of `.bss` (any other symbol) becomes
the result of appending, aligned to `bitclass / 8`, a fill fragment of value
zero and of the symbol's size, which is then its last fragment behind the
fragments it had; the size of that section grows by the size the append
returned (in 64-bit unsigned arithmetic, so exactly by that size when the sum
is below `2 ^ 64`); the other of the two sections is
untouched; and the symbol defined has the name, type, size and visibility of
the original, is defined, and has binding `Global` if the original was `Weak`
and the original binding otherwise, hence never `Weak`. -/
theorem copy_symbol_definition (base : GNULDBackend) (st : LinkState) (pSym : ResolveInfo) :
    (pSym.type = SymType.ThreadLocal →
      (defineSymbolforCopyReloc base st pSym).2.tbss.sectionData
        = some (AppendFragment (Fragment.Fillment 0x0 1 pSym.size)
            (st.tbss.sectionData.getD []) ((base.config.bitclass / 8) % 2 ^ 32)).2 ∧
      (defineSymbolforCopyReloc base st pSym).2.tbss.size
        = (st.tbss.size + (AppendFragment (Fragment.Fillment 0x0 1 pSym.size)
            (st.tbss.sectionData.getD []) ((base.config.bitclass / 8) % 2 ^ 32)).1) % 2 ^ 64 ∧
      (st.tbss.size + (AppendFragment (Fragment.Fillment 0x0 1 pSym.size)
            (st.tbss.sectionData.getD []) ((base.config.bitclass / 8) % 2 ^ 32)).1 < 2 ^ 64 →
        (defineSymbolforCopyReloc base st pSym).2.tbss.size
          = st.tbss.size + (AppendFragment (Fragment.Fillment 0x0 1 pSym.size)
              (st.tbss.sectionData.getD []) ((base.config.bitclass / 8) % 2 ^ 32)).1) ∧
      (defineSymbolforCopyReloc base st pSym).2.bss = st.bss) ∧
    (pSym.type ≠ SymType.ThreadLocal →
      (defineSymbolforCopyReloc base st pSym).2.bss.sectionData
        = some (AppendFragment (Fragment.Fillment 0x0 1 pSym.size)
            (st.bss.sectionData.getD []) ((base.config.bitclass / 8) % 2 ^ 32)).2 ∧
      (defineSymbolforCopyReloc base st pSym).2.bss.size
        = (st.bss.size + (AppendFragment (Fragment.Fillment 0x0 1 pSym.size)
            (st.bss.sectionData.getD []) ((base.config.bitclass / 8) % 2 ^ 32)).1) % 2 ^ 64 ∧
      (st.bss.size + (AppendFragment (Fragment.Fillment 0x0 1 pSym.size)
            (st.bss.sectionData.getD []) ((base.config.bitclass / 8) % 2 ^ 32)).1 < 2 ^ 64 →
        (defineSymbolforCopyReloc base st pSym).2.bss.size
          = st.bss.size + (AppendFragment (Fragment.Fillment 0x0 1 pSym.size)
              (st.bss.sectionData.getD []) ((base.config.bitclass / 8) % 2 ^ 32)).1) ∧
      (defineSymbolforCopyReloc base st pSym).2.tbss = st.tbss) ∧
    (∀ sd : List Fragment,
      sd <+: (AppendFragment (Fragment.Fillment 0x0 1 pSym.size) sd
                ((base.config.bitclass / 8) % 2 ^ 32)).2 ∧
      (AppendFragment (Fragment.Fillment 0x0 1 pSym.size) sd
                ((base.config.bitclass / 8) % 2 ^ 32)).2.getLast?
        = some (Fragment.Fillment 0x0 1 pSym.size)) ∧
    (defineSymbolforCopyReloc base st pSym).1.name = pSym.name ∧
    (defineSymbolforCopyReloc base st pSym).1.type = pSym.type ∧
    (defineSymbolforCopyReloc base st pSym).1.size = pSym.size ∧
    (defineSymbolforCopyReloc base st pSym).1.visibility = pSym.other ∧
    (defineSymbolforCopyReloc base st pSym).1.desc = Desc.Define ∧
    (defineSymbolforCopyReloc base st pSym).1.binding
      = (if pSym.binding = Binding.Weak then Binding.Global else pSym.binding) ∧
    (defineSymbolforCopyReloc base st pSym).1.binding ≠ Binding.Weak ∧
    (defineSymbolforCopyReloc base st pSym).2.definedSymbols
      = st.definedSymbols ++ [(defineSymbolforCopyReloc base st pSym).1] := by
  refine ⟨?_, ?_, fun sd => AppendFragment_spec _ sd _, rfl, rfl, rfl, rfl, rfl, ?_, ?_, ?_⟩
  · intro h
    unfold defineSymbolforCopyReloc
    simp only [h, beq_self_eq_true, if_true]
    generalize st.tbss.sectionData = o
    cases o <;> simp
  · intro h
    have hb : (pSym.type == SymType.ThreadLocal) = false := by
      simpa using h
    unfold defineSymbolforCopyReloc
    simp only [hb, Bool.false_eq_true, if_false]
    generalize st.bss.sectionData = o
    cases o <;> simp
  · unfold defineSymbolforCopyReloc
    simp only []
    by_cases hw : pSym.binding = Binding.Weak
    · simp [hw]
    · have hb : (pSym.binding == Binding.Weak) = false := by simpa using hw
      simp [hw, hb]
  · unfold defineSymbolforCopyReloc
    simp only []
    by_cases hw : pSym.binding = Binding.Weak
    · simp [hw]
    · have hb : (pSym.binding == Binding.Weak) = false := by simpa using hw
      simp [hb, hw]
  · unfold defineSymbolforCopyReloc
    simp only []
    split <;> rfl

/-- Instance of C26, the scenario S3: the weak data symbol `g` of 8 bytes of
a shared library gets its copy in the empty `.bss`, whose size becomes 8, and
the copy symbol is global. -/
theorem copy_symbol_definition_witness :
    (defineSymbolforCopyReloc sampleBase sampleState sampleWeakData).2.bss.size = 8 ∧
    (defineSymbolforCopyReloc sampleBase sampleState sampleWeakData).2.bss.sectionData
      = some [Fragment.Alignment 0 1 0, Fragment.Fillment 0 1 8] ∧
    (defineSymbolforCopyReloc sampleBase sampleState sampleWeakData).1.binding
      = Binding.Global ∧
    (defineSymbolforCopyReloc sampleBase sampleState sampleWeakData).1.binding
      ≠ Binding.Weak :=
  ⟨by rw [((copy_symbol_definition sampleBase sampleState sampleWeakData).2.1
        (by decide)).2.2.1 (by decide)]; rfl,
   by rw [((copy_symbol_definition sampleBase sampleState sampleWeakData).2.1
        (by decide)).1]; rfl,
   by rw [(copy_symbol_definition sampleBase sampleState
        sampleWeakData).2.2.2.2.2.2.2.2.1]; rfl,
   (copy_symbol_definition sampleBase sampleState sampleWeakData).2.2.2.2.2.2.2.2.2.1⟩

/-! ## The rewritten types are aliases (C28) -/

/-- C28. In every state, for every symbol and section, `scanLocalReloc` and
`scanGlobalReloc` give for an `R_ARM_TARGET1` relocation the very result they
give for the `R_ARM_ABS32` relocation with the same symbol and addend, and
for an `R_ARM_TARGET2` relocation the result they give for `R_ARM_GOT_PREL`:
the same state (counters, masks, `.bss`, diagnostics) and the relocation with
the rewritten type, so the rewrite of the type is the only difference. The
state after `scanRelocation` is the same as well when `updateAddend` computes
the same addend for both relocations. -/
theorem target_alias (base : GNULDBackend) (st : LinkState) (symInfo : Nat) (addend : Int)
    (pSection : LDSection) :
    (scanLocalReloc base st
        { type := RelocType.R_ARM_TARGET1, symInfo := symInfo, addend := addend } pSection
      = scanLocalReloc base st
        { type := RelocType.R_ARM_ABS32, symInfo := symInfo, addend := addend } pSection ∧
     scanGlobalReloc base st
        { type := RelocType.R_ARM_TARGET1, symInfo := symInfo, addend := addend } pSection
      = scanGlobalReloc base st
        { type := RelocType.R_ARM_ABS32, symInfo := symInfo, addend := addend } pSection ∧
     scanLocalReloc base st
        { type := RelocType.R_ARM_TARGET2, symInfo := symInfo, addend := addend } pSection
      = scanLocalReloc base st
        { type := RelocType.R_ARM_GOT_PREL, symInfo := symInfo, addend := addend } pSection ∧
     scanGlobalReloc base st
        { type := RelocType.R_ARM_TARGET2, symInfo := symInfo, addend := addend } pSection
      = scanGlobalReloc base st
        { type := RelocType.R_ARM_GOT_PREL, symInfo := symInfo, addend := addend } pSection) ∧
    ((∃ st1, scanLocalReloc base st
        { type := RelocType.R_ARM_TARGET1, symInfo := symInfo, addend := addend } pSection
      = some ({ type := RelocType.R_ARM_ABS32, symInfo := symInfo, addend := addend }, st1)) ∧
     (∃ st1, scanGlobalReloc base st
        { type := RelocType.R_ARM_TARGET1, symInfo := symInfo, addend := addend } pSection
      = some ({ type := RelocType.R_ARM_ABS32, symInfo := symInfo, addend := addend }, st1)) ∧
     (∃ st1, scanLocalReloc base st
        { type := RelocType.R_ARM_TARGET2, symInfo := symInfo, addend := addend } pSection
      = some ({ type := RelocType.R_ARM_GOT_PREL, symInfo := symInfo, addend := addend },
              st1)) ∧
     (∃ st1, scanGlobalReloc base st
        { type := RelocType.R_ARM_TARGET2, symInfo := symInfo, addend := addend } pSection
      = some ({ type := RelocType.R_ARM_GOT_PREL, symInfo := symInfo, addend := addend },
              st1))) ∧
    (base.refreshedAddend
        { type := RelocType.R_ARM_TARGET1, symInfo := symInfo, addend := addend }
      = base.refreshedAddend
        { type := RelocType.R_ARM_ABS32, symInfo := symInfo, addend := addend } →
     (scanRelocation base st
        { type := RelocType.R_ARM_TARGET1, symInfo := symInfo, addend := addend }
        pSection).map Prod.snd
      = (scanRelocation base st
        { type := RelocType.R_ARM_ABS32, symInfo := symInfo, addend := addend }
        pSection).map Prod.snd) ∧
    (base.refreshedAddend
        { type := RelocType.R_ARM_TARGET2, symInfo := symInfo, addend := addend }
      = base.refreshedAddend
        { type := RelocType.R_ARM_GOT_PREL, symInfo := symInfo, addend := addend } →
     (scanRelocation base st
        { type := RelocType.R_ARM_TARGET2, symInfo := symInfo, addend := addend }
        pSection).map Prod.snd
      = (scanRelocation base st
        { type := RelocType.R_ARM_GOT_PREL, symInfo := symInfo, addend := addend }
        pSection).map Prod.snd) := by
  have hl1 : ∀ a : Int, scanLocalReloc base st
        { type := RelocType.R_ARM_TARGET1, symInfo := symInfo, addend := a } pSection
      = scanLocalReloc base st
        { type := RelocType.R_ARM_ABS32, symInfo := symInfo, addend := a } pSection :=
    fun _ => rfl
  have hg1 : ∀ a : Int, scanGlobalReloc base st
        { type := RelocType.R_ARM_TARGET1, symInfo := symInfo, addend := a } pSection
      = scanGlobalReloc base st
        { type := RelocType.R_ARM_ABS32, symInfo := symInfo, addend := a } pSection :=
    fun _ => rfl
  have hl2 : ∀ a : Int, scanLocalReloc base st
        { type := RelocType.R_ARM_TARGET2, symInfo := symInfo, addend := a } pSection
      = scanLocalReloc base st
        { type := RelocType.R_ARM_GOT_PREL, symInfo := symInfo, addend := a } pSection :=
    fun _ => rfl
  have hg2 : ∀ a : Int, scanGlobalReloc base st
        { type := RelocType.R_ARM_TARGET2, symInfo := symInfo, addend := a } pSection
      = scanGlobalReloc base st
        { type := RelocType.R_ARM_GOT_PREL, symInfo := symInfo, addend := a } pSection :=
    fun _ => rfl
  refine ⟨⟨hl1 addend, hg1 addend, hl2 addend, hg2 addend⟩,
    ⟨⟨_, rfl⟩, ⟨_, rfl⟩, ⟨_, rfl⟩, ⟨_, rfl⟩⟩, ?_, ?_⟩
  · intro h
    unfold scanRelocation updateAddend
    simp only []
    rw [h, hl1, hg1]
    split
    · rfl
    · rfl
  · intro h
    unfold scanRelocation updateAddend
    simp only []
    rw [h, hl2, hg2]
    split
    · rfl
    · rfl

/-- Instance of C28 in the sample link: `R_ARM_TARGET1` and `R_ARM_ABS32`
against the function `foo`, and `R_ARM_TARGET2` and `R_ARM_GOT_PREL` against
the local `loc`, scanned by `scanRelocation`. -/
theorem target_alias_witness :
    (scanRelocation sampleBase sampleState
        { type := RelocType.R_ARM_TARGET1, symInfo := 1, addend := 0 }
        sampleRelText).map Prod.snd
      = (scanRelocation sampleBase sampleState
        { type := RelocType.R_ARM_ABS32, symInfo := 1, addend := 0 }
        sampleRelText).map Prod.snd ∧
    (scanRelocation sampleBase sampleState
        { type := RelocType.R_ARM_TARGET2, symInfo := 2, addend := 0 }
        sampleRelText).map Prod.snd
      = (scanRelocation sampleBase sampleState
        { type := RelocType.R_ARM_GOT_PREL, symInfo := 2, addend := 0 }
        sampleRelText).map Prod.snd :=
  ⟨(target_alias sampleBase sampleState 1 0 sampleRelText).2.2.1 rfl,
   (target_alias sampleBase sampleState 2 0 sampleRelText).2.2.2 rfl⟩

/-! ## Local symbols and the PLT (C29) -/

/-- Outside the absolute-32 and the GOT cases, `scanLocalReloc` does nothing
to the state but report a diagnostic. -/
theorem scanLocalReloc_outside {base : GNULDBackend} {st st1 : LinkState}
    {pReloc r1 : Relocation} {pSection : LDSection}
    (ht : pReloc.type ∉ [RelocType.R_ARM_TARGET1, RelocType.R_ARM_ABS32,
            RelocType.R_ARM_ABS32_NOI, RelocType.R_ARM_TARGET2, RelocType.R_ARM_GOT_BREL,
            RelocType.R_ARM_GOT_PREL])
    (hs : scanLocalReloc base st pReloc pSection = some (r1, st1)) :
    st1 = st ∨ ∃ d, st1 = st.report d := by
  obtain ⟨t, s, a⟩ := pReloc
  cases t <;> simp only [scanLocalReloc, Relocation.setType] at hs
  all_goals try split at hs
  all_goals try split at hs
  all_goals first
    | (cases hs; done)
    | (simp only [Option.some.injEq, Prod.mk.injEq] at hs
       obtain ⟨-, rfl⟩ := hs
       first
        | exact Or.inl rfl
        | exact Or.inr ⟨_, rfl⟩)
    | (simp at ht)

/-- The PLT bit of every mask is the same before and after the body of the
local absolute-32 cases. -/
theorem scanLocalReloc_abs32_pltbit (base : GNULDBackend) (st : LinkState) (r : Relocation)
    (pSection : LDSection) (p : Nat) :
    ((scanLocalReloc.abs32 base st r pSection).resolveInfo p).reserved &&& ReservePLT
      = (st.resolveInfo p).reserved &&& ReservePLT := by
  have q := scanLocalReloc_abs32_spec base st r pSection
  cases hpic : base.config.isCodeIndep with
  | false => rw [q.2.1 hpic]
  | true =>
    have q1 := q.1 hpic
    by_cases hp : p = r.symInfo
    · subst hp
      rw [q1.2.1]
      exact mask_or_Rel_PLT _
    · rw [q1.2.2.2.1 p hp]

/-- The PLT bit of every mask is the same before and after the body of the
local GOT cases. -/
theorem scanLocalReloc_got_pltbit (base : GNULDBackend) (st : LinkState) (r : Relocation)
    (p : Nat) :
    ((scanLocalReloc.got base st r).resolveInfo p).reserved &&& ReservePLT
      = (st.resolveInfo p).reserved &&& ReservePLT := by
  have q := scanLocalReloc_got_spec base st r
  by_cases hset : (st.resolveInfo r.symInfo).reserved &&& ReserveGOT ≠ 0 ∨
      (st.resolveInfo r.symInfo).reserved &&& GOTRel ≠ 0
  · rw [q.1 hset]
  · have hz : (st.resolveInfo r.symInfo).reserved &&& ReserveGOT = 0 ∧
        (st.resolveInfo r.symInfo).reserved &&& GOTRel = 0 := by
      constructor
      · by_contra h; exact hset (Or.inl h)
      · by_contra h; exact hset (Or.inr h)
    have q2 := q.2 hz
    by_cases hp : p = r.symInfo
    · subst hp
      cases hpic : base.config.isCodeIndep with
      | true =>
        rw [(q2.2.2.2.2.2.1 hpic).2.1]
        exact mask_or_GOTRel_PLT _
      | false =>
        rw [(q2.2.2.2.2.2.2 hpic).2.1]
        exact mask_or_GOT_PLT _
    · rw [q2.2.2.2.2.1 p hp]

/-- The local GOT cases leave the PLT and `.rel.plt` alone. -/
theorem scanLocalReloc_got_plt (base : GNULDBackend) (st : LinkState) (r : Relocation) :
    (scanLocalReloc.got base st r).m_pPLT = st.m_pPLT ∧
    (scanLocalReloc.got base st r).m_pRelPLT = st.m_pRelPLT := by
  unfold scanLocalReloc.got
  simp only []
  split
  · exact ⟨rfl, rfl⟩
  · split <;> exact ⟨rfl, rfl⟩

/-- The local absolute-32 cases leave the PLT and `.rel.plt` alone. -/
theorem scanLocalReloc_abs32_plt (base : GNULDBackend) (st : LinkState) (r : Relocation)
    (pSection : LDSection) :
    (scanLocalReloc.abs32 base st r pSection).m_pPLT = st.m_pPLT ∧
    (scanLocalReloc.abs32 base st r pSection).m_pRelPLT = st.m_pRelPLT := by
  unfold scanLocalReloc.abs32
  simp only []
  split <;> exact ⟨rfl, rfl⟩

/-- C29. `scanLocalReloc` returns for every type but `R_ARM_BASE_PREL` with a
null `m_pGOTSymbol`, and whenever it returns, whatever the type and the
configuration: the PLT (its PLT1 count) and `.rel.plt` are as before and the
`ReservePLT` bit of every mask is as before; and for a type outside
`R_ARM_TARGET1`, `R_ARM_ABS32`, `R_ARM_ABS32_NOI`, `R_ARM_TARGET2`,
`R_ARM_GOT_BREL`, `R_ARM_GOT_PREL` every mask, the GOT and `.rel.dyn` are as
before too. -/
theorem local_scan_reserves_no_plt (base : GNULDBackend) (st : LinkState)
    (pReloc : Relocation) (pSection : LDSection) :
    ((pReloc.type ≠ RelocType.R_ARM_BASE_PREL ∨ st.m_pGOTSymbol ≠ none) →
      ∃ res, scanLocalReloc base st pReloc pSection = some res) ∧
    ∀ r1 st1, scanLocalReloc base st pReloc pSection = some (r1, st1) →
      st1.m_pPLT = st.m_pPLT ∧ st1.m_pRelPLT = st.m_pRelPLT ∧
      (∀ p, (st1.resolveInfo p).reserved &&& ReservePLT
              = (st.resolveInfo p).reserved &&& ReservePLT) ∧
      (pReloc.type ∉ [RelocType.R_ARM_TARGET1, RelocType.R_ARM_ABS32,
          RelocType.R_ARM_ABS32_NOI, RelocType.R_ARM_TARGET2, RelocType.R_ARM_GOT_BREL,
          RelocType.R_ARM_GOT_PREL] →
        st1.resolveInfo = st.resolveInfo ∧ st1.m_pGOT = st.m_pGOT ∧
        st1.m_pPLT = st.m_pPLT ∧ st1.m_pRelDyn = st.m_pRelDyn ∧
        st1.m_pRelPLT = st.m_pRelPLT) := by
  refine ⟨?_, ?_⟩
  · intro h
    rcases h with h | h
    · obtain ⟨t, s, a⟩ := pReloc
      cases t <;> first
        | exact absurd rfl h
        | (simp only [scanLocalReloc]; (try split) <;> exact ⟨_, rfl⟩)
    · exact scanLocalReloc_isSome base st pReloc pSection h
  · intro r1 st1 hs
    have hfirst : st1.m_pPLT = st.m_pPLT ∧ st1.m_pRelPLT = st.m_pRelPLT ∧
        (∀ p, (st1.resolveInfo p).reserved &&& ReservePLT
                = (st.resolveInfo p).reserved &&& ReservePLT) := by
      rcases scanLocalReloc_cases hs with h | ⟨d, h⟩ | ⟨r, h⟩ | ⟨r, h⟩
      · subst h; exact ⟨rfl, rfl, fun _ => rfl⟩
      · subst h; exact ⟨rfl, rfl, fun _ => rfl⟩
      · subst h
        exact ⟨(scanLocalReloc_abs32_plt base st r pSection).1,
          (scanLocalReloc_abs32_plt base st r pSection).2,
          scanLocalReloc_abs32_pltbit base st r pSection⟩
      · subst h
        exact ⟨(scanLocalReloc_got_plt base st r).1, (scanLocalReloc_got_plt base st r).2,
          scanLocalReloc_got_pltbit base st r⟩
    refine ⟨hfirst.1, hfirst.2.1, hfirst.2.2, fun ht => ?_⟩
    rcases scanLocalReloc_outside ht hs with h | ⟨d, h⟩
    · subst h; exact ⟨rfl, rfl, rfl, rfl, rfl⟩
    · subst h; exact ⟨rfl, rfl, rfl, rfl, rfl⟩

/-- Instance of C29: a local `R_ARM_CALL` in the sample link changes
nothing, and a local `R_ARM_ABS32` reserves no PLT entry. -/
theorem local_scan_reserves_no_plt_witness :
    scanLocalReloc sampleBase sampleState
        { type := RelocType.R_ARM_CALL, symInfo := 2, addend := 0 } sampleRelText
      = some ({ type := RelocType.R_ARM_CALL, symInfo := 2, addend := 0 }, sampleState) ∧
    ∀ r1 st1, scanLocalReloc sampleBase sampleState
        { type := RelocType.R_ARM_ABS32, symInfo := 2, addend := 0 } sampleRelText
        = some (r1, st1) →
      st1.m_pPLT.plt1 = 0 ∧ st1.m_pRelPLT.numOfRelocs = 0 :=
  ⟨rfl, fun r1 st1 h =>
    ⟨by rw [((local_scan_reserves_no_plt sampleBase sampleState _ sampleRelText).2
          r1 st1 h).1]; rfl,
     by rw [((local_scan_reserves_no_plt sampleBase sampleState _ sampleRelText).2
          r1 st1 h).2.1]; rfl⟩⟩

/-! ## Reservation under a PIC report (C30) -/

/-- The block `if (symbolNeedsDynRel(..))` under PIC, for a type the dynamic
linker does not support, when the symbol needs a dynamic relocation and no
copy relocation: the entry is reserved, the error is reported, `ReserveRel`
is set. -/
theorem dynRel_pic_report (base : GNULDBackend) (st : LinkState) (r : Relocation)
    (pSection : LDSection) (isAbsReloc : Bool)
    (hpic : base.config.isCodeIndep = true) (hout : r.type ∉ picAllowedTypes)
    (hdyn : base.symbolNeedsDynRel (st.resolveInfo r.symInfo)
        (decide ((st.resolveInfo r.symInfo).reserved &&& ReservePLT ≠ 0)) isAbsReloc = true)
    (hcopy : base.symbolNeedsCopyReloc r (st.resolveInfo r.symInfo) = false) :
    scanGlobalReloc.dynRel base st r pSection isAbsReloc
      = ((st.reserveRelDyn.report
            { severity := Severity.Error, id := DiagID.non_pic_relocation,
              type := some r.type, args := [(st.resolveInfo r.symInfo).name] }).setReserved
          r.symInfo ((st.resolveInfo r.symInfo).reserved ||| ReserveRel)).checkAndSetHasTextRel
          pSection.getLink := by
  unfold scanGlobalReloc.dynRel
  simp only []
  rw [if_pos hdyn]
  have hc : base.symbolNeedsCopyReloc r (st.reserveRelDyn.resolveInfo r.symInfo) = false := hcopy
  rw [if_neg (by rw [hc]; exact Bool.false_ne_true)]
  rw [checkValidReloc_eq, if_pos ⟨hpic, hout⟩]
  rfl

/-- The PLT step changes neither the name of a symbol nor `.rel.dyn` nor the
diagnostics. -/
theorem dynRelEntryState_frame (base : GNULDBackend) (st : LinkState) (pReloc : Relocation) :
    ((dynRelEntryState base st pReloc).resolveInfo pReloc.symInfo).name
      = (st.resolveInfo pReloc.symInfo).name ∧
    (dynRelEntryState base st pReloc).m_pRelDyn = st.m_pRelDyn ∧
    (dynRelEntryState base st pReloc).diagnostics = st.diagnostics := by
  unfold dynRelEntryState
  split
  · refine ⟨?_, rfl, rfl⟩
    simp [scanGlobalReloc.reservePLT, LinkState.setReserved, LinkState.reserveRelPLT,
      LinkState.reservePLTEntry]
  · exact ⟨rfl, rfl, rfl⟩

/-- For an absolute type, the absolute cases run the block on the state after
the PLT step; for a PC-relative type the block runs on the input state. -/
theorem scanGlobalReloc_dynRelEntry (base : GNULDBackend) (st : LinkState)
    (pReloc : Relocation) (pSection : LDSection)
    (ht : pReloc.type ∈ globalAbsTypes ++ globalRelTypes)
    (hn : pReloc.type ≠ RelocType.R_ARM_TARGET1) :
    scanGlobalReloc base st pReloc pSection
      = some (pReloc, scanGlobalReloc.dynRel base (dynRelEntryState base st pReloc) pReloc
          pSection (decide (pReloc.type ∈ globalAbsTypes))) := by
  obtain ⟨t, s, a⟩ := pReloc
  cases t <;> first
    | exact absurd rfl hn
    | exact absurd ht (of_decide_eq_false rfl)
    | (simp only [scanGlobalReloc, scanGlobalReloc.abs, dynRelEntryState]
       simp [globalAbsTypes]
       try (split <;> simp_all))

/-- C30 as stated fails for `R_ARM_TARGET1`, an absolute type that is not in
the PIC-allowed list: in the PIC sample link where every absolute relocation
needs a dynamic relocation and none a copy relocation, `scanGlobalReloc` on
`R_ARM_TARGET1` against the global `missing` reserves the `.rel.dyn` entry and
sets `ReserveRel`, but reports nothing, because `checkValidReloc` sees the
rewritten type `R_ARM_ABS32`. -/
theorem target1_reserves_without_report :
    sampleBaseAbsDyn.config.isCodeIndep = true ∧
    RelocType.R_ARM_TARGET1 ∈ globalAbsTypes ∧
    RelocType.R_ARM_TARGET1 ∉ picAllowedTypes ∧
    (sampleState.resolveInfo 3).isLocal = false ∧
    sampleBaseAbsDyn.symbolNeedsDynRel (sampleState.resolveInfo 3) false true = true ∧
    sampleBaseAbsDyn.symbolNeedsCopyReloc
      { type := RelocType.R_ARM_TARGET1, symInfo := 3, addend := 0 }
      (sampleState.resolveInfo 3) = false ∧
    ∃ st2, scanGlobalReloc sampleBaseAbsDyn sampleState
        { type := RelocType.R_ARM_TARGET1, symInfo := 3, addend := 0 } sampleRelText
        = some ({ type := RelocType.R_ARM_ABS32, symInfo := 3, addend := 0 }, st2) ∧
      raisedBetween sampleState st2 = [] ∧
      st2.m_pRelDyn.numOfRelocs = 1 ∧
      (st2.resolveInfo 3).reserved &&& ReserveRel ≠ 0 := by
  refine ⟨rfl, by decide, by decide, rfl, rfl, rfl, _, rfl, rfl, rfl, ?_⟩
  decide

/-- For a type whose case compares the symbol with `_GLOBAL_OFFSET_TABLE_`,
with `m_pGOTSymbol` set: the block `if (symbolNeedsDynRel(..))` runs on the
input state, to which the fatal `base_relocation` may have been reported. -/
theorem scanGlobalReloc_gotCheckedEntry (base : GNULDBackend) (st : LinkState)
    (pReloc : Relocation) (pSection : LDSection) (g : LDSymbol)
    (ht : pReloc.type ∈ gotCheckedTypes) (hg : st.m_pGOTSymbol = some g) :
    ∃ st0 ds, scanGlobalReloc base st pReloc pSection
        = some (pReloc, scanGlobalReloc.dynRel base st0 pReloc pSection false) ∧
      st0.resolveInfo = st.resolveInfo ∧ st0.m_pRelDyn = st.m_pRelDyn ∧
      st0.diagnostics = st.diagnostics ++ ds := by
  obtain ⟨t, s, a⟩ := pReloc
  cases t <;> first
    | exact absurd ht (of_decide_eq_false rfl)
    | (simp only [scanGlobalReloc, hg]
       by_cases hs : s ≠ g.resolveInfo
       · exact ⟨st.report _, [_], by rw [if_pos hs], rfl, rfl, rfl⟩
       · exact ⟨st, [], by rw [if_neg hs], rfl, rfl, (List.append_nil _).symm⟩)

/-- C30, amended. For a relocation against a global symbol whose type is
absolute or PC-relative (the types checked against `_GLOBAL_OFFSET_TABLE_`
included, `m_pGOTSymbol` then being set) and, after the rewrite of
`R_ARM_TARGET1` to `R_ARM_ABS32`, outside the PIC-allowed list: when the
configuration is PIC, `symbolNeedsDynRel` holds and `symbolNeedsCopyReloc`
does not, `scanGlobalReloc` returns, reports the `non_pic_relocation` error
(with the type and the symbol's name; it is the only diagnostic unless the
type is one checked against `_GLOBAL_OFFSET_TABLE_`), and has nevertheless
reserved one `.rel.dyn` entry and set `ReserveRel` in the mask of the symbol. -/
theorem pic_report_keeps_reservation (base : GNULDBackend) (st : LinkState)
    (pReloc : Relocation) (pSection : LDSection)
    (hpic : base.config.isCodeIndep = true)
    (ht : pReloc.type ∈ globalAbsTypes ++ globalRelTypes ++ gotCheckedTypes)
    (hgot : pReloc.type ∈ gotCheckedTypes → st.m_pGOTSymbol ≠ none)
    (hout : normalizedType pReloc.type ∉ picAllowedTypes)
    (hdyn : base.symbolNeedsDynRel
        ((dynRelEntryState base st pReloc).resolveInfo pReloc.symInfo)
        (decide (((dynRelEntryState base st pReloc).resolveInfo pReloc.symInfo).reserved
                  &&& ReservePLT ≠ 0))
        (decide (pReloc.type ∈ globalAbsTypes)) = true)
    (hcopy : base.symbolNeedsCopyReloc pReloc
        ((dynRelEntryState base st pReloc).resolveInfo pReloc.symInfo) = false) :
    ∃ st2, scanGlobalReloc base st pReloc pSection = some (pReloc, st2) ∧
      { severity := Severity.Error, id := DiagID.non_pic_relocation,
        type := some pReloc.type,
        args := [(st.resolveInfo pReloc.symInfo).name] } ∈ raisedBetween st st2 ∧
      (pReloc.type ∉ gotCheckedTypes →
        raisedBetween st st2
          = [{ severity := Severity.Error, id := DiagID.non_pic_relocation,
               type := some pReloc.type,
               args := [(st.resolveInfo pReloc.symInfo).name] }]) ∧
      st2.m_pRelDyn.numOfRelocs = st.m_pRelDyn.numOfRelocs + 1 ∧
      (st2.resolveInfo pReloc.symInfo).reserved
        = ((dynRelEntryState base st pReloc).resolveInfo pReloc.symInfo).reserved
            ||| ReserveRel ∧
      (st2.resolveInfo pReloc.symInfo).reserved &&& ReserveRel ≠ 0 := by
  have hn : pReloc.type ≠ RelocType.R_ARM_TARGET1 := by
    intro h
    rw [h] at hout
    exact hout (by decide)
  have hn2 : pReloc.type ≠ RelocType.R_ARM_TARGET2 := by
    intro h
    rw [h] at ht
    exact absurd ht (by decide)
  have hnorm : normalizedType pReloc.type = pReloc.type := by
    cases hty : pReloc.type <;> first
      | rfl
      | exact absurd hty hn
      | exact absurd hty hn2
  rw [hnorm] at hout
  have hf := dynRelEntryState_frame base st pReloc
  -- the state `st0` on which the block runs
  have hentry : ∃ st0 ds, scanGlobalReloc base st pReloc pSection
        = some (pReloc, scanGlobalReloc.dynRel base st0 pReloc pSection
            (decide (pReloc.type ∈ globalAbsTypes))) ∧
      st0.resolveInfo = (dynRelEntryState base st pReloc).resolveInfo ∧
      st0.m_pRelDyn = st.m_pRelDyn ∧ st0.diagnostics = st.diagnostics ++ ds ∧
      (pReloc.type ∉ gotCheckedTypes → ds = []) := by
    by_cases hgc : pReloc.type ∈ gotCheckedTypes
    · obtain ⟨g, hg⟩ : ∃ g, st.m_pGOTSymbol = some g := by
        cases h : st.m_pGOTSymbol with
        | none => exact absurd h (hgot hgc)
        | some g => exact ⟨g, rfl⟩
      obtain ⟨st0, ds, h1, h2, h3, h4⟩ :=
        scanGlobalReloc_gotCheckedEntry base st pReloc pSection g hgc hg
      have hna : pReloc.type ∉ globalAbsTypes := by
        intro hc
        have : ∀ t : RelocType, t ∈ gotCheckedTypes → t ∉ globalAbsTypes := by decide
        exact this _ hgc hc
      have hst : dynRelEntryState base st pReloc = st := by
        unfold dynRelEntryState
        rw [if_neg (fun hc => hna hc.1)]
      refine ⟨st0, ds, ?_, by rw [hst]; exact h2, h3, h4, fun hc => absurd hgc hc⟩
      rw [h1]
      simp [hna]
    · have ht' : pReloc.type ∈ globalAbsTypes ++ globalRelTypes := by
        rcases List.mem_append.1 ht with h | h
        · exact h
        · exact absurd h hgc
      exact ⟨_, [], scanGlobalReloc_dynRelEntry base st pReloc pSection ht' hn, rfl,
        hf.2.1, by rw [hf.2.2, List.append_nil], fun _ => rfl⟩
  obtain ⟨st0, ds, hscan, hri, hrd, hdiag, hds⟩ := hentry
  have hdyn0 : base.symbolNeedsDynRel (st0.resolveInfo pReloc.symInfo)
      (decide ((st0.resolveInfo pReloc.symInfo).reserved &&& ReservePLT ≠ 0))
      (decide (pReloc.type ∈ globalAbsTypes)) = true := by rw [hri]; exact hdyn
  have hcopy0 : base.symbolNeedsCopyReloc pReloc (st0.resolveInfo pReloc.symInfo) = false := by
    rw [hri]; exact hcopy
  have hname : (st0.resolveInfo pReloc.symInfo).name = (st.resolveInfo pReloc.symInfo).name := by
    rw [hri]; exact hf.1
  have hrep := dynRel_pic_report base st0 pReloc pSection _ hpic hout hdyn0 hcopy0
  have hraised : raisedBetween st (scanGlobalReloc.dynRel base st0 pReloc pSection
        (decide (pReloc.type ∈ globalAbsTypes)))
      = ds ++ [{ severity := Severity.Error, id := DiagID.non_pic_relocation,
                 type := some pReloc.type,
                 args := [(st.resolveInfo pReloc.symInfo).name] }] := by
    rw [hrep]
    simp only [raisedBetween, LinkState.checkAndSetHasTextRel, LinkState.setReserved,
      LinkState.report, LinkState.reserveRelDyn, hdiag, hname, List.append_assoc]
    simp
  refine ⟨_, hscan, ?_, ?_, ?_, ?_, ?_⟩
  · rw [hraised]
    exact List.mem_append_right _ (List.mem_singleton_self _)
  · intro hc
    rw [hraised, hds hc, List.nil_append]
  · rw [hrep]
    simp only [LinkState.checkAndSetHasTextRel, LinkState.setReserved,
      LinkState.report, LinkState.reserveRelDyn, OutputRelocSection.reserveEntry, hrd]
  · rw [hrep, ← hri]
    simp [LinkState.checkAndSetHasTextRel, LinkState.setReserved,
      LinkState.report, LinkState.reserveRelDyn]
  · rw [hrep]
    simp only [LinkState.checkAndSetHasTextRel, LinkState.setReserved,
      LinkState.report, LinkState.reserveRelDyn, Function.update_same]
    exact lor_land_self_ne_zero _ (by decide)

/-- Instance of C30 (amended): `R_ARM_MOVW_ABS_NC` against the global
`missing` in the PIC sample link where every absolute relocation needs a
dynamic relocation. -/
theorem pic_report_keeps_reservation_witness :
    ∃ st2, scanGlobalReloc sampleBaseAbsDyn sampleState
        { type := RelocType.R_ARM_MOVW_ABS_NC, symInfo := 3, addend := 0 } sampleRelText
        = some ({ type := RelocType.R_ARM_MOVW_ABS_NC, symInfo := 3, addend := 0 }, st2) ∧
      raisedBetween sampleState st2
        = [{ severity := Severity.Error, id := DiagID.non_pic_relocation,
             type := some RelocType.R_ARM_MOVW_ABS_NC, args := ["missing"] }] ∧
      st2.m_pRelDyn.numOfRelocs = 1 ∧
      (st2.resolveInfo 3).reserved &&& ReserveRel ≠ 0 := by
  obtain ⟨st2, h, -, hd, hr, -, hm⟩ := pic_report_keeps_reservation sampleBaseAbsDyn sampleState
    { type := RelocType.R_ARM_MOVW_ABS_NC, symInfo := 3, addend := 0 } sampleRelText
    rfl (by decide) (fun h => absurd h (by decide)) (by decide) rfl rfl
  exact ⟨st2, h, hd (by decide), hr, hm⟩

/-! ## Section emission (C21, C22) -/

/-- The `memset` of `n` bytes at `out_offset`, seen on a region cut at
`out_offset` and `out_offset + n`. -/
theorem memset_at (pre mid post : List Nat) (out_offset value n : Nat)
    (hpre : pre.length = out_offset) (hmid : mid.length = n) :
    memset (pre ++ mid ++ post) out_offset value n
      = Except.ok (pre ++ List.replicate n (value % 256) ++ post) := by
  unfold memset
  have hlen : out_offset + n ≤ (pre ++ mid ++ post).length := by
    simp only [List.length_append]; omega
  rw [if_pos hlen]
  have h1 : (pre ++ mid ++ post).take out_offset = pre := by
    rw [List.append_assoc, List.take_left' hpre]
  have h2 : (pre ++ mid ++ post).drop (out_offset + n) = post := by
    apply List.drop_left'
    simp only [List.length_append]; omega
  rw [h1, h2]

/-- The `memcpy` of all of `start` at `out_offset`, seen on a region cut at
`out_offset` and `out_offset + start.length`. -/
theorem memcpy_at (pre mid post start : List Nat) (out_offset : Nat)
    (hpre : pre.length = out_offset) (hmid : mid.length = start.length) :
    memcpy (pre ++ mid ++ post) out_offset start start.length
      = Except.ok (pre ++ start ++ post) := by
  unfold memcpy
  have hlen : start.length ≤ start.length ∧
      out_offset + start.length ≤ (pre ++ mid ++ post).length := by
    refine ⟨le_refl _, ?_⟩
    simp only [List.length_append]; omega
  rw [if_pos hlen]
  have h1 : (pre ++ mid ++ post).take out_offset = pre := by
    rw [List.append_assoc, List.take_left' hpre]
  have h2 : (pre ++ mid ++ post).drop (out_offset + start.length) = post := by
    apply List.drop_left'
    simp only [List.length_append]; omega
  rw [h1, h2, List.take_length]

/-- The bytes asked for an emittable fragment are as many as its size. -/
theorem verbatim_length (f : Fragment) (h : f.emittable = true) :
    f.verbatim.length = f.size := by
  cases f <;> simp [Fragment.verbatim, Fragment.size, Fragment.emittable] at h ⊢

/-- One turn of the loop on an emittable fragment that fits. -/
theorem emit_fragment_at (pre mid post : List Nat) (out_offset : Nat) (f : Fragment)
    (he : f.emittable = true) (hpre : pre.length = out_offset) (hmid : mid.length = f.size) :
    emitSectionData.fragment (pre ++ mid ++ post) out_offset f
      = Except.ok (pre ++ f.verbatim ++ post) := by
  cases f with
  | Fillment value valueSize size =>
    have hv : ¬ (0 = valueSize) := by
      have : 1 ≤ valueSize := by simpa [Fragment.emittable] using he
      omega
    simp only [emitSectionData.fragment, if_neg hv, Fragment.verbatim]
    exact memset_at pre mid post out_offset value size hpre hmid
  | Region bytes =>
    simp only [emitSectionData.fragment, Fragment.verbatim, Fragment.size]
    exact memcpy_at pre mid post bytes out_offset hpre hmid
  | Alignment value valueSize size =>
    have hv : valueSize = 1 := by simpa [Fragment.emittable] using he
    subst hv
    simp only [emitSectionData.fragment, Fragment.verbatim, Fragment.size, Nat.div_one]
    simp only [Nat.one_ne_zero, if_false]
    exact memset_at pre mid post out_offset value size hpre hmid
  | Null =>
    have hm : mid = [] := List.eq_nil_of_length_eq_zero hmid
    subst hm
    simp [emitSectionData.fragment, Fragment.verbatim]
  | Stub n => simp [Fragment.emittable] at he

/-- The loop of `emitSectionData` on emittable fragments that fit: the bytes
from `out_offset` on are replaced by the contents of the fragments, one after
the other. -/
theorem emit_fragments_at (frags : List Fragment) :
    ∀ (pre mid post : List Nat) (out_offset : Nat),
      (∀ f ∈ frags, f.emittable = true) → pre.length = out_offset →
      mid.length = (frags.map Fragment.size).sum →
      emitSectionData.fragments (pre ++ mid ++ post) out_offset frags
        = Except.ok (pre ++ (frags.map Fragment.verbatim).flatten ++ post) := by
  induction frags with
  | nil =>
    intro pre mid post out_offset _ _ hmid
    have hm : mid = [] := List.eq_nil_of_length_eq_zero (by simpa using hmid)
    subst hm
    simp [emitSectionData.fragments]
  | cons f rest ih =>
    intro pre mid post out_offset he hpre hmid
    have hsum : mid.length = f.size + (rest.map Fragment.size).sum := by
      simpa using hmid
    have hf : f.emittable = true := he f (List.mem_cons_self _ _)
    have hsplit : mid = mid.take f.size ++ mid.drop f.size := (List.take_append_drop _ _).symm
    have h1 : (mid.take f.size).length = f.size := by
      rw [List.length_take]; omega
    have h2 : (mid.drop f.size).length = (rest.map Fragment.size).sum := by
      rw [List.length_drop]; omega
    have hstep := emit_fragment_at pre (mid.take f.size) (mid.drop f.size ++ post)
      out_offset f hf hpre h1
    have hreg : pre ++ mid ++ post = pre ++ mid.take f.size ++ (mid.drop f.size ++ post) := by
      conv_lhs => rw [hsplit]
      simp only [List.append_assoc]
    simp only [emitSectionData.fragments]
    rw [hreg, hstep]
    simp only []
    have hih := ih (pre ++ f.verbatim) (mid.drop f.size) post (out_offset + f.size)
      (fun g hg => he g (List.mem_cons_of_mem _ hg))
      (by rw [List.length_append, verbatim_length f hf, hpre]) h2
    have hreg2 : pre ++ f.verbatim ++ (mid.drop f.size ++ post)
        = pre ++ f.verbatim ++ mid.drop f.size ++ post := by
      simp only [List.append_assoc]
    rw [hreg2, hih]
    simp only [List.map_cons, List.flatten_cons, List.append_assoc]

/-- The contents of emittable fragments, one after the other, are as long as
the sizes add up to. -/
theorem verbatim_flatten_length (frags : List Fragment)
    (he : ∀ f ∈ frags, f.emittable = true) :
    (frags.map Fragment.verbatim).flatten.length = (frags.map Fragment.size).sum := by
  induction frags with
  | nil => rfl
  | cons f rest ih =>
    simp only [List.map_cons, List.flatten_cons, List.length_append, List.sum_cons]
    rw [verbatim_length f (he f (List.mem_cons_self _ _)),
      ih (fun g hg => he g (List.mem_cons_of_mem _ hg))]

/-- The loop over a list of fragments cut in two: the second part is emitted
on the region the first part has left, at the offset it has reached. -/
theorem emit_fragments_append (pre rest : List Fragment) :
    ∀ (region : List Nat) (out_offset : Nat),
      emitSectionData.fragments region out_offset (pre ++ rest)
        = match emitSectionData.fragments region out_offset pre with
          | Except.error e => Except.error e
          | Except.ok region1 =>
            emitSectionData.fragments region1 (out_offset + (pre.map Fragment.size).sum) rest := by
  induction pre with
  | nil => intro region out_offset; simp [emitSectionData.fragments]
  | cons f pre ih =>
    intro region out_offset
    simp only [List.cons_append, emitSectionData.fragments]
    cases hf : emitSectionData.fragment region out_offset f with
    | error e => rfl
    | ok region1 =>
      simp only []
      have hih := ih region1 (out_offset + f.size)
      simp only [List.map_cons, List.sum_cons, Nat.add_assoc] at hih ⊢
      exact hih

/-- C21. For `.ARM.attributes`, `.ARM.exidx` or `.ARM.extab` whose section
data is a list of fills with a value size of at least 1, regions, alignments
with value size 1 and null fragments, and a region that is not empty (the
assertion of the function) and holds at least as many bytes as the sizes add
up to: `emitSectionData` returns the size of the region, and the region
afterwards is the contents of the fragments one after the other, followed by
the bytes the region had from the sum of the sizes on. So the bytes of
fragment `f` stand at the offset that is the sum of the sizes of the
fragments before it, no byte at or beyond the sum of the sizes is touched,
and the region keeps its length. -/
theorem verbatim_emission (out : OutputState) (emitters : SectionEmitters)
    (pSection : SectionHeader) (frags : List Fragment) (pRegion : List Nat)
    (harm : (pointsAt out.m_pAttributes pSection || pointsAt out.m_pEXIDX pSection ||
              pointsAt out.m_pEXTAB pSection) = true)
    (he : ∀ f ∈ frags, f.emittable = true)
    (hfit : (frags.map Fragment.size).sum ≤ pRegion.length)
    (hpos : 0 < pRegion.length) :
    ∃ region, emitSectionData out emitters pSection (some frags) pRegion
        = Except.ok (pRegion.length, region) ∧
      region = (frags.map Fragment.verbatim).flatten
                ++ pRegion.drop (frags.map Fragment.size).sum ∧
      region.length = pRegion.length ∧
      region.drop (frags.map Fragment.size).sum
        = pRegion.drop (frags.map Fragment.size).sum ∧
      ∀ pre f post, frags = pre ++ f :: post →
        (region.drop (pre.map Fragment.size).sum).take f.size = f.verbatim := by
  have hloop := emit_fragments_at frags [] (pRegion.take (frags.map Fragment.size).sum)
    (pRegion.drop (frags.map Fragment.size).sum) 0 he rfl
    (by rw [List.length_take]; omega)
  simp only [List.nil_append, List.take_append_drop] at hloop
  have hvl := verbatim_flatten_length frags he
  refine ⟨_, ?_, rfl, ?_, ?_, ?_⟩
  · unfold emitSectionData
    rw [if_neg (by omega), if_pos harm]
    simp only [hloop]
  · rw [List.length_append, hvl, List.length_drop]; omega
  · exact List.drop_left' hvl
  · intro pre f post hfr
    have hpre : ∀ g ∈ pre, g.emittable = true := fun g hg =>
      he g (by rw [hfr]; exact List.mem_append_left _ hg)
    have hf : f.emittable = true :=
      he f (by rw [hfr]; exact List.mem_append_right _ (List.mem_cons_self _ _))
    have hl1 := verbatim_flatten_length pre hpre
    have hcut : (frags.map Fragment.verbatim).flatten
          ++ pRegion.drop (frags.map Fragment.size).sum
        = (pre.map Fragment.verbatim).flatten
          ++ (f.verbatim ++ ((post.map Fragment.verbatim).flatten
              ++ pRegion.drop (frags.map Fragment.size).sum)) := by
      rw [hfr]
      simp only [List.map_append, List.map_cons, List.flatten_append, List.flatten_cons,
        List.append_assoc]
    rw [hcut, List.drop_left' hl1, List.take_left' (verbatim_length f hf)]

/-- Instance of C21: the sample `.ARM.exidx` data of six bytes emitted into a
region of eight bytes. -/
theorem verbatim_emission_witness :
    emitSectionData sampleOutput sampleEmitters sampleExidx (some sampleFragments)
        [9, 9, 9, 9, 9, 9, 9, 9]
      = Except.ok (8, [0xAB, 0xAB, 1, 2, 3, 0, 9, 9]) := by
  obtain ⟨region, h, hr, -⟩ := verbatim_emission sampleOutput sampleEmitters sampleExidx
    sampleFragments [9, 9, 9, 9, 9, 9, 9, 9] rfl (by decide) (by decide) (by decide)
  rw [h, hr]
  rfl

/-- C22, what the code does with an alignment fragment whose value size is
not 1, once the fragments before it have been emitted: a value size of 2 or
more ends in the fatal error for the unsupported value size, but a value size
of 0 ends in the division `size / getValueSize()` by zero, which stands in
front of the `switch`, and not in the fatal error. -/
theorem align_value_size_not_one (out : OutputState) (emitters : SectionEmitters)
    (pSection : SectionHeader) (pre post : List Fragment) (value valueSize size : Nat)
    (pRegion region1 : List Nat)
    (harm : (pointsAt out.m_pAttributes pSection || pointsAt out.m_pEXIDX pSection ||
              pointsAt out.m_pEXTAB pSection) = true)
    (hpos : 0 < pRegion.length)
    (hpre : emitSectionData.fragments pRegion 0 pre = Except.ok region1) :
    (2 ≤ valueSize →
      emitSectionData out emitters pSection
          (some (pre ++ Fragment.Alignment value valueSize size :: post)) pRegion
        = Except.error EmitError.unsupportedAlignValueSize) ∧
    (valueSize = 0 →
      emitSectionData out emitters pSection
          (some (pre ++ Fragment.Alignment value valueSize size :: post)) pRegion
        = Except.error EmitError.divisionByZero) := by
  have hcore : emitSectionData out emitters pSection
        (some (pre ++ Fragment.Alignment value valueSize size :: post)) pRegion
      = match emitSectionData.fragment region1 (0 + (pre.map Fragment.size).sum)
            (Fragment.Alignment value valueSize size) with
        | Except.error e => Except.error e
        | Except.ok region2 =>
          match emitSectionData.fragments region2
              (0 + (pre.map Fragment.size).sum + size) post with
          | Except.error e => Except.error e
          | Except.ok region => Except.ok (pRegion.length, region) := by
    unfold emitSectionData
    rw [if_neg (by omega), if_pos harm]
    simp only [emit_fragments_append, hpre, emitSectionData.fragments, Fragment.size]
    cases emitSectionData.fragment region1 (0 + (pre.map Fragment.size).sum)
      (Fragment.Alignment value valueSize size) <;> rfl
  refine ⟨fun h2 => ?_, fun h0 => ?_⟩
  · rw [hcore]
    have hne : ¬ valueSize = 0 := by omega
    obtain ⟨k, rfl⟩ : ∃ k, valueSize = k + 2 := ⟨valueSize - 2, by omega⟩
    simp [emitSectionData.fragment]
  · rw [hcore]
    subst h0
    simp [emitSectionData.fragment]

/-- Instance of C22 on the sample `.ARM.exidx`: behind two bytes of fill, an
alignment fragment with value size 4 ends in the fatal error and one with
value size 0 in the division by zero. -/
theorem align_value_size_not_one_witness :
    emitSectionData sampleOutput sampleEmitters sampleExidx
        (some [Fragment.Fillment 0 1 2, Fragment.Alignment 0 4 4]) [9, 9, 9, 9, 9, 9, 9, 9]
      = Except.error EmitError.unsupportedAlignValueSize ∧
    emitSectionData sampleOutput sampleEmitters sampleExidx
        (some [Fragment.Fillment 0 1 2, Fragment.Alignment 0 0 4]) [9, 9, 9, 9, 9, 9, 9, 9]
      = Except.error EmitError.divisionByZero :=
  ⟨(align_value_size_not_one sampleOutput sampleEmitters sampleExidx
      [Fragment.Fillment 0 1 2] [] 0 4 4 [9, 9, 9, 9, 9, 9, 9, 9] [0, 0, 9, 9, 9, 9, 9, 9]
      rfl (by decide) rfl).1 (by decide),
   (align_value_size_not_one sampleOutput sampleEmitters sampleExidx
      [Fragment.Fillment 0 1 2] [] 0 0 4 [9, 9, 9, 9, 9, 9, 9, 9] [0, 0, 9, 9, 9, 9, 9, 9]
      rfl (by decide) rfl).2 rfl⟩

/-! ## Branch relaxation (C23, C24, C25, C27) -/

/-- One request to the stub factory: the candidate symbol value exists, and
either the factory returns null and nothing changes, or it returns a stub
with a local symbol, which is appended to the stubs and accounted for in
`.symtab` and `.strtab`. -/
theorem requestStub_spec {base : GNULDBackend} {m : RelaxModule} {factory : StubFactory}
    {st0 st1 : RelaxState} {b0 b1 : Bool} {relocation : Relocation}
    (h : doRelax.requestStub base m factory (st0, b0) relocation = some (st1, b1)) :
    ∃ v, doRelax.symValue m relocation = some v ∧
      ((factory.create relocation v st0.text st0.islands = none ∧ st1 = st0 ∧ b1 = b0) ∨
       (∃ stub text islands info,
          factory.create relocation v st0.text st0.islands = some (stub, text, islands) ∧
          stub.symInfo = some info ∧ info.isLocal = true ∧
          st1.text = text ∧ st1.islands = islands ∧ st1.stubs = st0.stubs ++ [stub] ∧
          st1.symtabSize = (st0.symtabSize + symbolRecordSize base) % 2 ^ 64 ∧
          st1.symtabInfo = (st0.symtabInfo + 1) % 2 ^ 64 ∧
          st1.strtabSize = (st0.strtabSize + (stub.nameSize + 1)) % 2 ^ 64 ∧
          st1.textSize = st0.textSize ∧ b1 = true)) := by
  unfold doRelax.requestStub at h
  cases hv : doRelax.symValue m relocation with
  | none => rw [hv] at h; cases h
  | some v =>
    rw [hv] at h
    simp only [] at h
    refine ⟨v, rfl, ?_⟩
    cases hc : factory.create relocation v st0.text st0.islands with
    | none =>
      rw [hc] at h
      simp only [Option.some.injEq, Prod.mk.injEq] at h
      exact Or.inl ⟨rfl, h.1.symm, h.2.symm⟩
    | some res =>
      obtain ⟨stub, text, islands⟩ := res
      rw [hc] at h
      simp only [] at h
      cases hinfo : stub.symInfo with
      | none => rw [hinfo] at h; cases h
      | some info =>
        rw [hinfo] at h
        simp only [] at h
        cases hloc : info.isLocal with
        | false => rw [hloc] at h; simp at h
        | true =>
          rw [hloc] at h
          simp only [Bool.not_true, Bool.false_eq_true, if_false, Option.some.injEq,
            Prod.mk.injEq] at h
          obtain ⟨h1, h2⟩ := h
          subst h1
          refine Or.inr ⟨stub, text, islands, info, rfl, hinfo, hloc, rfl, rfl, rfl, rfl, rfl,
            ?_, rfl, h2.symm⟩
          simp only [Stub.nameSize, hinfo, Nat.add_assoc]

/-- The `switch` of the loop body: a relocation of another type changes
nothing, a relocation of one of the eight types is a request to the factory. -/
theorem relocation_spec {base : GNULDBackend} {m : RelaxModule} {factory : StubFactory}
    {st0 st1 : RelaxState} {b0 b1 : Bool} {relocation : Relocation}
    (h : doRelax.relocation base m factory (st0, b0) relocation = some (st1, b1)) :
    (relocation.type ∉ stubRequestTypes ∧ st1 = st0 ∧ b1 = b0) ∨
    (relocation.type ∈ stubRequestTypes ∧
      doRelax.requestStub base m factory (st0, b0) relocation = some (st1, b1)) := by
  obtain ⟨t, s, a⟩ := relocation
  cases t <;> simp only [doRelax.relocation] at h <;> first
    | exact Or.inr ⟨of_decide_eq_true rfl, h⟩
    | (simp only [Option.some.injEq, Prod.mk.injEq] at h
       exact Or.inl ⟨of_decide_eq_false rfl, h.1.symm, h.2.symm⟩)

/-- The stub requests of one pass against the design's description: the stubs
appended to the state are the stubs the factory has returned
(`stubsReturned`), each has a local symbol, `.symtab` has grown by one record
and `sh_info` by one for each, `.strtab` by the length of each name plus one
(all modulo `2 ^ 64`, and the new values are below `2 ^ 64` once a stub was
returned), the size of `.text` is as it was, and the flag is set iff it was
set or a stub was returned; without a stub the state is as it was. -/
theorem requestStubs_spec {base : GNULDBackend} {m : RelaxModule} {factory : StubFactory}
    (relocs : List Relocation) :
    ∀ {st0 st1 : RelaxState} {b0 b1 : Bool},
      doRelax.requestStubs base m factory (st0, b0) relocs = some (st1, b1) →
      st1.stubs = st0.stubs ++ stubsReturned m factory st0.text st0.islands relocs ∧
      (∀ s ∈ stubsReturned m factory st0.text st0.islands relocs,
        ∃ info, s.symInfo = some info ∧ info.isLocal = true) ∧
      st1.symtabSize % 2 ^ 64 = (st0.symtabSize + symbolRecordSize base *
          (stubsReturned m factory st0.text st0.islands relocs).length) % 2 ^ 64 ∧
      st1.symtabInfo % 2 ^ 64 = (st0.symtabInfo +
          (stubsReturned m factory st0.text st0.islands relocs).length) % 2 ^ 64 ∧
      st1.strtabSize % 2 ^ 64 = (st0.strtabSize +
          ((stubsReturned m factory st0.text st0.islands relocs).map
            fun s => s.nameSize + 1).sum) % 2 ^ 64 ∧
      (1 ≤ (stubsReturned m factory st0.text st0.islands relocs).length →
        st1.symtabSize < 2 ^ 64 ∧ st1.symtabInfo < 2 ^ 64 ∧ st1.strtabSize < 2 ^ 64) ∧
      st1.textSize = st0.textSize ∧
      (b1 = true ↔ (b0 = true ∨
        1 ≤ (stubsReturned m factory st0.text st0.islands relocs).length)) ∧
      (stubsReturned m factory st0.text st0.islands relocs = [] → st1 = st0) := by
  induction relocs with
  | nil =>
    intro st0 st1 b0 b1 h
    simp only [doRelax.requestStubs, Option.some.injEq, Prod.mk.injEq] at h
    obtain ⟨rfl, rfl⟩ := h
    refine ⟨by simp [stubsReturned], by simp [stubsReturned], by simp [stubsReturned],
      by simp [stubsReturned], by simp [stubsReturned], by simp [stubsReturned], rfl,
      by simp [stubsReturned], fun _ => rfl⟩
  | cons rel rest ih =>
    intro st0 st1 b0 b1 h
    simp only [doRelax.requestStubs] at h
    cases hstep : doRelax.relocation base m factory (st0, b0) rel with
    | none => rw [hstep] at h; cases h
    | some acc =>
      obtain ⟨stm, bm⟩ := acc
      rw [hstep] at h
      simp only [] at h
      obtain ⟨hs, hloc, hsym, hinfo, hstr, hbd, htxt, hb, hnil⟩ := ih h
      rcases relocation_spec hstep with ⟨hnt, rfl, rfl⟩ | ⟨hty, hreq⟩
      · have htr : stubsReturned m factory stm.text stm.islands (rel :: rest)
            = stubsReturned m factory stm.text stm.islands rest := by
          simp only [stubsReturned, if_neg hnt]
        rw [htr]
        exact ⟨hs, hloc, hsym, hinfo, hstr, hbd, htxt, hb, hnil⟩
      · obtain ⟨v, hv, hcase⟩ := requestStub_spec hreq
        rcases hcase with ⟨hc, rfl, rfl⟩ |
          ⟨stub, text, islands, info, hc, h2, h3, ht, hi, h1, h4, h5, h6, h7, h8⟩
        · have htr : stubsReturned m factory stm.text stm.islands (rel :: rest)
              = stubsReturned m factory stm.text stm.islands rest := by
            simp only [stubsReturned, if_pos hty, hv, hc]
          rw [htr]
          exact ⟨hs, hloc, hsym, hinfo, hstr, hbd, htxt, hb, hnil⟩
        · have htr : stubsReturned m factory st0.text st0.islands (rel :: rest)
              = stub :: stubsReturned m factory stm.text stm.islands rest := by
            simp only [stubsReturned, if_pos hty, hv, hc, ht, hi]
          rw [htr]
          have hM : (0 : Nat) < 2 ^ 64 := by decide
          refine ⟨?_, ?_, ?_, ?_, ?_, ?_, ?_, ?_, ?_⟩
          · rw [hs, h1, List.append_assoc]; rfl
          · intro s hs'
            rcases List.mem_cons.1 hs' with rfl | hs'
            · exact ⟨info, h2, h3⟩
            · exact hloc s hs'
          · rw [hsym, h4, List.length_cons, Nat.mul_succ]
            omega
          · rw [hinfo, h5, List.length_cons]
            omega
          · rw [hstr, h6, List.map_cons, List.sum_cons]
            omega
          · intro _
            cases hcr : stubsReturned m factory stm.text stm.islands rest with
            | nil =>
              have := hnil hcr
              subst this
              rw [h4, h5, h6]
              exact ⟨Nat.mod_lt _ hM, Nat.mod_lt _ hM, Nat.mod_lt _ hM⟩
            | cons c cs =>
              exact hbd (by rw [hcr]; simp)
          · rw [htxt, h7]
          · rw [hb, h8]
            simp
          · intro hc'; cases hc'

/-- What the island loop has found when it returns: an invalid fragment iff
some island overruns its exit fragment and no island before it in the list
ends `.text`. -/
theorem findInvalid_spec (text : List TextFragment) (islands : List BranchIsland) :
    ∀ invalid, doRelax.findInvalid text islands = some invalid →
      ((∀ i, invalid = some i →
          ∃ before island after exit, islands = before ++ island :: after ∧
            (∀ isl ∈ before, isl.exit ≠ none) ∧ island.exit = some i ∧
            text[i]? = some exit ∧ (island.offset + island.size) % 2 ^ 64 > exit.offset) ∧
       (invalid = none →
          ¬ ∃ before island after i exit, islands = before ++ island :: after ∧
            (∀ isl ∈ before, isl.exit ≠ none) ∧ island.exit = some i ∧
            text[i]? = some exit ∧ (island.offset + island.size) % 2 ^ 64 > exit.offset)) := by
  induction islands with
  | nil =>
    intro invalid h
    simp only [doRelax.findInvalid, Option.some.injEq] at h
    subst h
    refine ⟨fun i hi => (by cases hi), fun _ => ?_⟩
    rintro ⟨before, island, after, i, exit, hl, -⟩
    cases before <;> cases hl
  | cons isl0 rest ih =>
    intro invalid h
    cases hexit : isl0.exit with
    | none =>
      simp only [doRelax.findInvalid, hexit, Option.some.injEq] at h
      subst h
      refine ⟨fun i hi => (by cases hi), fun _ => ?_⟩
      rintro ⟨before, island, after, i, exit, hl, hb, he, -⟩
      cases before with
      | nil =>
        simp only [List.nil_append, List.cons.injEq] at hl
        rw [← hl.1, hexit] at he
        cases he
      | cons b bs =>
        simp only [List.cons_append, List.cons.injEq] at hl
        exact hb b (List.mem_cons_self _ _) (by rw [← hl.1]; exact hexit)
    | some j =>
      simp only [doRelax.findInvalid, hexit] at h
      cases hj : text[j]? with
      | none => rw [hj] at h; cases h
      | some ex =>
        rw [hj] at h
        simp only [] at h
        by_cases hover : (isl0.offset + isl0.size) % 2 ^ 64 > ex.offset
        · rw [if_pos hover] at h
          simp only [Option.some.injEq] at h
          subst h
          refine ⟨fun i hi => ?_, fun hn => (by cases hn)⟩
          simp only [Option.some.injEq] at hi
          subst hi
          exact ⟨[], isl0, rest, ex, rfl, fun _ hm => (by cases hm), hexit, hj, hover⟩
        · rw [if_neg hover] at h
          obtain ⟨ih1, ih2⟩ := ih invalid h
          refine ⟨fun i hi => ?_, fun hn => ?_⟩
          · obtain ⟨before, island, after, exit, hl, hb, he, ht, ho⟩ := ih1 i hi
            refine ⟨isl0 :: before, island, after, exit, by rw [hl]; rfl, ?_, he, ht, ho⟩
            intro isl hm
            rcases List.mem_cons.1 hm with rfl | hm
            · rw [hexit]; exact fun hc => by cases hc
            · exact hb isl hm
          · rintro ⟨before, island, after, i, exit, hl, hb, he, ht, ho⟩
            cases before with
            | nil =>
              simp only [List.nil_append, List.cons.injEq] at hl
              obtain ⟨rfl, -⟩ := hl
              rw [hexit] at he
              simp only [Option.some.injEq] at he
              subst he
              rw [hj] at ht
              simp only [Option.some.injEq] at ht
              subst ht
              exact hover ho
            | cons b bs =>
              simp only [List.cons_append, List.cons.injEq] at hl
              exact ih2 hn ⟨bs, island, after, i, exit, hl.2,
                fun isl hm => hb isl (List.mem_cons_of_mem _ hm), he, ht, ho⟩

/-- The loop that resets the offsets keeps the number and the sizes of the
fragments, and afterwards every fragment starts where the one before it ends. -/
theorem resetChain_spec (l : List TextFragment) :
    ∀ prev : TextFragment,
      (doRelax.resetChain prev l).length = l.length ∧
      (doRelax.resetChain prev l).map TextFragment.size = l.map TextFragment.size ∧
      List.Chain offsetFollows prev (doRelax.resetChain prev l) := by
  induction l with
  | nil => intro prev; exact ⟨rfl, rfl, List.Chain.nil⟩
  | cons g rest ih =>
    intro prev
    obtain ⟨h1, h2, h3⟩ := ih { g with offset := (prev.offset + prev.size) % 2 ^ 64 }
    refine ⟨?_, ?_, ?_⟩
    · simp only [doRelax.resetChain, List.length_cons, h1]
    · simp only [doRelax.resetChain, List.map_cons, h2]
    · simp only [doRelax.resetChain]
      exact List.Chain.cons rfl h3

/-- What the reconciliation has done when it started at position `i`. -/
theorem resetOffsets_spec {text text2 : List TextFragment} {i : Nat} (hi : i < text.length)
    (h : doRelax.resetOffsets text i = some text2) :
    ∃ pre prev old post, text = pre ++ prev :: old ∧ pre.length + 1 = i ∧
      text2 = pre ++ prev :: post ∧ post.length = old.length ∧
      post.map TextFragment.size = old.map TextFragment.size ∧
      List.Chain offsetFollows prev post := by
  unfold doRelax.resetOffsets at h
  cases hl : (text.take i).getLast? with
  | none => rw [hl] at h; cases h
  | some prev =>
    rw [hl] at h
    simp only [Option.some.injEq] at h
    obtain ⟨pre, hpre⟩ : ∃ pre, text.take i = pre ++ [prev] := by
      have hne : text.take i ≠ [] := by
        intro hc; rw [hc] at hl; cases hl
      refine ⟨(text.take i).dropLast, ?_⟩
      have := List.dropLast_append_getLast hne
      rw [List.getLast?_eq_getLast _ hne] at hl
      simp only [Option.some.injEq] at hl
      rw [hl] at this
      exact this.symm
    have hlen : pre.length + 1 = i := by
      have := congrArg List.length hpre
      rw [List.length_take, List.length_append, List.length_singleton] at this
      omega
    obtain ⟨s1, s2, s3⟩ := resetChain_spec (text.drop i) prev
    refine ⟨pre, prev, text.drop i, doRelax.resetChain prev (text.drop i), ?_, hlen, ?_, s1,
      s2, s3⟩
    · have := (List.take_append_drop i text).symm
      rw [hpre] at this
      simpa using this
    · rw [← h, hpre]
      simp

/-- A returning `doRelax` pass, phase by phase: the factories are present,
the stub requests have returned, the island loop has returned `invalid`, the
offsets have been reconciled and the size of `.text` reset. -/
theorem doRelax_some {base : GNULDBackend} {m : RelaxModule} {st : RelaxState}
    {r : RelaxResult} (h : doRelax base m st = some r) :
    ∃ factory st1 b invalid text st2,
      m.getStubFactory = some factory ∧ m.hasBRIslandFactory = true ∧
      doRelax.requestStubs base m factory (st, false) m.relocations = some (st1, b) ∧
      doRelax.findInvalid st1.text st1.islands = some invalid ∧
      doRelax.reconcile st1.text invalid = some text ∧
      doRelax.resetTextSize { st1 with text := text } b = some st2 ∧
      r = { isRelaxed := b, pFinished := invalid.isNone, state := st2 } := by
  unfold doRelax at h
  cases hf : m.getStubFactory with
  | none => rw [hf] at h; cases h
  | some factory =>
    rw [hf] at h
    simp only [] at h
    cases hb : m.hasBRIslandFactory with
    | false => rw [hb] at h; simp at h
    | true =>
      rw [hb] at h
      simp only [Bool.not_true, Bool.false_eq_true, if_false] at h
      cases hreq : doRelax.requestStubs base m factory (st, false) m.relocations with
      | none => rw [hreq] at h; cases h
      | some acc =>
        obtain ⟨st1, b⟩ := acc
        rw [hreq] at h
        simp only [] at h
        cases hinv : doRelax.findInvalid st1.text st1.islands with
        | none => rw [hinv] at h; cases h
        | some invalid =>
          rw [hinv] at h
          simp only [] at h
          cases hrec : doRelax.reconcile st1.text invalid with
          | none => rw [hrec] at h; cases h
          | some text =>
            rw [hrec] at h
            simp only [] at h
            cases hsz : doRelax.resetTextSize { st1 with text := text } b with
            | none => rw [hsz] at h; cases h
            | some st2 =>
              rw [hsz] at h
              simp only [Option.some.injEq] at h
              exact ⟨factory, st1, b, invalid, text, st2, rfl, rfl, hreq, hinv, hrec, hsz, h.symm⟩

/-- The last statement of `doRelax` touches the size of `.text` only. -/
theorem resetTextSize_spec {st st2 : RelaxState} {b : Bool}
    (h : doRelax.resetTextSize st b = some st2) :
    st2.text = st.text ∧ st2.islands = st.islands ∧ st2.stubs = st.stubs ∧
    st2.symtabSize = st.symtabSize ∧ st2.symtabInfo = st.symtabInfo ∧
    st2.strtabSize = st.strtabSize ∧
    (b = false → st2 = st) ∧
    (b = true → ∃ back, st.text.getLast? = some back ∧
      st2.textSize = (back.offset + back.size) % 2 ^ 64) := by
  unfold doRelax.resetTextSize at h
  cases b with
  | false =>
    simp only [Bool.false_eq_true, if_false, Option.some.injEq] at h
    subst h
    exact ⟨rfl, rfl, rfl, rfl, rfl, rfl, fun _ => rfl, fun hc => (by cases hc)⟩
  | true =>
    simp only [if_true] at h
    cases hl : st.text.getLast? with
    | none => rw [hl] at h; cases h
    | some back =>
      rw [hl] at h
      simp only [Option.some.injEq] at h
      subst h
      exact ⟨rfl, rfl, rfl, rfl, rfl, rfl, fun hc => (by cases hc), fun _ => ⟨back, rfl, rfl⟩⟩

/-- The island loop, when it returns, has found exactly the exit fragment of
the first overrunning island: `invalid` is the position `i` iff `i` is the
exit of an island that overruns it while every island before it in the list
has a fragment of the chain as its exit and does not overrun it. -/
theorem findInvalid_first (text : List TextFragment) (islands : List BranchIsland) :
    ∀ invalid, doRelax.findInvalid text islands = some invalid →
      ∀ i, invalid = some i ↔ firstOverrun text islands i := by
  induction islands with
  | nil =>
    intro invalid h i
    simp only [doRelax.findInvalid, Option.some.injEq] at h
    subst h
    refine ⟨fun hc => (by cases hc), ?_⟩
    rintro ⟨before, island, after, exit, hl, -⟩
    cases before <;> cases hl
  | cons isl0 rest ih =>
    intro invalid h i
    cases hexit : isl0.exit with
    | none =>
      simp only [doRelax.findInvalid, hexit, Option.some.injEq] at h
      subst h
      refine ⟨fun hc => (by cases hc), ?_⟩
      rintro ⟨before, island, after, exit, hl, hb, he, -⟩
      cases before with
      | nil =>
        simp only [List.nil_append, List.cons.injEq] at hl
        rw [← hl.1, hexit] at he
        cases he
      | cons b bs =>
        simp only [List.cons_append, List.cons.injEq] at hl
        obtain ⟨j, e, hj, -⟩ := hb b (List.mem_cons_self _ _)
        rw [← hl.1, hexit] at hj
        cases hj
    | some j =>
      simp only [doRelax.findInvalid, hexit] at h
      cases hj : text[j]? with
      | none => rw [hj] at h; cases h
      | some ex =>
        rw [hj] at h
        simp only [] at h
        by_cases hover : (isl0.offset + isl0.size) % 2 ^ 64 > ex.offset
        · rw [if_pos hover] at h
          simp only [Option.some.injEq] at h
          subst h
          constructor
          · intro hi
            simp only [Option.some.injEq] at hi
            subst hi
            exact ⟨[], isl0, rest, ex, rfl, fun _ hm => (by cases hm), hexit, hj, hover⟩
          · rintro ⟨before, island, after, exit, hl, hb, he, ht, ho⟩
            cases before with
            | nil =>
              simp only [List.nil_append, List.cons.injEq] at hl
              rw [← hl.1, hexit] at he
              exact he
            | cons b bs =>
              simp only [List.cons_append, List.cons.injEq] at hl
              obtain ⟨j', e, hj', he', hno⟩ := hb b (List.mem_cons_self _ _)
              rw [← hl.1, hexit] at hj'
              simp only [Option.some.injEq] at hj'
              subst hj'
              rw [hj] at he'
              simp only [Option.some.injEq] at he'
              subst he'
              rw [← hl.1] at hno
              exact absurd hover hno
        · rw [if_neg hover] at h
          rw [ih invalid h i]
          constructor
          · rintro ⟨before, island, after, exit, hl, hb, he, ht, ho⟩
            refine ⟨isl0 :: before, island, after, exit, by rw [hl]; rfl, ?_, he, ht, ho⟩
            intro isl hm
            rcases List.mem_cons.1 hm with rfl | hm
            · exact ⟨j, ex, hexit, hj, hover⟩
            · exact hb isl hm
          · rintro ⟨before, island, after, exit, hl, hb, he, ht, ho⟩
            cases before with
            | nil =>
              simp only [List.nil_append, List.cons.injEq] at hl
              obtain ⟨rfl, -⟩ := hl
              rw [hexit] at he
              simp only [Option.some.injEq] at he
              subst he
              rw [hj] at ht
              simp only [Option.some.injEq] at ht
              subst ht
              exact absurd ho hover
            | cons b bs =>
              simp only [List.cons_append, List.cons.injEq] at hl
              exact ⟨bs, island, after, exit, hl.2,
                fun isl hm => hb isl (List.mem_cons_of_mem _ hm), he, ht, ho⟩

/-- A chain of offsets formed with 64-bit sums is a chain of exact sums when
no sum reaches `2 ^ 64`. -/
theorem chain_exact (post : List TextFragment) :
    ∀ prev : TextFragment, List.Chain offsetFollows prev post →
      (∀ p ∈ prev :: post, p.offset + p.size < 2 ^ 64) →
      List.Chain (fun p g : TextFragment => g.offset = p.offset + p.size) prev post := by
  induction post with
  | nil => intro prev _ _; exact List.Chain.nil
  | cons g rest ih =>
    intro prev hc hlt
    cases hc with
    | cons hpg hrest =>
      refine List.Chain.cons ?_ (ih g hrest (fun p hp => hlt p (List.mem_cons_of_mem _ hp)))
      have := hlt prev (List.mem_cons_self _ _)
      unfold offsetFollows at hpg
      rw [hpg, Nat.mod_eq_of_lt this]

/-- C23 as stated fails when an island that ends `.text` stands in the list
in front of an overrunning island: the loop leaves at the first island whose
`end()` is the end of `.text`. Here the second island (offset 8, size 12)
overruns its exit fragment, the second fragment at offset 8, and yet the pass
sets `pFinished` to true and leaves the state as it was. -/
theorem finished_despite_overrun :
    doRelax sampleBase sampleQuietModule sampleOverrunAfterEnd
      = some { isRelaxed := false, pFinished := true, state := sampleOverrunAfterEnd } ∧
    ∃ island ∈ sampleOverrunAfterEnd.islands, ∃ i exit,
      island.exit = some i ∧ sampleOverrunAfterEnd.text[i]? = some exit ∧
      island.offset + island.size > exit.offset :=
  ⟨rfl, { offset := 8, size := 12, exit := some 1 }, by decide, 1, { offset := 8, size := 4 },
    rfl, rfl, by decide⟩

/-- C23, amended. A returning `doRelax` pass sets `pFinished` to false if and
only if, in the island list and the `.text` chain as the stub requests of the
pass have left them, there is an island whose exit is a fragment of `.text`
(not its end), whose `offset + size` is greater than the recorded offset of
that fragment, and before which no island of the list ends `.text`;
otherwise it sets `pFinished` to true. The sum is the unsigned 64-bit sum the
code forms; it is the exact sum when no island has a sum of `2 ^ 64` or
more. Without a new stub the list and the chain are those from before the
pass. -/
theorem relax_finished_flag (base : GNULDBackend) (m : RelaxModule) (st : RelaxState)
    (r : RelaxResult) (h : doRelax base m st = some r) :
    ∃ factory st1 b, m.getStubFactory = some factory ∧
      doRelax.requestStubs base m factory (st, false) m.relocations = some (st1, b) ∧
      (b = false → st1 = st) ∧
      (r.pFinished = false ↔
        ∃ before island after i exit, st1.islands = before ++ island :: after ∧
          (∀ isl ∈ before, isl.exit ≠ none) ∧ island.exit = some i ∧
          st1.text[i]? = some exit ∧
          (island.offset + island.size) % 2 ^ 64 > exit.offset) ∧
      (r.pFinished = true ↔
        ¬ ∃ before island after i exit, st1.islands = before ++ island :: after ∧
          (∀ isl ∈ before, isl.exit ≠ none) ∧ island.exit = some i ∧
          st1.text[i]? = some exit ∧
          (island.offset + island.size) % 2 ^ 64 > exit.offset) ∧
      ((∀ island ∈ st1.islands, island.offset + island.size < 2 ^ 64) →
        (r.pFinished = false ↔
          ∃ before island after i exit, st1.islands = before ++ island :: after ∧
            (∀ isl ∈ before, isl.exit ≠ none) ∧ island.exit = some i ∧
            st1.text[i]? = some exit ∧ island.offset + island.size > exit.offset)) := by
  obtain ⟨factory, st1, b, invalid, text, st2, hf, -, hreq, hinv, -, -, hr⟩ := doRelax_some h
  obtain ⟨-, -, -, -, -, -, -, hb, hnil⟩ := requestStubs_spec m.relocations hreq
  have hst : b = false → st1 = st := by
    intro hb0
    apply hnil
    cases hcr : stubsReturned m factory st.text st.islands m.relocations with
    | nil => rfl
    | cons c cs =>
      have : b = true := hb.2 (Or.inr (by rw [hcr]; simp))
      rw [hb0] at this
      cases this
  obtain ⟨hs1, hs2⟩ := findInvalid_spec st1.text st1.islands invalid hinv
  have hfin : r.pFinished = invalid.isNone := by rw [hr]
  have hiff : (r.pFinished = false ↔
        ∃ before island after i exit, st1.islands = before ++ island :: after ∧
          (∀ isl ∈ before, isl.exit ≠ none) ∧ island.exit = some i ∧
          st1.text[i]? = some exit ∧
          (island.offset + island.size) % 2 ^ 64 > exit.offset) ∧
      (r.pFinished = true ↔
        ¬ ∃ before island after i exit, st1.islands = before ++ island :: after ∧
          (∀ isl ∈ before, isl.exit ≠ none) ∧ island.exit = some i ∧
          st1.text[i]? = some exit ∧
          (island.offset + island.size) % 2 ^ 64 > exit.offset) := by
    cases invalid with
    | none =>
      have hno := hs2 rfl
      refine ⟨⟨fun hc => ?_, fun hex => absurd hex hno⟩, ⟨fun _ => hno, fun _ => ?_⟩⟩
      · rw [hfin] at hc; cases hc
      · rw [hfin]; rfl
    | some i =>
      obtain ⟨before, island, after, exit, h1, h2, h3, h4, h5⟩ := hs1 i rfl
      have hex : ∃ before island after i exit, st1.islands = before ++ island :: after ∧
            (∀ isl ∈ before, isl.exit ≠ none) ∧ island.exit = some i ∧
            st1.text[i]? = some exit ∧
            (island.offset + island.size) % 2 ^ 64 > exit.offset :=
        ⟨before, island, after, i, exit, h1, h2, h3, h4, h5⟩
      refine ⟨⟨fun _ => hex, fun _ => ?_⟩, ⟨fun hc => ?_, fun hn => absurd hex hn⟩⟩
      · rw [hfin]; rfl
      · rw [hfin] at hc; cases hc
  refine ⟨factory, st1, b, hf, hreq, hst, hiff.1, hiff.2, fun hlt => ?_⟩
  rw [hiff.1]
  constructor
  · rintro ⟨before, island, after, i, exit, h1, h2, h3, h4, h5⟩
    have hmem : island ∈ st1.islands := by
      rw [h1]; exact List.mem_append_right _ (List.mem_cons_self _ _)
    rw [Nat.mod_eq_of_lt (hlt island hmem)] at h5
    exact ⟨before, island, after, i, exit, h1, h2, h3, h4, h5⟩
  · rintro ⟨before, island, after, i, exit, h1, h2, h3, h4, h5⟩
    have hmem : island ∈ st1.islands := by
      rw [h1]; exact List.mem_append_right _ (List.mem_cons_self _ _)
    refine ⟨before, island, after, i, exit, h1, h2, h3, h4, ?_⟩
    rw [Nat.mod_eq_of_lt (hlt island hmem)]
    exact h5

/-- Instance of C23 (amended), the scenario S4: the first pass of the sample
relaxation inserts a stub of 12 bytes, the island overruns the fragment
behind it, and `pFinished` is false. -/
theorem relax_finished_flag_witness :
    doRelax sampleBase sampleRelaxModule sampleRelaxState
      = some { isRelaxed := true, pFinished := false, state := sampleRelaxedState } ∧
    ∃ factory st1 b, sampleRelaxModule.getStubFactory = some factory ∧
      doRelax.requestStubs sampleBase sampleRelaxModule factory (sampleRelaxState, false)
        sampleRelaxModule.relocations = some (st1, b) ∧
      ∃ before island after i exit, st1.islands = before ++ island :: after ∧
        (∀ isl ∈ before, isl.exit ≠ none) ∧ island.exit = some i ∧
        st1.text[i]? = some exit ∧
        (island.offset + island.size) % 2 ^ 64 > exit.offset := by
  have h : doRelax sampleBase sampleRelaxModule sampleRelaxState
      = some { isRelaxed := true, pFinished := false, state := sampleRelaxedState } := rfl
  obtain ⟨factory, st1, b, hf, hreq, -, hiff, -⟩ :=
    relax_finished_flag sampleBase sampleRelaxModule sampleRelaxState _ h
  exact ⟨h, factory, st1, b, hf, hreq, hiff.1 rfl⟩

/-- C24. If a `doRelax` pass returns, then with `created` the stubs the stub
factory has returned in the pass, as the design describes the requests
(`stubsReturned`; there are k of them, with names of the lengths l_1..l_k):
the state has gained exactly these stubs and each has a local symbol; the
pass returns true iff k is at least 1; with no stub the sizes of `.symtab`,
`.strtab` and `.text` and `sh_info` are as before; with a stub, `.symtab` is
its old size plus 16k on a 32-bit target and plus 24k otherwise, `sh_info`
its old value plus k, `.strtab` its old size plus the sum of the l_i + 1 (all
as unsigned 64-bit values), and the size of `.text` is the offset plus the
size of the last fragment; the growth is exact whenever the sum is below
`2 ^ 64`. -/
theorem stub_bookkeeping (base : GNULDBackend) (m : RelaxModule) (st : RelaxState)
    (r : RelaxResult) (h : doRelax base m st = some r) :
    ∃ factory created, m.getStubFactory = some factory ∧
      created = stubsReturned m factory st.text st.islands m.relocations ∧
      r.state.stubs = st.stubs ++ created ∧
      (∀ s ∈ created, ∃ info, s.symInfo = some info ∧ info.isLocal = true) ∧
      (r.isRelaxed = true ↔ 1 ≤ created.length) ∧
      (created = [] →
        r.state.symtabSize = st.symtabSize ∧ r.state.symtabInfo = st.symtabInfo ∧
        r.state.strtabSize = st.strtabSize ∧ r.state.textSize = st.textSize) ∧
      (1 ≤ created.length →
        (base.config.is32Bits = true →
          r.state.symtabSize = (st.symtabSize + 16 * created.length) % 2 ^ 64) ∧
        (base.config.is32Bits = false →
          r.state.symtabSize = (st.symtabSize + 24 * created.length) % 2 ^ 64) ∧
        r.state.symtabInfo = (st.symtabInfo + created.length) % 2 ^ 64 ∧
        r.state.strtabSize
          = (st.strtabSize + (created.map fun s => s.nameSize + 1).sum) % 2 ^ 64 ∧
        ∃ back, r.state.text.getLast? = some back ∧
          r.state.textSize = (back.offset + back.size) % 2 ^ 64 ∧
          (back.offset + back.size < 2 ^ 64 →
            r.state.textSize = back.offset + back.size)) ∧
      (base.config.is32Bits = true → st.symtabSize + 16 * created.length < 2 ^ 64 →
        r.state.symtabSize = st.symtabSize + 16 * created.length) ∧
      (base.config.is32Bits = false → st.symtabSize + 24 * created.length < 2 ^ 64 →
        r.state.symtabSize = st.symtabSize + 24 * created.length) ∧
      (st.symtabInfo + created.length < 2 ^ 64 →
        r.state.symtabInfo = st.symtabInfo + created.length) ∧
      (st.strtabSize + (created.map fun s => s.nameSize + 1).sum < 2 ^ 64 →
        r.state.strtabSize = st.strtabSize + (created.map fun s => s.nameSize + 1).sum) := by
  obtain ⟨factory, st1, b, invalid, text, st2, hf, -, hreq, -, -, hsz, hr⟩ := doRelax_some h
  obtain ⟨hs, hloc, hsym, hinfo, hstr, hbd, htxt, hb, hnil⟩ :=
    requestStubs_spec m.relocations hreq
  obtain ⟨t1, -, t3, t4, t5, t6, t7, t8⟩ := resetTextSize_spec hsz
  have hb' : b = true ↔ 1 ≤ (stubsReturned m factory st.text st.islands m.relocations).length := by
    rw [hb]; simp
  subst hr
  -- the three sizes after the pass are those after the stub requests
  have e4 : st2.symtabSize = st1.symtabSize := t4
  have e5 : st2.symtabInfo = st1.symtabInfo := t5
  have e6 : st2.strtabSize = st1.strtabSize := t6
  have hzero : stubsReturned m factory st.text st.islands m.relocations = [] →
      st2.symtabSize = st.symtabSize ∧ st2.symtabInfo = st.symtabInfo ∧
      st2.strtabSize = st.strtabSize ∧ st2.textSize = st.textSize := by
    intro hc
    have hst1 := hnil hc
    have hbf : b = false := by
      cases hbb : b with
      | false => rfl
      | true =>
        have := hb'.1 hbb
        rw [hc] at this
        simp at this
    have hst2 := t7 hbf
    rw [hst2, hst1]
    exact ⟨rfl, rfl, rfl, rfl⟩
  have hpos : 1 ≤ (stubsReturned m factory st.text st.islands m.relocations).length →
      st2.symtabSize = (st.symtabSize + symbolRecordSize base *
          (stubsReturned m factory st.text st.islands m.relocations).length) % 2 ^ 64 ∧
      st2.symtabInfo = (st.symtabInfo +
          (stubsReturned m factory st.text st.islands m.relocations).length) % 2 ^ 64 ∧
      st2.strtabSize = (st.strtabSize +
          ((stubsReturned m factory st.text st.islands m.relocations).map
            fun s => s.nameSize + 1).sum) % 2 ^ 64 := by
    intro hk
    obtain ⟨b1, b2, b3⟩ := hbd hk
    refine ⟨?_, ?_, ?_⟩
    · rw [e4, ← hsym, Nat.mod_eq_of_lt b1]
    · rw [e5, ← hinfo, Nat.mod_eq_of_lt b2]
    · rw [e6, ← hstr, Nat.mod_eq_of_lt b3]
  have hcases : ∀ l : List Stub, l = [] ∨ 1 ≤ l.length := by
    intro l
    cases l with
    | nil => exact Or.inl rfl
    | cons c cs => exact Or.inr (by simp)
  refine ⟨factory, _, hf, rfl, ?_, hloc, hb', hzero, ?_, ?_, ?_, ?_, ?_⟩
  · show st2.stubs = _
    rw [t3]; exact hs
  · intro hk
    obtain ⟨p1, p2, p3⟩ := hpos hk
    obtain ⟨back, hl, hts⟩ := t8 (hb'.2 hk)
    refine ⟨fun h32 => ?_, fun h32 => ?_, p2, p3, back, ?_, hts, fun hlt => ?_⟩
    · rw [p1]; simp only [symbolRecordSize, h32, if_true]
    · rw [p1]; simp only [symbolRecordSize, h32, Bool.false_eq_true, if_false]
    · show st2.text.getLast? = _
      rw [t1]; exact hl
    · rw [hts, Nat.mod_eq_of_lt hlt]
  · intro h32 hlt
    rcases hcases (stubsReturned m factory st.text st.islands m.relocations) with hc | hk
    · rw [(hzero hc).1, hc]; rfl
    · rw [(hpos hk).1]
      simp only [symbolRecordSize, h32, if_true]
      exact Nat.mod_eq_of_lt hlt
  · intro h32 hlt
    rcases hcases (stubsReturned m factory st.text st.islands m.relocations) with hc | hk
    · rw [(hzero hc).1, hc]; rfl
    · rw [(hpos hk).1]
      simp only [symbolRecordSize, h32, Bool.false_eq_true, if_false]
      exact Nat.mod_eq_of_lt hlt
  · intro hlt
    rcases hcases (stubsReturned m factory st.text st.islands m.relocations) with hc | hk
    · rw [(hzero hc).2.1, hc]; rfl
    · rw [(hpos hk).2.1]
      exact Nat.mod_eq_of_lt hlt
  · intro hlt
    rcases hcases (stubsReturned m factory st.text st.islands m.relocations) with hc | hk
    · rw [(hzero hc).2.2.1, hc]; rfl
    · rw [(hpos hk).2.2]
      exact Nat.mod_eq_of_lt hlt

/-- Instance of C24, the scenario S4: in the first pass of the sample
relaxation the factory returns one stub, whose symbol name has 16
characters; `.symtab` grows from 32 to 48, `sh_info` from 2 to 3, `.strtab`
from 10 to 27 and `.text` is resized to 24. -/
theorem stub_bookkeeping_witness :
    doRelax sampleBase sampleRelaxModule sampleRelaxState
      = some { isRelaxed := true, pFinished := false, state := sampleRelaxedState } ∧
    stubsReturned sampleRelaxModule sampleFactory sampleRelaxState.text
        sampleRelaxState.islands sampleRelaxModule.relocations
      = [{ symInfo := some sampleStubSym }] ∧
    sampleRelaxedState.symtabSize = 32 + 16 * 1 ∧
    sampleRelaxedState.symtabInfo = 2 + 1 ∧
    sampleRelaxedState.strtabSize = 10 + (16 + 1) := by
  have h : doRelax sampleBase sampleRelaxModule sampleRelaxState
      = some { isRelaxed := true, pFinished := false, state := sampleRelaxedState } := rfl
  obtain ⟨factory, created, hf, hc, -, -, -, -, -, h32, -, hinfo, hstr⟩ :=
    stub_bookkeeping sampleBase sampleRelaxModule sampleRelaxState _ h
  have hfac : factory = sampleFactory := (Option.some.inj hf).symm
  subst hfac
  have hcr : created = [{ symInfo := some sampleStubSym }] := hc.trans rfl
  subst hcr
  exact ⟨h, rfl, h32 rfl (by decide), hinfo (by decide), hstr (by decide)⟩

/-- C27. In a returning `doRelax` pass, with the chain and the islands as the
stub requests of the pass have left them: the island loop finds the position
`i` exactly when `i` is the exit fragment of the first overrunning island
(`firstOverrun`); and then the fragments before position `i` are as they
were, the fragments from position `i` on keep their sizes, and each of them
has as its offset the (updated) offset plus the size of the fragment before
it, as the unsigned 64-bit sum the code forms, which is the exact sum when no
sum of the new chain reaches `2 ^ 64`. Without a new stub the chain the
island loop reads is the chain from before the pass; when the loop finds no
island, the chain is not changed at all. -/
theorem offsets_reconciled (base : GNULDBackend) (m : RelaxModule) (st : RelaxState)
    (r : RelaxResult) (h : doRelax base m st = some r) :
    ∃ factory st1 b invalid, m.getStubFactory = some factory ∧
      doRelax.requestStubs base m factory (st, false) m.relocations = some (st1, b) ∧
      doRelax.findInvalid st1.text st1.islands = some invalid ∧
      (b = false → st1.text = st.text) ∧
      (∀ i, invalid = some i ↔ firstOverrun st1.text st1.islands i) ∧
      (invalid = none → r.state.text = st1.text) ∧
      (∀ i, firstOverrun st1.text st1.islands i →
        ∃ pre prev old post, st1.text = pre ++ prev :: old ∧ pre.length + 1 = i ∧
          old ≠ [] ∧
          r.state.text = pre ++ prev :: post ∧ post.length = old.length ∧
          post.map TextFragment.size = old.map TextFragment.size ∧
          List.Chain offsetFollows prev post ∧
          ((∀ p ∈ prev :: post, p.offset + p.size < 2 ^ 64) →
            List.Chain (fun p g : TextFragment => g.offset = p.offset + p.size)
              prev post)) := by
  obtain ⟨factory, st1, b, invalid, text, st2, hf, -, hreq, hinv, hrec, hsz, hr⟩ :=
    doRelax_some h
  obtain ⟨-, -, -, -, -, -, -, hb, hnil⟩ := requestStubs_spec m.relocations hreq
  have hst : b = false → st1.text = st.text := by
    intro hb0
    have : st1 = st := by
      apply hnil
      cases hcr : stubsReturned m factory st.text st.islands m.relocations with
      | nil => rfl
      | cons c cs =>
        have : b = true := hb.2 (Or.inr (by rw [hcr]; simp))
        rw [hb0] at this
        cases this
    rw [this]
  have ht : r.state.text = text := by
    rw [hr]
    exact (resetTextSize_spec hsz).1
  have hfirst := findInvalid_first st1.text st1.islands invalid hinv
  refine ⟨factory, st1, b, invalid, hf, hreq, hinv, hst, hfirst, ?_, ?_⟩
  · intro hn
    subst hn
    simp only [doRelax.reconcile, Option.some.injEq] at hrec
    rw [ht, hrec]
  · intro i hfi
    have hi := (hfirst i).2 hfi
    subst hi
    obtain ⟨before, island, after, exit, -, -, -, hex, -⟩ := hfi
    have hlt : i < st1.text.length := by
      by_contra hc
      rw [List.getElem?_eq_none (by omega)] at hex
      cases hex
    simp only [doRelax.reconcile] at hrec
    obtain ⟨pre, prev, old, post, h1, h2, h3, h4, h5, h6⟩ := resetOffsets_spec hlt hrec
    refine ⟨pre, prev, old, post, h1, h2, ?_, by rw [ht, h3], h4, h5, h6,
      chain_exact post prev h6⟩
    intro hold
    rw [h1, hold, List.length_append, List.length_singleton] at hlt
    omega

/-- Instance of C27: in `sampleTwoOverruns` both islands overrun; the pass
starts at the exit of the first one, the fragment at position 1, which moves
from offset 8 to offset 12, and the fragment behind it moves from 12 to 16;
the first fragment stays. -/
theorem offsets_reconciled_witness :
    doRelax sampleBase sampleQuietModule sampleTwoOverruns
      = some { isRelaxed := false, pFinished := false,
               state := sampleTwoOverrunsReconciled } ∧
    firstOverrun sampleTwoOverruns.text sampleTwoOverruns.islands 1 ∧
    ∃ pre prev old post, sampleTwoOverruns.text = pre ++ prev :: old ∧
      pre.length + 1 = 1 ∧ old ≠ [] ∧
      sampleTwoOverrunsReconciled.text = pre ++ prev :: post ∧
      post.length = old.length ∧
      post.map TextFragment.size = old.map TextFragment.size ∧
      List.Chain offsetFollows prev post := by
  have h : doRelax sampleBase sampleQuietModule sampleTwoOverruns
      = some { isRelaxed := false, pFinished := false,
               state := sampleTwoOverrunsReconciled } := rfl
  have hfo : firstOverrun sampleTwoOverruns.text sampleTwoOverruns.islands 1 :=
    ⟨[], { offset := 0, size := 12, exit := some 1 },
      [{ offset := 8, size := 8, exit := some 2 }], { offset := 8, size := 4 },
      rfl, fun _ hm => absurd hm (List.not_mem_nil _), rfl, rfl,
      show (0 + 12) % 2 ^ 64 > 8 by norm_num⟩
  obtain ⟨factory, st1, b, invalid, hf, hreq, -, -, -, -, hrec⟩ :=
    offsets_reconciled sampleBase sampleQuietModule sampleTwoOverruns _ h
  have hfac : factory = sampleFactory := (Option.some.inj hf).symm
  subst hfac
  have hst1 : st1 = sampleTwoOverruns :=
    (congrArg Prod.fst (Option.some.inj hreq)).symm
  subst hst1
  obtain ⟨pre, prev, old, post, h1, h2, h3, h4, h5, h6, h7, -⟩ := hrec 1 hfo
  exact ⟨h, hfo, pre, prev, old, post, h1, h2, h3, h4, h5, h6, h7⟩

/-- The island loop compares the unsigned 64-bit sum: the island of 8 bytes at
offset `2 ^ 64 - 4` ends at 4, which is not beyond the offset 100 of its exit
fragment, so the loop finds nothing. -/
theorem findInvalid_wraps :
    doRelax.findInvalid sampleWrappingIsland.text sampleWrappingIsland.islands
      = some none := by
  simp [doRelax.findInvalid, sampleWrappingIsland]

end mcld
